import Mathlib

/-!
# Signal engine of the trading platform

A shallow embedding of `src/backend/ai-trading-engine.js` (class `AITradingEngine`).

Modelling conventions.

* A JavaScript number is a `JSNum`: `NaN`, the two infinities, or a finite value.  Finite
  values are exact rationals, so decimal literals such as `0.3` are the fractions they denote
  and arithmetic on finite values is exact.  Every sum of weights an evaluator can build, added
  in source order in IEEE double arithmetic, compares with `0`, with the thresholds `0.4`,
  `0.5`, `0.6`, `0.7` and with `1.0` exactly as the rational sum does; the double differs from
  the decimal in the last bit only for `0.1 + 0.2`, `0.3 + 0.1 + 0.2`, `0.4 + 0.2` and
  `0.4 + 0.3 + 0.2`.  For `calculatePositionSize` the double computation and the exact one
  agree on every integer balance from 0 to 600000 (above 500000 the size is clamped to 100).
  Rounding, overflow and the sign of zero are not modelled (a zero divisor is `+0`).
* Whether the volatility is exactly zero depends on rounding.  For that question
  `calculateVolatilityDouble` embeds `calculateVolatility` a second time, with the result of
  every arithmetic step rounded to the nearest double (53 significant bits, ties to even); the
  exponent range is unbounded, so overflow and underflow remain unmodelled.
* `undefined` in a numeric position is `JSNum.nan`: every comparison with it is false and
  every arithmetic result is `NaN`, as in JavaScript.  An absent object (`bb`, `macd`) is
  `Option.none`.
* `Math.sqrt` is kept symbolic: `calculateVolatility` returns a `Root`, the square root of
  its radicand, and a comparison of a root with a constant is decided on the squares.
* `Math.random()` and `new Date().toISOString()` are explicit arguments.
* The `technicalindicators` package is not part of the repository; `analyzeInstrument` takes
  its four calculators as a parameter.
* Methods that assign to `this.insights` take the engine and return the engine after the call.
  The `marketData` object is the list of its entries in `Object.keys` order.
* The order placer of `executeTrades` is an external collaborator: a transition function on a
  state of its own whose call either resolves to a result or throws.  The `async` method is
  modelled by the value its promise resolves to; `console.error` is not modelled.
-/

set_option linter.unusedVariables false

namespace AITradingEngine

/-! ## JavaScript numbers -/

/-- A JavaScript number: `NaN`, `-Infinity`, a finite value, or `Infinity`. -/
inductive JSNum where
  | nan : JSNum
  | ninf : JSNum
  | fin (q : ℚ) : JSNum
  | pinf : JSNum
  deriving DecidableEq

namespace JSNum

/-- The JavaScript comparison `a < b`. -/
def lt : JSNum → JSNum → Bool
  | fin a, fin b => decide (a < b)
  | ninf, fin _ => true
  | ninf, pinf => true
  | fin _, pinf => true
  | _, _ => false

/-- The JavaScript comparison `a > b`. -/
def gt (a b : JSNum) : Bool := lt b a

/-- The JavaScript comparison `a >= b`. -/
def ge : JSNum → JSNum → Bool
  | nan, _ => false
  | _, nan => false
  | a, b => !(lt a b)

/-- The JavaScript comparison `a <= b`. -/
def le (a b : JSNum) : Bool := ge b a

/-- Unary minus. -/
def neg : JSNum → JSNum
  | nan => nan
  | ninf => pinf
  | fin a => fin (-a)
  | pinf => ninf

/-- The JavaScript sum `a + b`. -/
def add : JSNum → JSNum → JSNum
  | nan, _ => nan
  | _, nan => nan
  | pinf, ninf => nan
  | ninf, pinf => nan
  | pinf, _ => pinf
  | _, pinf => pinf
  | ninf, _ => ninf
  | _, ninf => ninf
  | fin a, fin b => fin (a + b)

/-- The JavaScript difference `a - b`. -/
def sub (a b : JSNum) : JSNum := add a (neg b)

/-- The JavaScript quotient `a / b`. -/
def div : JSNum → JSNum → JSNum
  | nan, _ => nan
  | _, nan => nan
  | fin a, fin b =>
    if b = 0 then (if a = 0 then nan else if 0 < a then pinf else ninf) else fin (a / b)
  | fin _, _ => fin 0
  | pinf, fin b => if b < 0 then ninf else pinf
  | ninf, fin b => if b < 0 then pinf else ninf
  | _, _ => nan

/-- The function `Math.abs`. -/
def abs : JSNum → JSNum
  | nan => nan
  | ninf => pinf
  | fin a => fin |a|
  | pinf => pinf

/-- The call `Math.pow(x, 2)`. -/
def sq : JSNum → JSNum
  | nan => nan
  | fin a => fin (a * a)
  | _ => pinf

/-- The JavaScript product `a * b`. -/
def mul : JSNum → JSNum → JSNum
  | nan, _ => nan
  | _, nan => nan
  | fin a, fin b => fin (a * b)
  | fin a, pinf => if a = 0 then nan else if 0 < a then pinf else ninf
  | fin a, ninf => if a = 0 then nan else if 0 < a then ninf else pinf
  | pinf, fin b => if b = 0 then nan else if 0 < b then pinf else ninf
  | ninf, fin b => if b = 0 then nan else if 0 < b then ninf else pinf
  | pinf, pinf => pinf
  | ninf, ninf => pinf
  | pinf, ninf => ninf
  | ninf, pinf => ninf

/-- The function `Math.floor`. -/
def floor : JSNum → JSNum
  | fin a => fin (⌊a⌋ : ℤ)
  | x => x

/-- The call `Math.max(a, b)`: `NaN` if either argument is `NaN`. -/
def max : JSNum → JSNum → JSNum
  | nan, _ => nan
  | _, nan => nan
  | a, b => if lt a b then b else a

/-- The call `Math.min(a, b)`: `NaN` if either argument is `NaN`. -/
def min : JSNum → JSNum → JSNum
  | nan, _ => nan
  | _, nan => nan
  | a, b => if lt b a then b else a

/-- Truthiness of a number: `NaN` and zero are falsy. -/
def truthy : JSNum → Bool
  | nan => false
  | fin a => decide (a ≠ 0)
  | _ => true

end JSNum

open JSNum

/-- The value `Math.sqrt(radicand)`, kept symbolic. -/
structure Root where
  radicand : JSNum
  deriving DecidableEq

/-- The comparison `Math.sqrt(x) > c` for a finite constant `c`. -/
def Root.gt (r : Root) (c : ℚ) : Bool :=
  match r.radicand with
  | nan => false
  | ninf => false
  | fin q => decide (0 ≤ q) && (decide (c < 0) || decide (c * c < q))
  | pinf => true

/-! ## Data model -/

/-- One element of the Bollinger Bands output. -/
structure BBOutput where
  upper : JSNum
  middle : JSNum
  lower : JSNum
  deriving DecidableEq

/-- One element of the MACD output; only the fields the engine reads. -/
structure MACDOutput where
  MACD : JSNum
  signal : JSNum
  deriving DecidableEq

/-- The object literal every evaluator builds. -/
structure Signal where
  symbol : String
  type : String
  strength : JSNum
  reason : String
  strategy : String
  timestamp : String
  deriving DecidableEq

/-- The idiom `o && p(o)` on a possibly absent object: false when `o` is `undefined`. -/
def andAlso {α : Type} (o : Option α) (p : α → Bool) : Bool :=
  match o with
  | some x => p x
  | none => false

/-- The method `Array.prototype.join` with separator `', '`. -/
def joinReasons (reasons : List String) : String := String.intercalate ", " reasons

/-- The call `prices.slice(-n)`: the last `n` elements, or all of them. -/
def sliceLast (n : Nat) (prices : List JSNum) : List JSNum :=
  prices.drop (prices.length - n)

/-! ## Helpers -/

/-- The loop of `calculateVolatility` collecting `(prices[i] - prices[i-1]) / prices[i-1]`. -/
def simpleReturns : List JSNum → List JSNum
  | p0 :: p1 :: rest => div (sub p1 p0) p0 :: simpleReturns (p1 :: rest)
  | _ => []

/-- The method `calculateVolatility`. -/
def calculateVolatility (prices : List JSNum) : Root :=
  if prices.length < 2 then ⟨fin 0⟩
  else
    let returns := simpleReturns prices
    let mean := div (returns.foldl (fun a b => add a b) (fin 0)) (fin returns.length)
    let variance :=
      div (returns.foldl (fun a b => add a (sq (sub b mean))) (fin 0)) (fin returns.length)
    ⟨variance⟩

/-- The method `calculateTrend`. -/
def calculateTrend (prices : List JSNum) : JSNum :=
  if prices.length < 2 then fin 0
  else
    let firstPrice := prices.head?.getD nan
    let lastPrice := prices.getLast?.getD nan
    div (sub lastPrice firstPrice) firstPrice

/-! ## The five evaluators -/

/-- The method `momentumStrategy`. -/
def momentumStrategy (now : String) (symbol : String)
    (currentPrice sma20 sma50 rsi : JSNum) (macd : Option MACDOutput) : Option Signal :=
  let strength0 : JSNum := fin 0
  let reasons0 : List String := []
  let c1 := gt currentPrice sma20 && gt sma20 sma50
  let strength1 := if c1 then add strength0 (fin (3 / 10)) else strength0
  let reasons1 := if c1 then reasons0 ++ ["Price above both SMAs"] else reasons0
  let c2a := gt rsi (fin 50) && lt rsi (fin 70)
  let c2b := lt rsi (fin 30)
  let strength2 :=
    if c2a then add strength1 (fin (2 / 10))
    else if c2b then add strength1 (fin (1 / 10)) else strength1
  let reasons2 :=
    if c2a then reasons1 ++ ["RSI in bullish range"]
    else if c2b then reasons1 ++ ["RSI oversold"] else reasons1
  let c3 := andAlso macd (fun m => gt m.MACD m.signal)
  let strength3 := if c3 then add strength2 (fin (2 / 10)) else strength2
  let reasons3 := if c3 then reasons2 ++ ["MACD bullish crossover"] else reasons2
  if ge strength3 (fin (4 / 10)) then
    some
      { symbol := symbol
        type := "BUY"
        strength := strength3
        reason := joinReasons reasons3
        strategy := "Momentum"
        timestamp := now }
  else none

/-- The method `meanReversionStrategy`. -/
def meanReversionStrategy (now : String) (symbol : String)
    (currentPrice rsi : JSNum) (bb : Option BBOutput) : Option Signal :=
  let strength0 : JSNum := fin 0
  let reasons0 : List String := []
  let c1a := lt rsi (fin 30)
  let c1b := gt rsi (fin 70)
  let strength1 :=
    if c1a then add strength0 (fin (4 / 10))
    else if c1b then add strength0 (fin (4 / 10)) else strength0
  let reasons1 :=
    if c1a then reasons0 ++ ["RSI oversold"]
    else if c1b then reasons0 ++ ["RSI overbought"] else reasons0
  let c2a := andAlso bb (fun b => lt currentPrice b.lower)
  let c2b := andAlso bb (fun b => gt currentPrice b.upper)
  let strength2 :=
    if c2a then add strength1 (fin (3 / 10))
    else if c2b then add strength1 (fin (3 / 10)) else strength1
  let reasons2 :=
    if c2a then reasons1 ++ ["Price below lower Bollinger Band"]
    else if c2b then reasons1 ++ ["Price above upper Bollinger Band"] else reasons1
  if ge strength2 (fin (5 / 10)) then
    let type :=
      if lt rsi (fin 30) || andAlso bb (fun b => lt currentPrice b.lower) then "BUY" else "SELL"
    some
      { symbol := symbol
        type := type
        strength := strength2
        reason := joinReasons reasons2
        strategy := "Mean Reversion"
        timestamp := now }
  else none

/-- The method `breakoutStrategy`. -/
def breakoutStrategy (now : String) (symbol : String)
    (currentPrice : JSNum) (bb : Option BBOutput) (sma20 : JSNum) : Option Signal :=
  let strength0 : JSNum := fin 0
  let reasons0 : List String := []
  let c1 := andAlso bb (fun b => gt currentPrice b.upper)
  let strength1 := if c1 then add strength0 (fin (5 / 10)) else strength0
  let reasons1 := if c1 then reasons0 ++ ["Breakout above upper Bollinger Band"] else reasons0
  let c2 := andAlso bb (fun b => lt currentPrice b.lower)
  let strength2 := if c2 then add strength1 (fin (5 / 10)) else strength1
  let reasons2 := if c2 then reasons1 ++ ["Breakout below lower Bollinger Band"] else reasons1
  let c3 := gt currentPrice sma20
  let strength3 := if c3 then add strength2 (fin (2 / 10)) else strength2
  let reasons3 := if c3 then reasons2 ++ ["Price above SMA20"] else reasons2
  if ge strength3 (fin (6 / 10)) then
    let type := if andAlso bb (fun b => gt currentPrice b.upper) then "BUY" else "SELL"
    some
      { symbol := symbol
        type := type
        strength := strength3
        reason := joinReasons reasons3
        strategy := "Breakout"
        timestamp := now }
  else none

/-- The method `screenTimeStrategy`; `random` is the value `Math.random()` returns. -/
def screenTimeStrategy (now : String) (random : ℚ) (symbol : String)
    (currentPrice change changePercent : JSNum) (prices : List JSNum) : Option Signal :=
  let strength0 : JSNum := fin 0
  let reasons0 : List String := []
  let recentPrices := sliceLast 10 prices
  let priceVolatility := calculateVolatility recentPrices
  let priceTrend := calculateTrend recentPrices
  let c1 := gt changePercent (fin 1) && gt priceTrend (fin (5 / 10))
  let strength1 := if c1 then add strength0 (fin (4 / 10)) else strength0
  let reasons1 := if c1 then reasons0 ++ ["Strong positive momentum"] else reasons0
  let c2 := priceVolatility.gt (2 / 100) && gt (abs priceTrend) (fin (3 / 10))
  let strength2 := if c2 then add strength1 (fin (3 / 10)) else strength1
  let reasons2 := if c2 then reasons1 ++ ["High volatility with trend"] else reasons1
  let volumeSignal := gt (fin random) (fin (7 / 10))
  let strength3 := if volumeSignal then add strength2 (fin (2 / 10)) else strength2
  let reasons3 := if volumeSignal then reasons2 ++ ["High volume activity"] else reasons2
  if ge strength3 (fin (5 / 10)) then
    let type := if gt changePercent (fin 0) then "BUY" else "SELL"
    some
      { symbol := symbol
        type := type
        strength := strength3
        reason := joinReasons reasons3
        strategy := "Screen Time"
        timestamp := now }
  else none

/-- The method `volatilityStrategy`. -/
def volatilityStrategy (now : String) (symbol : String)
    (currentPrice : JSNum) (bb : Option BBOutput) (prices : List JSNum) : Option Signal :=
  let strength0 : JSNum := fin 0
  let reasons0 : List String := []
  let volatility := calculateVolatility (sliceLast 20 prices)
  let bbWidth := match bb with
    | some b => div (sub b.upper b.lower) b.middle
    | none => fin 0
  let c1 := volatility.gt (3 / 100)
  let strength1 := if c1 then add strength0 (fin (4 / 10)) else strength0
  let reasons1 := if c1 then reasons0 ++ ["High volatility detected"] else reasons0
  let c2 := lt bbWidth (fin (2 / 100))
  let strength2 := if c2 then add strength1 (fin (3 / 10)) else strength1
  let reasons2 := if c2 then reasons1 ++ ["Bollinger Band squeeze"] else reasons1
  let c3 := andAlso bb (fun b =>
    lt (div (abs (sub currentPrice b.upper)) currentPrice) (fin (1 / 100)) ||
      lt (div (abs (sub currentPrice b.lower)) currentPrice) (fin (1 / 100)))
  let strength3 := if c3 then add strength2 (fin (2 / 10)) else strength2
  let reasons3 := if c3 then reasons2 ++ ["Price near support/resistance"] else reasons2
  if ge strength3 (fin (6 / 10)) then
    let type := if andAlso bb (fun b => gt currentPrice b.middle) then "BUY" else "SELL"
    some
      { symbol := symbol
        type := type
        strength := strength3
        reason := joinReasons reasons3
        strategy := "Volatility"
        timestamp := now }
  else none

/-! ## The instrument analyzer -/

/-- One bar of a price series; the engine reads only `close`. -/
structure PricePoint where
  close : JSNum
  deriving DecidableEq

/-- The value of `marketData[symbol]`. -/
structure InstrumentData where
  prices : List PricePoint
  currentPrice : JSNum
  change : JSNum
  changePercent : JSNum

/-- The four calculators imported from the `technicalindicators` package, by period. -/
structure Indicators where
  SMA : Nat → List JSNum → List JSNum
  RSI : Nat → List JSNum → List JSNum
  MACD : Nat → Nat → Nat → List JSNum → List MACDOutput
  BollingerBands : Nat → Nat → List JSNum → List BBOutput

/-- The ambient reads of one `analyzeInstrument` call: the value of `Math.random()` and the
timestamp each of the five evaluators would stamp on its signal. -/
structure Ambient where
  random : ℚ
  now : Fin 5 → String

/-- The statement `if (s) signals.push(s)`. -/
def pushIf (signals : List Signal) (s : Option Signal) : List Signal :=
  match s with
  | some x => signals ++ [x]
  | none => signals

/-- The method `analyzeInstrument`. -/
def analyzeInstrument (ti : Indicators) (amb : Ambient) (symbol : String)
    (data : InstrumentData) : List Signal :=
  let signals : List Signal := []
  let prices := data.prices.map (fun p => p.close)
  if prices.length < 50 then signals
  else
    let sma20 := ti.SMA 20 prices
    let sma50 := ti.SMA 50 prices
    let rsi := ti.RSI 14 prices
    let macd := ti.MACD 12 26 9 prices
    let bb := ti.BollingerBands 20 2 prices
    let currentPrice := data.currentPrice
    let currentSMA20 := sma20.getLast?.getD nan
    let currentSMA50 := sma50.getLast?.getD nan
    let currentRSI := rsi.getLast?.getD nan
    let currentMACD := macd.getLast?
    let currentBB := bb.getLast?
    let signals := pushIf signals
      (momentumStrategy (amb.now 0) symbol currentPrice currentSMA20 currentSMA50 currentRSI
        currentMACD)
    let signals := pushIf signals
      (meanReversionStrategy (amb.now 1) symbol currentPrice currentRSI currentBB)
    let signals := pushIf signals
      (breakoutStrategy (amb.now 2) symbol currentPrice currentBB currentSMA20)
    let signals := pushIf signals
      (screenTimeStrategy (amb.now 3) amb.random symbol currentPrice data.change
        data.changePercent prices)
    let signals := pushIf signals
      (volatilityStrategy (amb.now 4) symbol currentPrice currentBB prices)
    signals

/-! ## Insights and the signal aggregator -/

/-- The object `this.insights`. -/
structure Insights where
  totalSignals : Nat
  buySignals : Nat
  sellSignals : Nat
  strongSignals : Nat
  marketSentiment : String
  deriving DecidableEq

/-- The engine object; `insights` is its only mutable field (the `strategies` table is set once
and never read by the methods below). -/
structure Engine where
  insights : Insights
  deriving DecidableEq

/-- The constructor of `AITradingEngine`. -/
def constructor : Engine :=
  { insights :=
      { totalSignals := 0
        buySignals := 0
        sellSignals := 0
        strongSignals := 0
        marketSentiment := "neutral" } }

/-- The method `updateInsights`: five assignments to fields of `this.insights`, the last one
reading the two counts just stored. -/
def updateInsights (eng : Engine) (signals : List Signal) : Engine :=
  let insights := eng.insights
  let insights := { insights with totalSignals := signals.length }
  let insights :=
    { insights with buySignals := (signals.filter (fun s : Signal => s.type == "BUY")).length }
  let insights :=
    { insights with sellSignals := (signals.filter (fun s : Signal => s.type == "SELL")).length }
  let insights :=
    { insights with
      strongSignals :=
        (signals.filter (fun s : Signal => ge s.strength (fin (7 / 10)))).length }
  let insights :=
    if (insights.sellSignals : ℚ) * (15 / 10) < (insights.buySignals : ℚ) then
      { insights with marketSentiment := "bullish" }
    else if (insights.buySignals : ℚ) * (15 / 10) < (insights.sellSignals : ℚ) then
      { insights with marketSentiment := "bearish" }
    else { insights with marketSentiment := "neutral" }
  { eng with insights := insights }

/-- The method `generateSignals`.  `marketData` lists the entries of the object in the order of
`Object.keys`; `amb symbol` are the ambient reads made while the entry keyed `symbol` is
analysed (the keys of an object are distinct).  Returns the signals and the engine after the
call. -/
def generateSignals (ti : Indicators) (amb : String → Ambient) (eng : Engine)
    (marketData : List (String × InstrumentData)) : List Signal × Engine :=
  let signals := marketData.foldl
    (fun signals entry =>
      let symbol := entry.1
      let data := entry.2
      let symbolSignals := analyzeInstrument ti (amb symbol) symbol data
      signals ++ symbolSignals)
    []
  let eng := updateInsights eng signals
  (signals, eng)

/-- The object `getAIInsights` returns. -/
structure InsightsReport where
  totalSignals : Nat
  buySignals : Nat
  sellSignals : Nat
  strongSignals : Nat
  marketSentiment : String
  timestamp : String
  deriving DecidableEq

/-- The method `getAIInsights`; returns its result and the engine after the call. -/
def getAIInsights (now : String) (eng : Engine) : InsightsReport × Engine :=
  ({ totalSignals := eng.insights.totalSignals
     buySignals := eng.insights.buySignals
     sellSignals := eng.insights.sellSignals
     strongSignals := eng.insights.strongSignals
     marketSentiment := eng.insights.marketSentiment
     timestamp := now }, eng)

/-! ## Position sizing and trade execution -/

/-- The `portfolio` argument; `balance` is `none` when the property is missing. -/
structure Portfolio where
  balance : Option JSNum
  deriving DecidableEq

/-- The expression `x || d` for a possibly missing number `x`. -/
def orDefault (x : Option JSNum) (d : JSNum) : JSNum :=
  match x with
  | some v => if truthy v then v else d
  | none => d

/-- The method `calculatePositionSize`. -/
def calculatePositionSize (signal : Signal) (portfolio : Portfolio) : JSNum :=
  let riskPerTrade := fin (2 / 100)
  let accountBalance := orDefault portfolio.balance (fin 100000)
  let riskAmount := mul accountBalance riskPerTrade
  let positionSize := floor (div riskAmount (fin 100))
  JSNum.max (fin 1) (JSNum.min positionSize (fin 100))

/-- The object `orderParams` passed to `placeOrder`. -/
structure OrderParams where
  tradingsymbol : String
  exchange : String
  transaction_type : String
  quantity : JSNum
  product : String
  order_type : String
  deriving DecidableEq

/-- The object a placement resolves to; `success` is the truthiness of `result.success`. -/
structure OrderResult where
  success : Bool
  message : String
  orderId : String
  deriving DecidableEq

/-- What `await zerodhaAPI.placeOrder(orderParams)` does: resolve to a result, or throw. -/
inductive PlaceOutcome where
  | returned (result : OrderResult) : PlaceOutcome
  | threw (error : String) : PlaceOutcome
  deriving DecidableEq

/-- One element of `executedTrades`. -/
structure ExecutedTrade where
  signal : Signal
  order : OrderResult
  timestamp : String
  deriving DecidableEq

/-- The object literal `orderParams` that `executeTrades` builds for a signal. -/
def buildOrderParams (signal : Signal) (portfolio : Portfolio) : OrderParams :=
  { tradingsymbol := signal.symbol
    exchange := "NSE"
    transaction_type := if signal.type == "BUY" then "BUY" else "SELL"
    quantity := calculatePositionSize signal portfolio
    product := "MIS"
    order_type := "MARKET" }

/-- The loop of `executeTrades` from the signal at position `i` on.  The order placer is an
external collaborator with a state of its own: `placeOrder st request` is the outcome of the
call in state `st` and the state after it.  `now i` is the timestamp read while the signal at
position `i` is handled.  A thrown error is caught (and logged to the console). -/
def executeLoop {σ : Type} (placeOrder : σ → OrderParams → PlaceOutcome × σ)
    (now : Nat → String) (portfolio : Portfolio) :
    Nat → List Signal → σ → List ExecutedTrade → List ExecutedTrade × σ
  | _, [], st, executedTrades => (executedTrades, st)
  | i, signal :: rest, st, executedTrades =>
    if ge signal.strength (fin (6 / 10)) then
      let orderParams := buildOrderParams signal portfolio
      match placeOrder st orderParams with
      | (PlaceOutcome.returned result, st1) =>
        if result.success then
          executeLoop placeOrder now portfolio (i + 1) rest st1
            (executedTrades ++ [{ signal := signal, order := result, timestamp := now i }])
        else executeLoop placeOrder now portfolio (i + 1) rest st1 executedTrades
      | (PlaceOutcome.threw _, st1) =>
        executeLoop placeOrder now portfolio (i + 1) rest st1 executedTrades
    else executeLoop placeOrder now portfolio (i + 1) rest st executedTrades

/-- The method `executeTrades`: the value its promise resolves to, and the placer's state after
the run. -/
def executeTrades {σ : Type} (placeOrder : σ → OrderParams → PlaceOutcome × σ)
    (now : Nat → String) (signals : List Signal) (portfolio : Portfolio) (st : σ) :
    List ExecutedTrade × σ :=
  executeLoop placeOrder now portfolio 0 signals st []

/-! ## Double arithmetic

The evaluators above compare sums of a few weights with thresholds, where the exact value and
the double agree.  Whether a variance is exactly zero does depend on rounding, so the volatility
computation is embedded a second time with every arithmetic result rounded to the nearest
double. -/

/-- Round to the nearest integer, ties to the even one. -/
def roundHalfEven (x : ℚ) : ℤ :=
  if x - ⌊x⌋ < 1 / 2 then ⌊x⌋
  else if 1 / 2 < x - ⌊x⌋ then ⌊x⌋ + 1
  else if ⌊x⌋ % 2 = 0 then ⌊x⌋ else ⌊x⌋ + 1

/-- The spacing of the doubles around a positive `a`: `2^(e-52)` where `2^e ≤ a < 2^(e+1)`. -/
def ulp (a : ℚ) : ℚ := (2 : ℚ) ^ (Int.log 2 a - 52)

/-- The double nearest to `q`: 53 significant bits, ties to even.  The exponent range is
unbounded, so overflow to an infinity and underflow to a subnormal or to zero are not
modelled. -/
def roundDouble (q : ℚ) : ℚ :=
  if q = 0 then 0
  else if 0 < q then (roundHalfEven (q / ulp q) : ℚ) * ulp q
  else -((roundHalfEven (-q / ulp (-q)) : ℚ) * ulp (-q))

/-- A JavaScript number rounded to the nearest double; `NaN` and the infinities are kept. -/
def roundNum : JSNum → JSNum
  | fin q => fin (roundDouble q)
  | x => x

/-- The returns `(prices[i] - prices[i-1]) / prices[i-1]` as the loop of `calculateVolatility`
computes them in double arithmetic: the difference is rounded, then the quotient. -/
def simpleReturnsDouble : List JSNum → List JSNum
  | p0 :: p1 :: rest =>
    roundNum (div (roundNum (sub p1 p0)) p0) :: simpleReturnsDouble (p1 :: rest)
  | _ => []

/-- The method `calculateVolatility` in double arithmetic: the same computation as
`calculateVolatility`, with the result of every subtraction, division, addition and
`Math.pow(x, 2)` rounded to the nearest double.  `returns.length` is an exact integer. -/
def calculateVolatilityDouble (prices : List JSNum) : Root :=
  if prices.length < 2 then ⟨fin 0⟩
  else
    let returns := simpleReturnsDouble prices
    let mean :=
      roundNum (div (returns.foldl (fun a b => roundNum (add a b)) (fin 0)) (fin returns.length))
    let variance :=
      roundNum (div
        (returns.foldl (fun a b => roundNum (add a (roundNum (sq (roundNum (sub b mean))))))
          (fin 0))
        (fin returns.length))
    ⟨variance⟩

/-! ## Specification-side definitions

The quantities below follow the wording of the specification (its table of conditions and
weights); the theorems compare them with the evaluators above. -/

/-- The Iverson bracket scaled by a weight: `w·[c]`. -/
def weight (w : ℚ) (c : Bool) : ℚ := if c then w else 0

/-- The type and strength of an optional signal, the part the table of the specification
determines. -/
def verdict (r : Option Signal) : Option (String × JSNum) :=
  r.map (fun s => (s.type, s.strength))

/-- Momentum row of the table: `0.3·[price > SMA20 > SMA50]`, then `0.2` if `50 < RSI < 70`
else `0.1` if `RSI < 30`, then `0.2·[MACD.line > MACD.signal]`. -/
def momentumScore (currentPrice sma20 sma50 rsi : JSNum) (macd : Option MACDOutput) : ℚ :=
  weight (3 / 10) (gt currentPrice sma20 && gt sma20 sma50) +
    (if gt rsi (fin 50) && lt rsi (fin 70) then 2 / 10
     else if lt rsi (fin 30) then 1 / 10 else 0) +
    weight (2 / 10) (andAlso macd (fun m => gt m.MACD m.signal))

/-- Breakout row of the table: `0.5·[price > upper] + 0.5·[price < lower] + 0.2·[price > SMA20]`,
the band conditions needing the bands to be present. -/
def breakoutScore (currentPrice : JSNum) (bb : Option BBOutput) (sma20 : JSNum) : ℚ :=
  weight (5 / 10) (andAlso bb (fun b => gt currentPrice b.upper)) +
    weight (5 / 10) (andAlso bb (fun b => lt currentPrice b.lower)) +
    weight (2 / 10) (gt currentPrice sma20)

/-- Short-Horizon row of the table, with the two windows as parameters: `0.4·[%change > 1 and
trend > 0.5]`, `0.3·[volatility > 0.02 and |trend| > 0.3]`, `0.2·[volume flag]`, the trend over
the trailing `trendWindow` prices and the volatility over the trailing `volWindow` prices. -/
def shortHorizonScore (volWindow trendWindow : Nat) (volumeFlag : Bool)
    (changePercent : JSNum) (prices : List JSNum) : ℚ :=
  weight (4 / 10)
      (gt changePercent (fin 1) &&
        gt (calculateTrend (sliceLast trendWindow prices)) (fin (5 / 10))) +
    weight (3 / 10)
      ((calculateVolatility (sliceLast volWindow prices)).gt (2 / 100) &&
        gt (abs (calculateTrend (sliceLast trendWindow prices))) (fin (3 / 10))) +
    weight (2 / 10) volumeFlag

/-- The phrase "price within 1% of either band", measured relative to the price. -/
def nearBand (currentPrice : JSNum) (b : BBOutput) : Bool :=
  lt (div (abs (sub currentPrice b.upper)) currentPrice) (fin (1 / 100)) ||
    lt (div (abs (sub currentPrice b.lower)) currentPrice) (fin (1 / 100))

/-- Volatility row of the table for a present snapshot `b`: `0.4·[volatility > 0.03]`,
`0.3·[(upper - lower)/middle < 0.02]`, `0.2·[price within 1% of either band]`. -/
def volatilityScore (currentPrice : JSNum) (b : BBOutput) (prices : List JSNum) : ℚ :=
  weight (4 / 10) ((calculateVolatility (sliceLast 20 prices)).gt (3 / 100)) +
    weight (3 / 10) (lt (div (sub b.upper b.lower) b.middle) (fin (2 / 100))) +
    weight (2 / 10) (nearBand currentPrice b)

/-- The phrase "at least two of the three conditions fire". -/
def atLeastTwo (a b c : Bool) : Bool := (a && b) || (a && c) || (b && c)

/-- A series of 50 bars: forty-one closes at 1, then nine doublings up to 512. -/
def doublingSeries : List JSNum :=
  List.replicate 41 (fin 1) ++
    [fin 2, fin 4, fin 8, fin 16, fin 32, fin 64, fin 128, fin 256, fin 512]

/-- An instrument whose 50 closes are `doublingSeries`, the last bar a 100% move. -/
def doublingInstrument : InstrumentData :=
  { prices := doublingSeries.map (fun c => { close := c })
    currentPrice := fin 512
    change := fin 256
    changePercent := fin 100 }

/-- A signal with `0 < strength ≤ bound`, type `BUY` or `SELL`, and a non-empty reason. -/
def Signal.wellFormed (bound : ℚ) (s : Signal) : Prop :=
  lt (fin 0) s.strength = true ∧ le s.strength (fin bound) = true ∧
    (s.type = "BUY" ∨ s.type = "SELL") ∧ s.reason ≠ ""

/-- An indicator package that returns no values at all. -/
def emptyIndicators : Indicators :=
  { SMA := fun _ _ => []
    RSI := fun _ _ => []
    MACD := fun _ _ _ _ => []
    BollingerBands := fun _ _ _ => [] }

/-- Ambient reads with a fixed random value and one timestamp for every evaluator. -/
def fixedAmbient (random : ℚ) (now : String) : Ambient :=
  { random := random
    now := fun _ => now }

/-- The IndicatorSnapshot of the specification: the latest value of each indicator. -/
structure IndicatorSnapshot where
  sma20 : JSNum
  sma50 : JSNum
  rsi : JSNum
  macd : Option MACDOutput
  bb : Option BBOutput

/-- The snapshot computed from a closing-price sequence: the last element of SMA-20, SMA-50,
RSI-14, MACD(12, 26, 9) and Bollinger(20, 2). -/
def snapshotOf (ti : Indicators) (prices : List JSNum) : IndicatorSnapshot :=
  { sma20 := (ti.SMA 20 prices).getLast?.getD nan
    sma50 := (ti.SMA 50 prices).getLast?.getD nan
    rsi := (ti.RSI 14 prices).getLast?.getD nan
    macd := (ti.MACD 12 26 9 prices).getLast?
    bb := (ti.BollingerBands 20 2 prices).getLast? }

/-- The outputs of the five evaluators in the fixed order Momentum, Mean-Reversion, Breakout,
Screen-Time, Volatility, all applied to the one snapshot of the instrument. -/
def evaluatorOutputs (ti : Indicators) (amb : Ambient) (symbol : String)
    (data : InstrumentData) : List (Option Signal) :=
  let prices := data.prices.map (fun p => p.close)
  let snap := snapshotOf ti prices
  [momentumStrategy (amb.now 0) symbol data.currentPrice snap.sma20 snap.sma50 snap.rsi
      snap.macd,
    meanReversionStrategy (amb.now 1) symbol data.currentPrice snap.rsi snap.bb,
    breakoutStrategy (amb.now 2) symbol data.currentPrice snap.bb snap.sma20,
    screenTimeStrategy (amb.now 3) amb.random symbol data.currentPrice data.change
      data.changePercent prices,
    volatilityStrategy (amb.now 4) symbol data.currentPrice snap.bb prices]

/-- The strategy names in evaluator order. -/
def strategyNames : List String :=
  ["Momentum", "Mean Reversion", "Breakout", "Screen Time", "Volatility"]

/-- The sentiment rule of the specification: bullish if `buy > 1.5 × sell`, bearish if
`sell > 1.5 × buy`, else neutral. -/
def sentimentOf (buy sell : Nat) : String :=
  if (buy : ℚ) > 15 / 10 * (sell : ℚ) then "bullish"
  else if (sell : ℚ) > 15 / 10 * (buy : ℚ) then "bearish"
  else "neutral"

/-- The rollup of the specification: `totalSignals = |signals|`, counts by type, the count of
signals with strength at least 0.7, and the sentiment of the two counts. -/
def rollup (signals : List Signal) : Insights :=
  { totalSignals := signals.length
    buySignals := signals.countP (fun s => decide (s.type = "BUY"))
    sellSignals := signals.countP (fun s => decide (s.type = "SELL"))
    strongSignals := signals.countP (fun s => ge s.strength (fin (7 / 10)))
    marketSentiment :=
      sentimentOf (signals.countP (fun s => decide (s.type = "BUY")))
        (signals.countP (fun s => decide (s.type = "SELL"))) }

/-- A signal of the given symbol, type and strength, the other fields fixed. -/
def sampleSignal (symbol type : String) (strength : ℚ) : Signal :=
  { symbol := symbol
    type := type
    strength := fin strength
    reason := "Price above both SMAs"
    strategy := "Momentum"
    timestamp := "t" }

/-- The sizing rule of the specification for a balance `b`:
`max(1, min(floor(b × 0.02 / 100), 100))`. -/
def positionSizeSpec (b : ℚ) : ℤ := Max.max 1 (Min.min ⌊b * (2 / 100) / 100⌋ 100)

/-- Whether a placement succeeded: it resolved to a result with a truthy `success`. -/
def PlaceOutcome.succeeded : PlaceOutcome → Bool
  | PlaceOutcome.returned result => result.success
  | PlaceOutcome.threw _ => false

/-- The placements of a run as the specification describes them: each signal with strength at
least 0.6, in signal order, paired with the outcome of its one placement; the state of the
placer is threaded from one placement to the next whatever the outcome. -/
def placements {σ : Type} (placeOrder : σ → OrderParams → PlaceOutcome × σ)
    (portfolio : Portfolio) : List Signal → σ → List (Signal × PlaceOutcome)
  | [], _ => []
  | signal :: rest, st =>
    if ge signal.strength (fin (6 / 10)) then
      (signal, (placeOrder st (buildOrderParams signal portfolio)).1) ::
        placements placeOrder portfolio rest
          (placeOrder st (buildOrderParams signal portfolio)).2
    else placements placeOrder portfolio rest st

/-- An order placer that behaves like `placeOrder` and also keeps the list of the requests it
has received. -/
def recording {σ : Type} (placeOrder : σ → OrderParams → PlaceOutcome × σ) :
    σ × List OrderParams → OrderParams → PlaceOutcome × (σ × List OrderParams) :=
  fun st request =>
    ((placeOrder st.1 request).1, ((placeOrder st.1 request).2, st.2 ++ [request]))

/-- A placer without state that rejects requests for `symbol` and accepts all others. -/
def rejecting (symbol : String) : Unit → OrderParams → PlaceOutcome × Unit :=
  fun _ request =>
    (PlaceOutcome.returned
      { success := !(request.tradingsymbol == symbol), message := "", orderId := "" }, ())

/-- A placer without state that throws on requests for `symbol` and accepts all others. -/
def throwing (symbol : String) : Unit → OrderParams → PlaceOutcome × Unit :=
  fun _ request =>
    if request.tradingsymbol == symbol then (PlaceOutcome.threw "network", ())
    else (PlaceOutcome.returned { success := true, message := "", orderId := "" }, ())

/-- The square of `Math.sqrt(radicand)` in exact arithmetic: the radicand itself when the root
is a number, `NaN` otherwise. -/
def Root.square (r : Root) : JSNum :=
  match r.radicand with
  | fin q => if 0 ≤ q then fin q else nan
  | pinf => pinf
  | _ => nan

/-- The comparison `Math.sqrt(x) >= 0`: true exactly when the root is a number. -/
def Root.isNonneg (r : Root) : Bool :=
  match r.radicand with
  | fin q => decide (0 ≤ q)
  | pinf => true
  | _ => false

/-- The comparison `Math.sqrt(x) === 0`: the root is zero exactly when its radicand is. -/
def Root.isZero (r : Root) : Bool :=
  match r.radicand with
  | fin q => decide (q = 0)
  | _ => false

/-- The simple period-over-period returns `r_i = (p_i - p_(i-1)) / p_(i-1)` of a list of
rational prices. -/
def returnsQ : List ℚ → List ℚ
  | p0 :: p1 :: rest => (p1 - p0) / p0 :: returnsQ (p1 :: rest)
  | _ => []

/-- The arithmetic mean of a list of rationals. -/
def meanQ (l : List ℚ) : ℚ := l.sum / l.length

/-- The population variance `(1/n)·Σ(r_i - mean(r))²` of a list of rationals. -/
def popVariance (l : List ℚ) : ℚ := (l.map (fun r => (r - meanQ l) ^ 2)).sum / l.length

/-- The geometric progression `a, a·q, a·q², ...` with `n` terms. -/
def geometric (a q : ℚ) : Nat → List ℚ
  | 0 => []
  | n + 1 => a :: geometric (a * q) q n

/-- The mean of the returns as `calculateVolatility` computes it in double arithmetic: the
left-to-right rounded sum, divided by the count and rounded. -/
def meanDouble (returns : List JSNum) : JSNum :=
  roundNum (div (returns.foldl (fun a b => roundNum (add a b)) (fin 0)) (fin returns.length))

/-- The returns in double arithmetic of a list of rational prices. -/
def returnsD : List ℚ → List ℚ
  | p0 :: p1 :: rest => roundDouble (roundDouble (p1 - p0) / p0) :: returnsD (p1 :: rest)
  | _ => []

/-- The mean in double arithmetic of a list of rationals. -/
def meanD (l : List ℚ) : ℚ :=
  roundDouble (l.foldl (fun a b => roundDouble (a + b)) 0 / l.length)

/-- The population variance in double arithmetic of a list of rationals. -/
def varianceD (l : List ℚ) : ℚ :=
  roundDouble
    (l.foldl
      (fun a b =>
        roundDouble (a + roundDouble (roundDouble (b - meanD l) * roundDouble (b - meanD l))))
      0 / l.length)

/-- The sentiment rule with the two tests in the other order: bearish first. -/
def sentimentBearishFirst (buy sell : Nat) : String :=
  if (sell : ℚ) > 15 / 10 * (buy : ℚ) then "bearish"
  else if (buy : ℚ) > 15 / 10 * (sell : ℚ) then "bullish"
  else "neutral"

/-- A signal with the roles of `BUY` and `SELL` exchanged; any other type is kept. -/
def swapType (s : Signal) : Signal :=
  { s with type := if s.type = "BUY" then "SELL" else if s.type = "SELL" then "BUY" else s.type }

/-- The sentiment with `bullish` and `bearish` exchanged; `neutral` is kept. -/
def swapSentiment (sentiment : String) : String :=
  if sentiment = "bullish" then "bearish"
  else if sentiment = "bearish" then "bullish" else sentiment

/-- A falling, volatile series of 50 closes: from 1000, alternately down 6% and up 3% (rounded
to integers), with a last close of 410. -/
def fallingSeries : List ℚ :=
  [1000, 940, 968, 910, 937, 881, 907, 853, 879, 826, 851, 800, 824, 775, 798, 750, 772, 726,
    748, 703, 724, 681, 701, 659, 679, 638, 657, 618, 637, 599, 617, 580, 597, 561, 578, 543,
    559, 525, 541, 509, 524, 493, 508, 478, 492, 462, 476, 447, 460, 410]

/-- The instrument with the closes `fallingSeries`, quoted at its last close 410 after a move
of -50 from 460. -/
def fallingInstrument : InstrumentData :=
  { prices := fallingSeries.map (fun c => { close := fin c })
    currentPrice := fin 410
    change := fin (-50)
    changePercent := fin (-250 / 23) }

/-- An indicator package that reports one fixed snapshot: the values the standard formulas give
for `fallingSeries`, rounded to two decimals (SMA-20 518, SMA-50 676.02, RSI-14 28.93, MACD
-69.75 over signal -71.64, Bollinger bands 411.88, 518, 624.12). -/
def reportedIndicators : Indicators :=
  { SMA := fun period _ => if period = 20 then [fin 518] else [fin (67602 / 100)]
    RSI := fun _ _ => [fin (2893 / 100)]
    MACD := fun _ _ _ _ => [{ MACD := fin (-6975 / 100), signal := fin (-7164 / 100) }]
    BollingerBands := fun _ _ _ =>
      [{ upper := fin (62412 / 100), middle := fin 518, lower := fin (41188 / 100) }] }

/-! ## Evaluation lemmas for JavaScript numbers -/

@[simp] theorem JSNum.lt_fin (a b : ℚ) : lt (fin a) (fin b) = decide (a < b) := rfl

@[simp] theorem JSNum.gt_fin (a b : ℚ) : gt (fin a) (fin b) = decide (b < a) := rfl

@[simp] theorem JSNum.ge_fin (a b : ℚ) : ge (fin a) (fin b) = decide (b ≤ a) := by
  by_cases h : a < b
  · simp [ge, lt, h, not_le.mpr h]
  · simp [ge, lt, h, not_lt.mp h]

@[simp] theorem JSNum.le_fin (a b : ℚ) : le (fin a) (fin b) = decide (a ≤ b) := by
  simp [le]

@[simp] theorem JSNum.add_fin (a b : ℚ) : add (fin a) (fin b) = fin (a + b) := rfl

@[simp] theorem JSNum.neg_fin (a : ℚ) : neg (fin a) = fin (-a) := rfl

@[simp] theorem JSNum.sub_fin (a b : ℚ) : sub (fin a) (fin b) = fin (a - b) := by
  simp [sub, sub_eq_add_neg]

@[simp] theorem JSNum.abs_fin (a : ℚ) : abs (fin a) = fin |a| := rfl

@[simp] theorem JSNum.sq_fin (a : ℚ) : sq (fin a) = fin (a * a) := rfl

@[simp] theorem JSNum.div_fin (a b : ℚ) : div (fin a) (fin b) =
    if b = 0 then (if a = 0 then nan else if 0 < a then pinf else ninf) else fin (a / b) := rfl

theorem JSNum.lt_of_gt_70 (x : JSNum) (h : gt x (fin 70) = true) : lt x (fin 30) = false := by
  cases x <;> simp [gt, lt] at h ⊢
  linarith

theorem JSNum.not_between (p u l : JSNum) (h : le l u = true) (h1 : gt p u = true)
    (h2 : lt p l = true) : False := by
  cases p <;> cases u <;> cases l <;> simp [le, ge, gt, lt] at h h1 h2
  linarith

theorem andAlso_eq_true_iff {α : Type} (o : Option α) (p : α → Bool) :
    andAlso o p = true ↔ ∃ x, o = some x ∧ p x = true := by
  cases o <;> simp [andAlso]

/-! ## Type and strength of every evaluator's result -/

theorem verdict_isSome (r : Option Signal) : r.isSome = (verdict r).isSome := by
  cases r <;> rfl

theorem verdict_some (r : Option Signal) (s : Signal) (h : r = some s) :
    verdict r = some (s.type, s.strength) := by
  subst h
  rfl

theorem verdict_eq_some (r : Option Signal) (t : String) (x : JSNum)
    (h : verdict r = some (t, x)) : ∃ s, r = some s ∧ s.type = t ∧ s.strength = x := by
  cases r with
  | none => simp [verdict] at h
  | some s =>
    simp only [verdict, Option.map_some', Option.some.injEq, Prod.mk.injEq] at h
    exact ⟨s, rfl, h.1, h.2⟩

theorem verdict_eq_none (r : Option Signal) (h : verdict r = none) : r = none := by
  cases r with
  | none => rfl
  | some s => simp [verdict] at h

theorem momentumStrategy_verdict (now symbol : String) (currentPrice sma20 sma50 rsi : JSNum)
    (macd : Option MACDOutput) :
    verdict (momentumStrategy now symbol currentPrice sma20 sma50 rsi macd) =
      if 4 / 10 ≤ momentumScore currentPrice sma20 sma50 rsi macd then
        some ("BUY", fin (momentumScore currentPrice sma20 sma50 rsi macd))
      else none := by
  unfold momentumStrategy momentumScore weight verdict
  dsimp only
  generalize (gt currentPrice sma20 && gt sma20 sma50) = c1
  generalize (gt rsi (fin 50) && lt rsi (fin 70)) = c2a
  generalize lt rsi (fin 30) = c2b
  generalize andAlso macd _ = c3
  cases c1 <;> cases c2a <;> cases c2b <;> cases c3 <;> norm_num

theorem meanReversionStrategy_verdict (now symbol : String) (currentPrice rsi : JSNum)
    (bb : Option BBOutput) :
    verdict (meanReversionStrategy now symbol currentPrice rsi bb) =
      if (lt rsi (fin 30) || gt rsi (fin 70)) &&
          (andAlso bb (fun b => lt currentPrice b.lower) ||
            andAlso bb (fun b => gt currentPrice b.upper)) then
        some (if lt rsi (fin 30) || andAlso bb (fun b => lt currentPrice b.lower) then "BUY"
              else "SELL", fin (7 / 10))
      else none := by
  unfold meanReversionStrategy verdict
  dsimp only
  generalize lt rsi (fin 30) = c1a
  generalize gt rsi (fin 70) = c1b
  generalize andAlso bb (fun b => lt currentPrice b.lower) = c2a
  generalize andAlso bb (fun b => gt currentPrice b.upper) = c2b
  cases c1a <;> cases c1b <;> cases c2a <;> cases c2b <;> norm_num

theorem breakoutStrategy_verdict (now symbol : String) (currentPrice : JSNum)
    (bb : Option BBOutput) (sma20 : JSNum) :
    verdict (breakoutStrategy now symbol currentPrice bb sma20) =
      if 6 / 10 ≤ breakoutScore currentPrice bb sma20 then
        some (if andAlso bb (fun b => gt currentPrice b.upper) then "BUY" else "SELL",
          fin (breakoutScore currentPrice bb sma20))
      else none := by
  unfold breakoutStrategy breakoutScore weight verdict
  dsimp only
  generalize andAlso bb (fun b => gt currentPrice b.upper) = c1
  generalize andAlso bb (fun b => lt currentPrice b.lower) = c2
  generalize gt currentPrice sma20 = c3
  cases c1 <;> cases c2 <;> cases c3 <;> norm_num

theorem screenTimeStrategy_verdict (now : String) (random : ℚ) (symbol : String)
    (currentPrice change changePercent : JSNum) (prices : List JSNum) :
    verdict (screenTimeStrategy now random symbol currentPrice change changePercent prices) =
      if 5 / 10 ≤ shortHorizonScore 10 10 (gt (fin random) (fin (7 / 10))) changePercent prices
      then
        some (if gt changePercent (fin 0) then "BUY" else "SELL",
          fin (shortHorizonScore 10 10 (gt (fin random) (fin (7 / 10))) changePercent prices))
      else none := by
  unfold screenTimeStrategy shortHorizonScore weight verdict
  dsimp only
  generalize (gt changePercent (fin 1) &&
    gt (calculateTrend (sliceLast 10 prices)) (fin (5 / 10))) = c1
  generalize ((calculateVolatility (sliceLast 10 prices)).gt (2 / 100) &&
    gt (abs (calculateTrend (sliceLast 10 prices))) (fin (3 / 10))) = c2
  generalize gt (fin random) (fin (7 / 10)) = c3
  generalize gt changePercent (fin 0) = d
  cases c1 <;> cases c2 <;> cases c3 <;> cases d <;> norm_num

theorem volatilityStrategy_verdict (now symbol : String) (currentPrice : JSNum)
    (b : BBOutput) (prices : List JSNum) :
    verdict (volatilityStrategy now symbol currentPrice (some b) prices) =
      if 6 / 10 ≤ volatilityScore currentPrice b prices then
        some (if gt currentPrice b.middle then "BUY" else "SELL",
          fin (volatilityScore currentPrice b prices))
      else none := by
  unfold volatilityStrategy volatilityScore nearBand weight verdict andAlso
  dsimp only
  generalize (calculateVolatility (sliceLast 20 prices)).gt (3 / 100) = c1
  generalize lt (div (sub b.upper b.lower) b.middle) (fin (2 / 100)) = c2
  generalize (lt (div (abs (sub currentPrice b.upper)) currentPrice) (fin (1 / 100)) ||
    lt (div (abs (sub currentPrice b.lower)) currentPrice) (fin (1 / 100))) = c3
  generalize gt currentPrice b.middle = d
  cases c1 <;> cases c2 <;> cases c3 <;> cases d <;> norm_num

theorem volatilityStrategy_verdict_none (now symbol : String) (currentPrice : JSNum)
    (prices : List JSNum) :
    verdict (volatilityStrategy now symbol currentPrice none prices) =
      if (calculateVolatility (sliceLast 20 prices)).gt (3 / 100) then
        some ("SELL", fin (7 / 10))
      else none := by
  unfold volatilityStrategy verdict andAlso
  dsimp only
  generalize (calculateVolatility (sliceLast 20 prices)).gt (3 / 100) = c1
  cases c1 <;> norm_num

/-! ## Reasons are never empty -/

theorem momentumStrategy_reason (now symbol : String) (currentPrice sma20 sma50 rsi : JSNum)
    (macd : Option MACDOutput) :
    ∀ s, momentumStrategy now symbol currentPrice sma20 sma50 rsi macd = some s →
      s.reason ≠ "" := by
  unfold momentumStrategy
  dsimp only
  generalize (gt currentPrice sma20 && gt sma20 sma50) = c1
  generalize (gt rsi (fin 50) && lt rsi (fin 70)) = c2a
  generalize lt rsi (fin 30) = c2b
  generalize andAlso macd _ = c3
  cases c1 <;> cases c2a <;> cases c2b <;> cases c3 <;> norm_num <;> decide

theorem meanReversionStrategy_reason (now symbol : String) (currentPrice rsi : JSNum)
    (bb : Option BBOutput) :
    ∀ s, meanReversionStrategy now symbol currentPrice rsi bb = some s → s.reason ≠ "" := by
  unfold meanReversionStrategy
  dsimp only
  generalize lt rsi (fin 30) = c1a
  generalize gt rsi (fin 70) = c1b
  generalize andAlso bb (fun b => lt currentPrice b.lower) = c2a
  generalize andAlso bb (fun b => gt currentPrice b.upper) = c2b
  cases c1a <;> cases c1b <;> cases c2a <;> cases c2b <;> norm_num <;> decide

theorem breakoutStrategy_reason (now symbol : String) (currentPrice : JSNum)
    (bb : Option BBOutput) (sma20 : JSNum) :
    ∀ s, breakoutStrategy now symbol currentPrice bb sma20 = some s → s.reason ≠ "" := by
  unfold breakoutStrategy
  dsimp only
  generalize andAlso bb (fun b => gt currentPrice b.upper) = c1
  generalize andAlso bb (fun b => lt currentPrice b.lower) = c2
  generalize gt currentPrice sma20 = c3
  cases c1 <;> cases c2 <;> cases c3 <;> norm_num <;> decide

theorem screenTimeStrategy_reason (now : String) (random : ℚ) (symbol : String)
    (currentPrice change changePercent : JSNum) (prices : List JSNum) :
    ∀ s, screenTimeStrategy now random symbol currentPrice change changePercent prices = some s →
      s.reason ≠ "" := by
  unfold screenTimeStrategy
  dsimp only
  generalize (gt changePercent (fin 1) &&
    gt (calculateTrend (sliceLast 10 prices)) (fin (5 / 10))) = c1
  generalize ((calculateVolatility (sliceLast 10 prices)).gt (2 / 100) &&
    gt (abs (calculateTrend (sliceLast 10 prices))) (fin (3 / 10))) = c2
  generalize gt (fin random) (fin (7 / 10)) = c3
  cases c1 <;> cases c2 <;> cases c3 <;> norm_num <;> decide

theorem volatilityStrategy_reason (now symbol : String) (currentPrice : JSNum)
    (bb : Option BBOutput) (prices : List JSNum) :
    ∀ s, volatilityStrategy now symbol currentPrice bb prices = some s → s.reason ≠ "" := by
  unfold volatilityStrategy
  dsimp only
  generalize (calculateVolatility (sliceLast 20 prices)).gt (3 / 100) = c1
  generalize lt _ (fin (2 / 100)) = c2
  generalize andAlso bb _ = c3
  cases c1 <;> cases c2 <;> cases c3 <;> norm_num <;> decide

/-! ## Bounds on the scores -/

theorem wellFormed_of_verdict (r : Option Signal) (s : Signal) (t : String) (x bound : ℚ)
    (hs : r = some s) (hv : verdict r = some (t, fin x)) (ht : t = "BUY" ∨ t = "SELL")
    (h0 : 0 < x) (h1 : x ≤ bound) (hr : s.reason ≠ "") : s.wellFormed bound := by
  rw [verdict_some r s hs] at hv
  simp only [Option.some.injEq, Prod.mk.injEq] at hv
  obtain ⟨hty, hst⟩ := hv
  refine ⟨?_, ?_, ?_, hr⟩
  · rw [hst]; simpa using h0
  · rw [hst]; simpa using h1
  · rw [hty]; exact ht

theorem buy_or_sell (c : Bool) :
    (if c = true then "BUY" else "SELL") = "BUY" ∨
      (if c = true then "BUY" else "SELL") = "SELL" := by
  cases c <;> simp

theorem wellFormed_of_verdict_ite (r : Option Signal) (s : Signal) (c : Prop) [Decidable c]
    (d : Bool) (x bound : ℚ) (hs : r = some s)
    (hv : verdict r = if c then some (if d = true then "BUY" else "SELL", fin x) else none)
    (h0 : c → 0 < x) (h1 : x ≤ bound) (hr : s.reason ≠ "") : s.wellFormed bound := by
  by_cases h : c
  · rw [if_pos h] at hv
    exact wellFormed_of_verdict r s _ x bound hs hv (buy_or_sell d) (h0 h) h1 hr
  · rw [if_neg h] at hv
    rw [verdict_eq_none r hv] at hs
    cases hs

theorem momentumScore_le (currentPrice sma20 sma50 rsi : JSNum) (macd : Option MACDOutput) :
    momentumScore currentPrice sma20 sma50 rsi macd ≤ 7 / 10 := by
  unfold momentumScore weight
  split_ifs <;> norm_num

theorem breakoutScore_le (currentPrice : JSNum) (bb : Option BBOutput) (sma20 : JSNum) :
    breakoutScore currentPrice bb sma20 ≤ 12 / 10 := by
  unfold breakoutScore weight
  split_ifs <;> norm_num

theorem breakoutScore_le_of_ordered (currentPrice : JSNum) (bb : Option BBOutput)
    (sma20 : JSNum) (h : ∀ b, bb = some b → le b.lower b.upper = true) :
    breakoutScore currentPrice bb sma20 ≤ 7 / 10 := by
  unfold breakoutScore weight
  split_ifs with h1 h2 <;> norm_num
  all_goals
    obtain ⟨b, hb, hu⟩ := (andAlso_eq_true_iff _ _).mp h1
    obtain ⟨b2, hb2, hl⟩ := (andAlso_eq_true_iff _ _).mp h2
    rw [hb] at hb2
    cases hb2
    exact JSNum.not_between currentPrice b.upper b.lower (h b hb) hu hl

theorem shortHorizonScore_le (v t : Nat) (flag : Bool) (changePercent : JSNum)
    (prices : List JSNum) : shortHorizonScore v t flag changePercent prices ≤ 9 / 10 := by
  unfold shortHorizonScore weight
  split_ifs <;> norm_num

theorem volatilityScore_le (currentPrice : JSNum) (b : BBOutput) (prices : List JSNum) :
    volatilityScore currentPrice b prices ≤ 9 / 10 := by
  unfold volatilityScore weight
  split_ifs <;> norm_num

theorem breakoutStrategy_wellFormed (now symbol : String) (currentPrice : JSNum)
    (bb : Option BBOutput) (sma20 : JSNum) (s : Signal) (bound : ℚ)
    (hb : breakoutScore currentPrice bb sma20 ≤ bound)
    (hs : breakoutStrategy now symbol currentPrice bb sma20 = some s) :
    s.wellFormed bound := by
  exact wellFormed_of_verdict_ite _ s _ _ _ bound hs
    (breakoutStrategy_verdict now symbol currentPrice bb sma20) (fun h => by linarith) hb
    (breakoutStrategy_reason now symbol currentPrice bb sma20 s hs)

/-! ## The instrument analyzer on short series -/

/-- C1: for every symbol and every instrument whose price sequence has fewer than 50 points,
`analyzeInstrument` returns the empty signal list, whatever `currentPrice`, `change` and
`changePercent` are (and whatever the indicator package and the ambient reads are). -/
theorem analyzeInstrument_short (ti : Indicators) (amb : Ambient) (symbol : String)
    (data : InstrumentData) (h : data.prices.length < 50) :
    analyzeInstrument ti amb symbol data = [] := by
  simp [analyzeInstrument, h]

/-- Witness for C1: a series of three bars yields no signal. -/
theorem analyzeInstrument_short_witness :
    analyzeInstrument emptyIndicators (fixedAmbient 0 "t") "INFY"
      { prices := [⟨fin 1⟩, ⟨fin 2⟩, ⟨fin 3⟩]
        currentPrice := fin 3
        change := fin 1
        changePercent := fin 50 } = [] :=
  analyzeInstrument_short emptyIndicators (fixedAmbient 0 "t") "INFY" _ (by decide)

/-! ## Shape of every emitted signal -/

/-- C2 (as stated, refuted): `breakoutStrategy` called with a snapshot whose upper band lies
below its lower band and a price between them scores `0.5 + 0.5 + 0.2 = 1.2`, so the emitted
signal has a strength above `1.0`. -/
theorem breakoutStrategy_strength_above_one :
    breakoutStrategy "t" "INFY" (fin 2) (some { upper := fin 1, middle := fin 2, lower := fin 3 })
        (fin 1) =
      some
        { symbol := "INFY"
          type := "BUY"
          strength := fin (12 / 10)
          reason := "Breakout above upper Bollinger Band, Breakout below lower Bollinger Band, Price above SMA20"
          strategy := "Breakout"
          timestamp := "t" } ∧
    le (fin (12 / 10)) (fin 1) = false := by
  refine ⟨?_, by norm_num⟩
  norm_num [breakoutStrategy, andAlso]
  decide

/-- C2 (amended): every signal an evaluator produces has `0 < strength`, type `BUY` or `SELL`
and a non-empty reason; `strength ≤ 1.0` holds for `momentumStrategy`,
`meanReversionStrategy`, `screenTimeStrategy` and `volatilityStrategy` on every input, and for
`breakoutStrategy` whenever the Bollinger snapshot is absent or has `lower ≤ upper`; on the
remaining inputs the strength of `breakoutStrategy` is at most `1.2`. -/
theorem evaluators_signal_wellFormed :
    (∀ (now symbol : String) (currentPrice sma20 sma50 rsi : JSNum) (macd : Option MACDOutput)
      (s : Signal), momentumStrategy now symbol currentPrice sma20 sma50 rsi macd = some s →
        s.wellFormed 1) ∧
    (∀ (now symbol : String) (currentPrice rsi : JSNum) (bb : Option BBOutput) (s : Signal),
      meanReversionStrategy now symbol currentPrice rsi bb = some s → s.wellFormed 1) ∧
    (∀ (now symbol : String) (currentPrice : JSNum) (bb : Option BBOutput) (sma20 : JSNum)
      (s : Signal), breakoutStrategy now symbol currentPrice bb sma20 = some s →
        s.wellFormed (12 / 10) ∧
          ((∀ b, bb = some b → le b.lower b.upper = true) → s.wellFormed 1)) ∧
    (∀ (now : String) (random : ℚ) (symbol : String) (currentPrice change changePercent : JSNum)
      (prices : List JSNum) (s : Signal),
      screenTimeStrategy now random symbol currentPrice change changePercent prices = some s →
        s.wellFormed 1) ∧
    (∀ (now symbol : String) (currentPrice : JSNum) (bb : Option BBOutput)
      (prices : List JSNum) (s : Signal),
      volatilityStrategy now symbol currentPrice bb prices = some s → s.wellFormed 1) := by
  refine ⟨?_, ?_, ?_, ?_, ?_⟩
  · intro now symbol currentPrice sma20 sma50 rsi macd s hs
    have hv := momentumStrategy_verdict now symbol currentPrice sma20 sma50 rsi macd
    have hle := momentumScore_le currentPrice sma20 sma50 rsi macd
    split_ifs at hv with h
    · exact wellFormed_of_verdict _ s _ _ 1 hs hv (Or.inl rfl) (by linarith) (by linarith)
        (momentumStrategy_reason now symbol currentPrice sma20 sma50 rsi macd s hs)
    · rw [verdict_eq_none _ hv] at hs
      cases hs
  · intro now symbol currentPrice rsi bb s hs
    exact wellFormed_of_verdict_ite _ s _ _ _ 1 hs
      (meanReversionStrategy_verdict now symbol currentPrice rsi bb) (fun _ => by norm_num)
      (by norm_num) (meanReversionStrategy_reason now symbol currentPrice rsi bb s hs)
  · intro now symbol currentPrice bb sma20 s hs
    refine ⟨breakoutStrategy_wellFormed now symbol currentPrice bb sma20 s _
      (breakoutScore_le currentPrice bb sma20) hs, fun hord => ?_⟩
    have hle := breakoutScore_le_of_ordered currentPrice bb sma20 hord
    exact breakoutStrategy_wellFormed now symbol currentPrice bb sma20 s 1 (by linarith) hs
  · intro now random symbol currentPrice change changePercent prices s hs
    have hle := shortHorizonScore_le 10 10 (gt (fin random) (fin (7 / 10))) changePercent prices
    exact wellFormed_of_verdict_ite _ s _ _ _ 1 hs
      (screenTimeStrategy_verdict now random symbol currentPrice change changePercent prices)
      (fun h => by linarith) (by linarith)
      (screenTimeStrategy_reason now random symbol currentPrice change changePercent prices
        s hs)
  · intro now symbol currentPrice bb prices s hs
    have hr := volatilityStrategy_reason now symbol currentPrice bb prices s hs
    cases bb with
    | none =>
      have hv := volatilityStrategy_verdict_none now symbol currentPrice prices
      split_ifs at hv with h
      · exact wellFormed_of_verdict _ s _ _ 1 hs hv (Or.inr rfl) (by norm_num) (by norm_num) hr
      · rw [verdict_eq_none _ hv] at hs
        cases hs
    | some b =>
      have hle := volatilityScore_le currentPrice b prices
      exact wellFormed_of_verdict_ite _ s _ _ _ 1 hs
        (volatilityStrategy_verdict now symbol currentPrice b prices) (fun h => by linarith)
        (by linarith) hr

/-- Witness for C2: one concrete call of each evaluator, with the signal it returns; the
Bollinger snapshot of the `breakoutStrategy` call has its bands in order. -/
theorem evaluators_signal_wellFormed_witness :
    Signal.wellFormed 1
        { symbol := "INFY", type := "BUY", strength := fin (7 / 10),
          reason := "Price above both SMAs, RSI in bullish range, MACD bullish crossover",
          strategy := "Momentum", timestamp := "t" } ∧
      Signal.wellFormed 1
        { symbol := "INFY", type := "BUY", strength := fin (7 / 10),
          reason := "RSI oversold, Price below lower Bollinger Band",
          strategy := "Mean Reversion", timestamp := "t" } ∧
      Signal.wellFormed 1
        { symbol := "INFY", type := "BUY", strength := fin (7 / 10),
          reason := "Breakout above upper Bollinger Band, Price above SMA20",
          strategy := "Breakout", timestamp := "t" } ∧
      Signal.wellFormed 1
        { symbol := "INFY", type := "BUY", strength := fin (7 / 10),
          reason := "Strong positive momentum, High volatility with trend",
          strategy := "Screen Time", timestamp := "t" } ∧
      Signal.wellFormed 1
        { symbol := "INFY", type := "SELL", strength := fin (7 / 10),
          reason := "High volatility detected, Bollinger Band squeeze",
          strategy := "Volatility", timestamp := "t" } :=
  ⟨evaluators_signal_wellFormed.1 "t" "INFY" (fin 3) (fin 2) (fin 1) (fin 60)
      (some { MACD := fin 2, signal := fin 1 }) _
      (by norm_num [momentumStrategy, andAlso]; decide),
    evaluators_signal_wellFormed.2.1 "t" "INFY" (fin 1) (fin 25)
      (some { upper := fin 4, middle := fin 3, lower := fin 2 }) _
      (by norm_num [meanReversionStrategy, andAlso]; decide),
    (evaluators_signal_wellFormed.2.2.1 "t" "INFY" (fin 5)
      (some { upper := fin 4, middle := fin 3, lower := fin 2 }) (fin 3) _
      (by norm_num [breakoutStrategy, andAlso]; decide)).2
      (by intro b hb; cases hb; norm_num),
    evaluators_signal_wellFormed.2.2.2.1 "t" 0 "INFY" (fin 2) (fin 0) (fin 2)
      [fin 1, fin 2, fin 2] _
      (by
        norm_num [screenTimeStrategy, calculateVolatility, calculateTrend, sliceLast,
          simpleReturns, Root.gt]
        decide),
    evaluators_signal_wellFormed.2.2.2.2 "t" "INFY" (fin 2) none [fin 1, fin 2, fin 2] _
      (by
        norm_num [volatilityStrategy, andAlso, calculateVolatility, sliceLast, simpleReturns,
          Root.gt]
        decide)⟩

/-! ## Momentum -/

/-- C3: the score of `momentumStrategy` is `0.3·[price > SMA20 and SMA20 > SMA50]`, plus `0.2`
if `50 < RSI < 70` else `0.1` if `RSI < 30`, plus `0.2·[MACD present and MACD.line >
MACD.signal]`; a signal is returned if and only if the score is at least `0.4`, its strength
is the score and its type is `BUY`.  In particular, when `price > SMA20 > SMA50`,
`50 < RSI < 70` and `MACD.line > MACD.signal` all hold, a `BUY` of strength `0.7` is emitted. -/
theorem momentumStrategy_score (now symbol : String) (currentPrice sma20 sma50 rsi : JSNum)
    (macd : Option MACDOutput) :
    ((momentumStrategy now symbol currentPrice sma20 sma50 rsi macd).isSome = true ↔
        4 / 10 ≤ momentumScore currentPrice sma20 sma50 rsi macd) ∧
    (∀ s, momentumStrategy now symbol currentPrice sma20 sma50 rsi macd = some s →
        s.strength = fin (momentumScore currentPrice sma20 sma50 rsi macd) ∧ s.type = "BUY") ∧
    (gt currentPrice sma20 = true → gt sma20 sma50 = true → gt rsi (fin 50) = true →
      lt rsi (fin 70) = true → andAlso macd (fun m => gt m.MACD m.signal) = true →
      ∃ s, momentumStrategy now symbol currentPrice sma20 sma50 rsi macd = some s ∧
        s.type = "BUY" ∧ s.strength = fin (7 / 10)) := by
  have hv := momentumStrategy_verdict now symbol currentPrice sma20 sma50 rsi macd
  refine ⟨?_, ?_, ?_⟩
  · rw [verdict_isSome, hv]
    split_ifs with h <;> simp [h]
  · intro s hs
    rw [verdict_some _ s hs] at hv
    split_ifs at hv with h
    simp only [Option.some.injEq, Prod.mk.injEq] at hv
    exact ⟨hv.2, hv.1⟩
  · intro h1 h2 h3 h4 h5
    have hsc : momentumScore currentPrice sma20 sma50 rsi macd = 7 / 10 := by
      simp [momentumScore, weight, h1, h2, h3, h4, h5]; norm_num
    rw [hsc] at hv
    norm_num at hv
    exact verdict_eq_some _ _ _ hv

/-- Witness for C3: price 3 above SMA20 2 above SMA50 1, RSI 60, MACD line 2 over signal 1. -/
theorem momentumStrategy_score_witness :
    ∃ s, momentumStrategy "t" "INFY" (fin 3) (fin 2) (fin 1) (fin 60)
        (some { MACD := fin 2, signal := fin 1 }) = some s ∧
      s.type = "BUY" ∧ s.strength = fin (7 / 10) :=
  (momentumStrategy_score "t" "INFY" (fin 3) (fin 2) (fin 1) (fin 60)
      (some { MACD := fin 2, signal := fin 1 })).2.2
    (by norm_num) (by norm_num) (by norm_num) (by norm_num) (by norm_num [andAlso])

/-! ## Mean reversion -/

theorem bands_either_iff (currentPrice : JSNum) (bb : Option BBOutput) :
    (andAlso bb (fun b => lt currentPrice b.lower) ||
        andAlso bb (fun b => gt currentPrice b.upper)) = true ↔
      ∃ b, bb = some b ∧ (lt currentPrice b.lower = true ∨ gt currentPrice b.upper = true) := by
  cases bb <;> simp [andAlso]

/-- C4: `meanReversionStrategy` returns a signal if and only if an RSI condition fires
(`RSI < 30` or `RSI > 70`) and a Bollinger condition fires (bands present and `price < lower` or
`price > upper`), so a single condition never emits; every signal it emits has strength exactly
`0.7`; with `RSI = 25` and no Bollinger data there is no signal, and with `RSI = 25` and
`price < lower` the signal is a `BUY` of strength `0.7`. -/
theorem meanReversionStrategy_emits_iff (now symbol : String) (currentPrice rsi : JSNum)
    (bb : Option BBOutput) :
    ((meanReversionStrategy now symbol currentPrice rsi bb).isSome = true ↔
        (lt rsi (fin 30) = true ∨ gt rsi (fin 70) = true) ∧
          ∃ b, bb = some b ∧
            (lt currentPrice b.lower = true ∨ gt currentPrice b.upper = true)) ∧
    (∀ s, meanReversionStrategy now symbol currentPrice rsi bb = some s →
        s.strength = fin (7 / 10)) ∧
    meanReversionStrategy now symbol currentPrice (fin 25) none = none ∧
    (∀ b, lt currentPrice b.lower = true →
      ∃ s, meanReversionStrategy now symbol currentPrice (fin 25) (some b) = some s ∧
        s.type = "BUY" ∧ s.strength = fin (7 / 10)) := by
  refine ⟨?_, ?_, ?_, ?_⟩
  · rw [verdict_isSome, meanReversionStrategy_verdict, ← bands_either_iff]
    split_ifs with h <;> simpa using h
  · intro s hs
    have hv := meanReversionStrategy_verdict now symbol currentPrice rsi bb
    rw [verdict_some _ s hs] at hv
    by_cases h : ((lt rsi (fin 30) || gt rsi (fin 70)) &&
          (andAlso bb (fun b => lt currentPrice b.lower) ||
            andAlso bb (fun b => gt currentPrice b.upper))) = true
    · rw [if_pos h] at hv
      simp only [Option.some.injEq, Prod.mk.injEq] at hv
      exact hv.2
    · rw [if_neg h] at hv
      cases hv
  · apply verdict_eq_none
    rw [meanReversionStrategy_verdict]
    simp [andAlso]
  · intro b hb
    apply verdict_eq_some
    rw [meanReversionStrategy_verdict]
    norm_num [andAlso, hb]

/-- Witness for C4: RSI 25 with price 1 below the lower band 2. -/
theorem meanReversionStrategy_emits_iff_witness :
    ∃ s, meanReversionStrategy "t" "INFY" (fin 1) (fin 25)
        (some { upper := fin 4, middle := fin 3, lower := fin 2 }) = some s ∧
      s.type = "BUY" ∧ s.strength = fin (7 / 10) :=
  (meanReversionStrategy_emits_iff "t" "INFY" (fin 1) (fin 25) none).2.2.2
    { upper := fin 4, middle := fin 3, lower := fin 2 } (by norm_num)

/-- C5: every signal `meanReversionStrategy` emits has type `BUY` if `RSI < 30` or (bands
present and) `price < lower`, and `SELL` otherwise; a `SELL` is emitted exactly when `RSI > 70`,
`price > upper` and `price` is not below `lower`. -/
theorem meanReversionStrategy_direction (now symbol : String) (currentPrice rsi : JSNum)
    (bb : Option BBOutput) :
    (∀ s, meanReversionStrategy now symbol currentPrice rsi bb = some s →
        s.type =
          if lt rsi (fin 30) || andAlso bb (fun b => lt currentPrice b.lower) then "BUY"
          else "SELL") ∧
    ((∃ s, meanReversionStrategy now symbol currentPrice rsi bb = some s ∧ s.type = "SELL") ↔
        gt rsi (fin 70) = true ∧
          ∃ b, bb = some b ∧ gt currentPrice b.upper = true ∧
            lt currentPrice b.lower = false) := by
  have hv := meanReversionStrategy_verdict now symbol currentPrice rsi bb
  have key : ∀ s, meanReversionStrategy now symbol currentPrice rsi bb = some s →
      ((lt rsi (fin 30) || gt rsi (fin 70)) &&
          (andAlso bb (fun b => lt currentPrice b.lower) ||
            andAlso bb (fun b => gt currentPrice b.upper))) = true ∧
        s.type =
          if lt rsi (fin 30) || andAlso bb (fun b => lt currentPrice b.lower) then "BUY"
          else "SELL" := by
    intro s hs
    rw [verdict_some _ s hs] at hv
    by_cases h : ((lt rsi (fin 30) || gt rsi (fin 70)) &&
          (andAlso bb (fun b => lt currentPrice b.lower) ||
            andAlso bb (fun b => gt currentPrice b.upper))) = true
    · rw [if_pos h] at hv
      simp only [Option.some.injEq, Prod.mk.injEq] at hv
      exact ⟨h, hv.1⟩
    · rw [if_neg h] at hv
      cases hv
  refine ⟨fun s hs => (key s hs).2, ?_⟩
  constructor
  · rintro ⟨s, hs, hty⟩
    obtain ⟨hc, ht⟩ := key s hs
    rw [hty] at ht
    cases bb with
    | none => simp [andAlso] at hc
    | some b =>
      simp only [andAlso] at hc ht
      cases h1 : lt rsi (fin 30) <;> cases h2 : lt currentPrice b.lower <;>
        cases h3 : gt rsi (fin 70) <;> cases h4 : gt currentPrice b.upper <;>
        simp [h1, h2, h3, h4] at hc ht
      exact ⟨rfl, b, rfl, h4, h2⟩
  · rintro ⟨h70, b, hb, hu, hl⟩
    subst hb
    have h30 := JSNum.lt_of_gt_70 rsi h70
    obtain ⟨s, hs, hty, _⟩ := verdict_eq_some _ "SELL" (fin (7 / 10))
      (by rw [hv]; simp [andAlso, h70, h30, hu, hl])
    exact ⟨s, hs, hty⟩

/-- Witness for C5: RSI 80 with price 5 above the upper band 4 gives a `SELL`. -/
theorem meanReversionStrategy_direction_witness :
    (∃ s, meanReversionStrategy "t" "INFY" (fin 5) (fin 80)
        (some { upper := fin 4, middle := fin 3, lower := fin 2 }) = some s ∧ s.type = "SELL") :=
  (meanReversionStrategy_direction "t" "INFY" (fin 5) (fin 80)
      (some { upper := fin 4, middle := fin 3, lower := fin 2 })).2.mpr
    ⟨by norm_num, _, rfl, by norm_num, by norm_num⟩

/-! ## Breakout -/

/-- C6: the score of `breakoutStrategy` is `0.5·[bands present and price > upper]` plus
`0.5·[bands present and price < lower]` plus `0.2·[price > SMA20]`; a signal is returned if and
only if the score is at least `0.6`, its strength is the score and its type is `BUY` if
`price > upper` and `SELL` otherwise; without Bollinger data nothing is emitted. -/
theorem breakoutStrategy_score (now symbol : String) (currentPrice : JSNum)
    (bb : Option BBOutput) (sma20 : JSNum) :
    ((breakoutStrategy now symbol currentPrice bb sma20).isSome = true ↔
        6 / 10 ≤ breakoutScore currentPrice bb sma20) ∧
    (∀ s, breakoutStrategy now symbol currentPrice bb sma20 = some s →
        s.strength = fin (breakoutScore currentPrice bb sma20) ∧
          s.type = if andAlso bb (fun b => gt currentPrice b.upper) then "BUY" else "SELL") ∧
    breakoutStrategy now symbol currentPrice none sma20 = none := by
  have hv := breakoutStrategy_verdict now symbol currentPrice bb sma20
  refine ⟨?_, ?_, ?_⟩
  · rw [verdict_isSome, hv]
    by_cases h : 6 / 10 ≤ breakoutScore currentPrice bb sma20 <;> simp [h]
  · intro s hs
    rw [verdict_some _ s hs] at hv
    by_cases h : 6 / 10 ≤ breakoutScore currentPrice bb sma20
    · rw [if_pos h] at hv
      simp only [Option.some.injEq, Prod.mk.injEq] at hv
      exact ⟨hv.2, hv.1⟩
    · rw [if_neg h] at hv
      cases hv
  · apply verdict_eq_none
    rw [breakoutStrategy_verdict]
    have : breakoutScore currentPrice none sma20 ≤ 2 / 10 := by
      have h0 : breakoutScore currentPrice none sma20 = weight (2 / 10) (gt currentPrice sma20) := by
        simp [breakoutScore, weight, andAlso]
      rw [h0]
      unfold weight
      split_ifs <;> norm_num
    rw [if_neg (by linarith)]

/-- Witness for C6: price 5 above the upper band 4 and above SMA20 3. -/
theorem breakoutStrategy_score_witness :
    ({ symbol := "INFY", type := "BUY", strength := fin (7 / 10),
        reason := "Breakout above upper Bollinger Band, Price above SMA20",
        strategy := "Breakout", timestamp := "t" } : Signal).strength =
      fin (breakoutScore (fin 5) (some { upper := fin 4, middle := fin 3, lower := fin 2 })
        (fin 3)) ∧
    "BUY" = if andAlso (some ({ upper := fin 4, middle := fin 3, lower := fin 2 } : BBOutput))
        (fun b => gt (fin 5) b.upper) then "BUY" else "SELL" :=
  (breakoutStrategy_score "t" "INFY" (fin 5)
      (some { upper := fin 4, middle := fin 3, lower := fin 2 }) (fin 3)).2.1 _
    (by norm_num [breakoutStrategy, andAlso]; decide)

/-! ## Reading type, strength and emission off a verdict -/

theorem strength_of_verdict (r : Option Signal) (c : Prop) [Decidable c] (t : String) (x : JSNum)
    (hv : verdict r = if c then some (t, x) else none) :
    r.map Signal.strength = if c then some x else none := by
  cases r with
  | none => by_cases h : c <;> simp [verdict, h] at hv ⊢
  | some s =>
    by_cases h : c
    · simp only [verdict, Option.map_some', if_pos h, Option.some.injEq, Prod.mk.injEq] at hv
      simp [h, hv.2]
    · simp [verdict, h] at hv

theorem type_of_verdict (r : Option Signal) (s : Signal) (c : Prop) [Decidable c] (t : String)
    (x : JSNum) (hv : verdict r = if c then some (t, x) else none) (hs : r = some s) :
    c ∧ s.type = t ∧ s.strength = x := by
  rw [verdict_some r s hs] at hv
  by_cases h : c
  · rw [if_pos h] at hv
    simp only [Option.some.injEq, Prod.mk.injEq] at hv
    exact ⟨h, hv.1, hv.2⟩
  · rw [if_neg h] at hv
    cases hv

theorem isSome_of_verdict (r : Option Signal) (c : Prop) [Decidable c] (t : String) (x : JSNum)
    (hv : verdict r = if c then some (t, x) else none) : r.isSome = true ↔ c := by
  rw [verdict_isSome, hv]
  by_cases h : c <;> simp [h]

/-! ## Short-horizon (screen-time) evaluator -/

theorem sliceLast_10_doublingSeries : sliceLast 10 doublingSeries =
    [fin 1, fin 2, fin 4, fin 8, fin 16, fin 32, fin 64, fin 128, fin 256, fin 512] := by
  decide

theorem sliceLast_20_doublingSeries : sliceLast 20 doublingSeries =
    List.replicate 11 (fin 1) ++
      [fin 2, fin 4, fin 8, fin 16, fin 32, fin 64, fin 128, fin 256, fin 512] := by
  decide

/-- C7 (as stated, refuted): on the 50-bar series `doublingSeries` with a 100% change and the
volume flag off, the volatility of the trailing 20 prices exceeds `0.02` and `|trend| > 0.3`,
so the table's reading (window 20) scores `0.4 + 0.3 = 0.7`; `screenTimeStrategy` returns no
signal, because the volatility it uses, over the trailing 10 prices, is 0. -/
theorem screenTimeStrategy_not_trailing_20 :
    (calculateVolatility (sliceLast 20 doublingSeries)).gt (2 / 100) = true ∧
    gt (abs (calculateTrend (sliceLast 10 doublingSeries))) (fin (3 / 10)) = true ∧
    shortHorizonScore 20 10 false (fin 100) doublingSeries = 7 / 10 ∧
    screenTimeStrategy "t" 0 "INFY" (fin 512) (fin 256) (fin 100) doublingSeries = none := by
  have h10 := sliceLast_10_doublingSeries
  have h20 := sliceLast_20_doublingSeries
  have hv : (calculateVolatility (sliceLast 20 doublingSeries)).gt (2 / 100) = true := by
    rw [h20]
    norm_num [calculateVolatility, simpleReturns, Root.gt, List.replicate]
  have hv10 : (calculateVolatility (sliceLast 10 doublingSeries)).gt (2 / 100) = false := by
    rw [h10]
    norm_num [calculateVolatility, simpleReturns, Root.gt]
  have ht : calculateTrend (sliceLast 10 doublingSeries) = fin 511 := by
    rw [h10]
    norm_num [calculateTrend]
  refine ⟨hv, ?_, ?_, ?_⟩
  · rw [ht]; norm_num
  · rw [shortHorizonScore, hv, ht]; norm_num [weight]
  · apply verdict_eq_none
    rw [screenTimeStrategy_verdict, shortHorizonScore, hv10, ht]
    norm_num [weight]

/-- C7 (amended): the strength of `screenTimeStrategy` is the table's score with BOTH windows
equal to 10: the 0.3-weight condition compares the volatility of the trailing 10 prices with
`0.02` (together with `|trend| > 0.3`), and the trend of the 0.4 and 0.3 conditions is computed
over the same trailing 10 prices.  Accordingly two price series with the same trailing 10
prices give the same result. -/
theorem screenTimeStrategy_windows (now : String) (random : ℚ) (symbol : String)
    (currentPrice change changePercent : JSNum) (prices : List JSNum) :
    ((screenTimeStrategy now random symbol currentPrice change changePercent prices).map
        Signal.strength =
      if 5 / 10 ≤ shortHorizonScore 10 10 (gt (fin random) (fin (7 / 10))) changePercent prices
      then some (fin (shortHorizonScore 10 10 (gt (fin random) (fin (7 / 10))) changePercent
        prices))
      else none) ∧
    (∀ prices2, sliceLast 10 prices2 = sliceLast 10 prices →
      screenTimeStrategy now random symbol currentPrice change changePercent prices2 =
        screenTimeStrategy now random symbol currentPrice change changePercent prices) := by
  refine ⟨strength_of_verdict _ _ _ _
    (screenTimeStrategy_verdict now random symbol currentPrice change changePercent prices),
    fun prices2 h => ?_⟩
  simp only [screenTimeStrategy, h]

/-- Witness for C7 (amended): the ten bars 1, 2, 4, ..., 512 alone give the same result as the
50-bar `doublingSeries` that ends with them. -/
theorem screenTimeStrategy_windows_witness :
    screenTimeStrategy "t" 0 "INFY" (fin 512) (fin 256) (fin 100)
        [fin 1, fin 2, fin 4, fin 8, fin 16, fin 32, fin 64, fin 128, fin 256, fin 512] =
      screenTimeStrategy "t" 0 "INFY" (fin 512) (fin 256) (fin 100) doublingSeries :=
  (screenTimeStrategy_windows "t" 0 "INFY" (fin 512) (fin 256) (fin 100) doublingSeries).2 _
    (by rw [sliceLast_10_doublingSeries]; decide)

/-- C8: with `c1` the condition `changePercent > 1 and trend > 0.5`, `c2` the condition
`volatility > 0.02 and |trend| > 0.3` and `c3` the volume flag, `screenTimeStrategy` returns a
signal if and only if `0.4·c1 + 0.3·c2 + 0.2·c3 ≥ 0.5`, that is, exactly when at least two of
the three conditions fire; the emitted type is `BUY` if `changePercent > 0` and `SELL`
otherwise. -/
theorem screenTimeStrategy_two_of_three (now : String) (random : ℚ) (symbol : String)
    (currentPrice change changePercent : JSNum) (prices : List JSNum) (c1 c2 c3 : Bool)
    (h1 : c1 = (gt changePercent (fin 1) &&
      gt (calculateTrend (sliceLast 10 prices)) (fin (5 / 10))))
    (h2 : c2 = ((calculateVolatility (sliceLast 10 prices)).gt (2 / 100) &&
      gt (abs (calculateTrend (sliceLast 10 prices))) (fin (3 / 10))))
    (h3 : c3 = gt (fin random) (fin (7 / 10))) :
    ((screenTimeStrategy now random symbol currentPrice change changePercent prices).isSome
        = true ↔
      5 / 10 ≤ weight (4 / 10) c1 + weight (3 / 10) c2 + weight (2 / 10) c3) ∧
    ((screenTimeStrategy now random symbol currentPrice change changePercent prices).isSome
        = true ↔ atLeastTwo c1 c2 c3 = true) ∧
    (∀ s, screenTimeStrategy now random symbol currentPrice change changePercent prices
        = some s → s.type = if gt changePercent (fin 0) then "BUY" else "SELL") := by
  have hv := screenTimeStrategy_verdict now random symbol currentPrice change changePercent
    prices
  have hsc : shortHorizonScore 10 10 (gt (fin random) (fin (7 / 10))) changePercent prices =
      weight (4 / 10) c1 + weight (3 / 10) c2 + weight (2 / 10) c3 := by
    rw [h1, h2, h3, shortHorizonScore]
  rw [hsc] at hv
  have h2of3 : 5 / 10 ≤ weight (4 / 10) c1 + weight (3 / 10) c2 + weight (2 / 10) c3 ↔
      atLeastTwo c1 c2 c3 = true := by
    cases c1 <;> cases c2 <;> cases c3 <;> norm_num [weight, atLeastTwo]
  refine ⟨isSome_of_verdict _ _ _ _ hv, (isSome_of_verdict _ _ _ _ hv).trans h2of3, ?_⟩
  intro s hs
  exact (type_of_verdict _ s _ _ _ hv hs).2.1

/-- Witness for C8: on the closes 1, 2, 2 (trend 1, volatility 0.5) with a 2% change and
`Math.random()` = 0 the first two conditions fire and the signal is a `BUY`. -/
theorem screenTimeStrategy_two_of_three_witness :
    ({ symbol := "INFY", type := "BUY", strength := fin (7 / 10),
        reason := "Strong positive momentum, High volatility with trend",
        strategy := "Screen Time", timestamp := "t" } : Signal).type =
      if gt (fin 2) (fin 0) then "BUY" else "SELL" :=
  (screenTimeStrategy_two_of_three "t" 0 "INFY" (fin 2) (fin 0) (fin 2)
      [fin 1, fin 2, fin 2] true true false
      (by norm_num [calculateTrend, sliceLast])
      (by norm_num [calculateVolatility, calculateTrend, simpleReturns, sliceLast, Root.gt])
      (by norm_num)).2.2 _
    (by
      norm_num [screenTimeStrategy, calculateVolatility, calculateTrend, simpleReturns,
        sliceLast, Root.gt]
      decide)

/-! ## Volatility evaluator -/

theorem JSNum.relative_lt_iff (p : ℚ) (hp : 0 < p) (u : JSNum) :
    lt (div (abs (sub (fin p) u)) (fin p)) (fin (1 / 100)) =
      lt (abs (sub (fin p) u)) (fin (p / 100)) := by
  have hne : p ≠ 0 := ne_of_gt hp
  cases u with
  | nan => rfl
  | ninf => simp [sub, neg, add, abs, div, lt, not_lt.mpr (le_of_lt hp)]
  | pinf => simp [sub, neg, add, abs, div, lt, not_lt.mpr (le_of_lt hp)]
  | fin q =>
    simp only [JSNum.sub_fin, JSNum.abs_fin, JSNum.div_fin, if_neg hne, JSNum.lt_fin]
    congr 1
    rw [div_lt_iff₀ hp]
    apply propext
    constructor <;> intro h <;> linarith

theorem nearBand_of_pos (p : ℚ) (hp : 0 < p) (b : BBOutput) :
    nearBand (fin p) b =
      (lt (abs (sub (fin p) b.upper)) (fin (p / 100)) ||
        lt (abs (sub (fin p) b.lower)) (fin (p / 100))) := by
  unfold nearBand
  rw [JSNum.relative_lt_iff p hp, JSNum.relative_lt_iff p hp]

/-- C9: with Bollinger data present, `volatilityStrategy` scores `0.4` if the volatility of the
trailing 20 prices exceeds `0.03`, `0.3` if `(upper - lower)/middle < 0.02` and `0.2` if the
price is within 1% of the upper or lower band; a signal is returned if and only if the total is
at least `0.6`, that is, high volatility together with a squeeze or a near-band price; its
strength is the total and its type is `BUY` if `price > middle` and `SELL` otherwise.  For a
positive price `p`, "within 1% of a band" is `|p - band| < p/100`. -/
theorem volatilityStrategy_present_bands (now symbol : String) (currentPrice : JSNum)
    (b : BBOutput) (prices : List JSNum) :
    ((volatilityStrategy now symbol currentPrice (some b) prices).isSome = true ↔
        6 / 10 ≤ volatilityScore currentPrice b prices) ∧
    ((volatilityStrategy now symbol currentPrice (some b) prices).isSome = true ↔
        (calculateVolatility (sliceLast 20 prices)).gt (3 / 100) = true ∧
          (lt (div (sub b.upper b.lower) b.middle) (fin (2 / 100)) = true ∨
            nearBand currentPrice b = true)) ∧
    (∀ s, volatilityStrategy now symbol currentPrice (some b) prices = some s →
        s.strength = fin (volatilityScore currentPrice b prices) ∧
          s.type = if gt currentPrice b.middle then "BUY" else "SELL") ∧
    (∀ p : ℚ, currentPrice = fin p → 0 < p →
      nearBand currentPrice b =
        (lt (abs (sub currentPrice b.upper)) (fin (p / 100)) ||
          lt (abs (sub currentPrice b.lower)) (fin (p / 100)))) := by
  have hv := volatilityStrategy_verdict now symbol currentPrice b prices
  have hiff : 6 / 10 ≤ volatilityScore currentPrice b prices ↔
      (calculateVolatility (sliceLast 20 prices)).gt (3 / 100) = true ∧
          (lt (div (sub b.upper b.lower) b.middle) (fin (2 / 100)) = true ∨
            nearBand currentPrice b = true) := by
    unfold volatilityScore
    generalize (calculateVolatility (sliceLast 20 prices)).gt (3 / 100) = c1
    generalize lt (div (sub b.upper b.lower) b.middle) (fin (2 / 100)) = c2
    generalize nearBand currentPrice b = c3
    cases c1 <;> cases c2 <;> cases c3 <;> norm_num [weight]
  refine ⟨isSome_of_verdict _ _ _ _ hv, (isSome_of_verdict _ _ _ _ hv).trans hiff, ?_, ?_⟩
  · intro s hs
    have h := type_of_verdict _ s _ _ _ hv hs
    exact ⟨h.2.2, h.2.1⟩
  · intro p hp hpos
    subst hp
    exact nearBand_of_pos p hpos b

/-- Witness for C9: price 200 above the bands 99.5, 100, 100.5 (width 1% of the middle band),
after the closes 1, 2, 2 (volatility 0.5). -/
theorem volatilityStrategy_present_bands_witness :
    ({ symbol := "INFY", type := "BUY", strength := fin (7 / 10),
        reason := "High volatility detected, Bollinger Band squeeze",
        strategy := "Volatility", timestamp := "t" } : Signal).strength =
      fin (volatilityScore (fin 200)
        { upper := fin (201 / 2), middle := fin 100, lower := fin (199 / 2) }
        [fin 1, fin 2, fin 2]) ∧
    "BUY" = if gt (fin 200) (fin 100) then "BUY" else "SELL" :=
  (volatilityStrategy_present_bands "t" "INFY" (fin 200)
      { upper := fin (201 / 2), middle := fin 100, lower := fin (199 / 2) }
      [fin 1, fin 2, fin 2]).2.2.1 _
    (by
      norm_num [volatilityStrategy, andAlso, calculateVolatility, sliceLast, simpleReturns,
        Root.gt, abs_div]
      decide)

/-- C10 (the code at the failing input): called without Bollinger data on the closes 1, 2, 2
(volatility 0.5), `volatilityStrategy` takes `bbWidth = 0`, so the squeeze condition fires and
adds its `0.3` to the `0.4` of the volatility condition: a `SELL` of strength `0.7` with the
reason "Bollinger Band squeeze" is returned, where the band-independent conditions alone give
`0.4` and no signal. -/
theorem volatilityStrategy_squeeze_without_bands :
    volatilityStrategy "t" "INFY" (fin 2) none [fin 1, fin 2, fin 2] =
      some
        { symbol := "INFY"
          type := "SELL"
          strength := fin (7 / 10)
          reason := "High volatility detected, Bollinger Band squeeze"
          strategy := "Volatility"
          timestamp := "t" } := by
  norm_num [volatilityStrategy, andAlso, calculateVolatility, sliceLast, simpleReturns, Root.gt]
  decide

/-! ## The instrument analyzer on long series -/

theorem some_of_ite {c : Prop} [Decidable c] {x s : Signal}
    (h : (if c then some x else none) = some s) : x = s := by
  by_cases hc : c
  · rw [if_pos hc] at h
    exact Option.some.inj h
  · rw [if_neg hc] at h
    cases h

theorem momentumStrategy_tag (now symbol : String) (currentPrice sma20 sma50 rsi : JSNum)
    (macd : Option MACDOutput) (s : Signal)
    (h : momentumStrategy now symbol currentPrice sma20 sma50 rsi macd = some s) :
    s.strategy = "Momentum" ∧ s.symbol = symbol := by
  unfold momentumStrategy at h
  dsimp only at h
  have e := some_of_ite h
  subst e
  exact ⟨rfl, rfl⟩

theorem meanReversionStrategy_tag (now symbol : String) (currentPrice rsi : JSNum)
    (bb : Option BBOutput) (s : Signal)
    (h : meanReversionStrategy now symbol currentPrice rsi bb = some s) :
    s.strategy = "Mean Reversion" ∧ s.symbol = symbol := by
  unfold meanReversionStrategy at h
  dsimp only at h
  have e := some_of_ite h
  subst e
  exact ⟨rfl, rfl⟩

theorem breakoutStrategy_tag (now symbol : String) (currentPrice : JSNum)
    (bb : Option BBOutput) (sma20 : JSNum) (s : Signal)
    (h : breakoutStrategy now symbol currentPrice bb sma20 = some s) :
    s.strategy = "Breakout" ∧ s.symbol = symbol := by
  unfold breakoutStrategy at h
  dsimp only at h
  have e := some_of_ite h
  subst e
  exact ⟨rfl, rfl⟩

theorem screenTimeStrategy_tag (now : String) (random : ℚ) (symbol : String)
    (currentPrice change changePercent : JSNum) (prices : List JSNum) (s : Signal)
    (h : screenTimeStrategy now random symbol currentPrice change changePercent prices = some s) :
    s.strategy = "Screen Time" ∧ s.symbol = symbol := by
  unfold screenTimeStrategy at h
  dsimp only at h
  have e := some_of_ite h
  subst e
  exact ⟨rfl, rfl⟩

theorem volatilityStrategy_tag (now symbol : String) (currentPrice : JSNum)
    (bb : Option BBOutput) (prices : List JSNum) (s : Signal)
    (h : volatilityStrategy now symbol currentPrice bb prices = some s) :
    s.strategy = "Volatility" ∧ s.symbol = symbol := by
  unfold volatilityStrategy at h
  dsimp only at h
  have e := some_of_ite h
  subst e
  exact ⟨rfl, rfl⟩

theorem pushIf_chain (o1 o2 o3 o4 o5 : Option Signal) :
    pushIf (pushIf (pushIf (pushIf (pushIf [] o1) o2) o3) o4) o5 =
      [o1, o2, o3, o4, o5].reduceOption := by
  cases o1 <;> cases o2 <;> cases o3 <;> cases o4 <;> cases o5 <;> rfl

theorem analyzeInstrument_eq_outputs (ti : Indicators) (amb : Ambient) (symbol : String)
    (data : InstrumentData) (h : 50 ≤ data.prices.length) :
    analyzeInstrument ti amb symbol data = (evaluatorOutputs ti amb symbol data).reduceOption := by
  have hlt : ¬ (data.prices.map (fun p => p.close)).length < 50 := by
    simpa using h
  unfold analyzeInstrument evaluatorOutputs snapshotOf
  simp only [hlt, if_false]
  exact pushIf_chain _ _ _ _ _

theorem tagged_outputs (symbol : String) (o1 o2 o3 o4 o5 : Option Signal)
    (h1 : ∀ s, o1 = some s → s.strategy = "Momentum" ∧ s.symbol = symbol)
    (h2 : ∀ s, o2 = some s → s.strategy = "Mean Reversion" ∧ s.symbol = symbol)
    (h3 : ∀ s, o3 = some s → s.strategy = "Breakout" ∧ s.symbol = symbol)
    (h4 : ∀ s, o4 = some s → s.strategy = "Screen Time" ∧ s.symbol = symbol)
    (h5 : ∀ s, o5 = some s → s.strategy = "Volatility" ∧ s.symbol = symbol) :
    (([o1, o2, o3, o4, o5].reduceOption).map Signal.strategy).Sublist strategyNames ∧
      ∀ s ∈ [o1, o2, o3, o4, o5].reduceOption, s.symbol = symbol := by
  have e : [o1, o2, o3, o4, o5].reduceOption =
      o1.toList ++ (o2.toList ++ (o3.toList ++ (o4.toList ++ o5.toList))) := by
    cases o1 <;> cases o2 <;> cases o3 <;> cases o4 <;> cases o5 <;> rfl
  have sub : ∀ (o : Option Signal) (n : String) (l1 l2 : List String),
      (∀ s, o = some s → s.strategy = n ∧ s.symbol = symbol) → l1.Sublist l2 →
      (o.toList.map Signal.strategy ++ l1).Sublist (n :: l2) := by
    intro o n l1 l2 ho hl
    cases o with
    | none => exact List.Sublist.cons _ hl
    | some s =>
      have := (ho s rfl).1
      simp only [Option.toList, List.map, List.singleton_append, this]
      exact List.Sublist.cons₂ _ hl
  constructor
  · rw [e]
    simp only [List.map_append]
    unfold strategyNames
    refine sub o1 _ _ _ h1 (sub o2 _ _ _ h2 (sub o3 _ _ _ h3 (sub o4 _ _ _ h4 ?_)))
    have := sub o5 "Volatility" [] [] h5 (List.Sublist.refl _)
    simpa using this
  · intro s hs
    rw [e] at hs
    simp only [List.mem_append, Option.mem_toList, Option.mem_def] at hs
    rcases hs with h | h | h | h | h
    · exact (h1 s h).2
    · exact (h2 s h).2
    · exact (h3 s h).2
    · exact (h4 s h).2
    · exact (h5 s h).2

theorem strategyNames_nodup : strategyNames.Nodup := by
  decide

/-- C11: for every instrument with at least 50 prices, the result of `analyzeInstrument` is the
list of the non-empty outputs of the five evaluators in the fixed order Momentum,
Mean-Reversion, Breakout, Screen-Time, Volatility, all applied to the same indicator snapshot;
it has at most 5 signals, their strategy names form a sublist of the five names in that order
(so no name occurs twice), and each signal carries the analysed symbol. -/
theorem analyzeInstrument_long (ti : Indicators) (amb : Ambient) (symbol : String)
    (data : InstrumentData) (h : 50 ≤ data.prices.length) :
    analyzeInstrument ti amb symbol data =
        (evaluatorOutputs ti amb symbol data).reduceOption ∧
    (analyzeInstrument ti amb symbol data).length ≤ 5 ∧
    ((analyzeInstrument ti amb symbol data).map Signal.strategy).Sublist strategyNames ∧
    ((analyzeInstrument ti amb symbol data).map Signal.strategy).Nodup ∧
    ∀ s ∈ analyzeInstrument ti amb symbol data, s.symbol = symbol := by
  have he := analyzeInstrument_eq_outputs ti amb symbol data h
  have ht : (((evaluatorOutputs ti amb symbol data).reduceOption).map
      Signal.strategy).Sublist strategyNames ∧
      ∀ s ∈ (evaluatorOutputs ti amb symbol data).reduceOption, s.symbol = symbol := by
    unfold evaluatorOutputs
    exact tagged_outputs symbol _ _ _ _ _
      (momentumStrategy_tag _ _ _ _ _ _ _) (meanReversionStrategy_tag _ _ _ _ _)
      (breakoutStrategy_tag _ _ _ _ _) (screenTimeStrategy_tag _ _ _ _ _ _ _)
      (volatilityStrategy_tag _ _ _ _ _)
  rw [he]
  refine ⟨rfl, ?_, ht.1, ht.1.nodup strategyNames_nodup, ht.2⟩
  exact le_trans (List.reduceOption_length_le _) (by simp [evaluatorOutputs])

/-- Witness for C11: the 50-bar instrument `doublingInstrument` with an indicator package that
returns no values. -/
theorem analyzeInstrument_long_witness :
    analyzeInstrument emptyIndicators (fixedAmbient 0 "t") "INFY" doublingInstrument =
      (evaluatorOutputs emptyIndicators (fixedAmbient 0 "t") "INFY"
        doublingInstrument).reduceOption :=
  (analyzeInstrument_long emptyIndicators (fixedAmbient 0 "t") "INFY" doublingInstrument
    (by simp [doublingInstrument, doublingSeries])).1

/-! ## The signal aggregator and its insights -/

theorem foldl_append_flatMap {α β : Type} (f : α → List β) (l : List α) (init : List β) :
    l.foldl (fun acc x => acc ++ f x) init = init ++ l.flatMap f := by
  induction l generalizing init with
  | nil => simp
  | cons x xs ih => simp [List.foldl_cons, ih, List.flatMap_cons, List.append_assoc]

theorem flatMap_filter_of_nil {α β : Type} (f : α → List β) (p : α → Bool) (l : List α)
    (h : ∀ x, p x = false → f x = []) : (l.filter p).flatMap f = l.flatMap f := by
  induction l with
  | nil => rfl
  | cons x xs ih =>
    cases hp : p x
    · simp [List.filter_cons, hp, List.flatMap_cons, h x hp, ih]
    · simp [List.filter_cons, hp, List.flatMap_cons, ih]

theorem updateInsights_insights (eng : Engine) (signals : List Signal) :
    (updateInsights eng signals).insights = rollup signals := by
  have hb : (signals.filter (fun s : Signal => s.type == "BUY")).length =
      signals.countP (fun s => decide (s.type = "BUY")) := by
    rw [List.countP_eq_length_filter]
    rfl
  have hs : (signals.filter (fun s : Signal => s.type == "SELL")).length =
      signals.countP (fun s => decide (s.type = "SELL")) := by
    rw [List.countP_eq_length_filter]
    rfl
  have hg : (signals.filter (fun s : Signal => ge s.strength (fin (7 / 10)))).length =
      signals.countP (fun s => ge s.strength (fin (7 / 10))) := by
    rw [List.countP_eq_length_filter]
  unfold updateInsights rollup sentimentOf
  simp only [hb, hs, hg, gt_iff_lt, mul_comm]
  split_ifs <;> rfl

theorem generateSignals_fst (ti : Indicators) (amb : String → Ambient) (eng : Engine)
    (marketData : List (String × InstrumentData)) :
    (generateSignals ti amb eng marketData).1 =
      marketData.flatMap (fun e => analyzeInstrument ti (amb e.1) e.1 e.2) := by
  unfold generateSignals
  simp only
  rw [foldl_append_flatMap (fun e : String × InstrumentData =>
    analyzeInstrument ti (amb e.1) e.1 e.2)]
  rfl

theorem generateSignals_snd (ti : Indicators) (amb : String → Ambient) (eng : Engine)
    (marketData : List (String × InstrumentData)) :
    (generateSignals ti amb eng marketData).2 =
      updateInsights eng (generateSignals ti amb eng marketData).1 := rfl

/-- C12: for every batch, `generateSignals` returns the concatenation, in the batch's
instrument order, of the result of `analyzeInstrument` for each instrument; instruments with
fewer than 50 prices contribute nothing (dropping them from the batch gives the same list); and
afterwards the stored insights are the rollup of exactly the returned list. -/
theorem generateSignals_concat (ti : Indicators) (amb : String → Ambient) (eng : Engine)
    (marketData : List (String × InstrumentData)) :
    (generateSignals ti amb eng marketData).1 =
        marketData.flatMap (fun e => analyzeInstrument ti (amb e.1) e.1 e.2) ∧
    (generateSignals ti amb eng marketData).1 =
        (marketData.filter (fun e => decide (50 ≤ e.2.prices.length))).flatMap
          (fun e => analyzeInstrument ti (amb e.1) e.1 e.2) ∧
    (generateSignals ti amb eng marketData).2.insights =
        rollup (generateSignals ti amb eng marketData).1 := by
  refine ⟨generateSignals_fst ti amb eng marketData, ?_, ?_⟩
  · rw [generateSignals_fst, flatMap_filter_of_nil]
    intro e he
    have : e.2.prices.length < 50 := by simpa using he
    simp [analyzeInstrument, this]
  · rw [generateSignals_snd, updateInsights_insights]

/-- C13: after `updateInsights`, `totalSignals` is the length of the list, `buySignals` the
number of signals of type `BUY`, `sellSignals` the number of type `SELL` and `strongSignals`
the number with strength at least `0.7`; a single signal of strength exactly `0.7` counts as
strong. -/
theorem updateInsights_counts (eng : Engine) (signals : List Signal) :
    (updateInsights eng signals).insights.totalSignals = signals.length ∧
    (updateInsights eng signals).insights.buySignals =
      signals.countP (fun s => decide (s.type = "BUY")) ∧
    (updateInsights eng signals).insights.sellSignals =
      signals.countP (fun s => decide (s.type = "SELL")) ∧
    (updateInsights eng signals).insights.strongSignals =
      signals.countP (fun s => ge s.strength (fin (7 / 10))) ∧
    (∀ symbol type reason strategy timestamp : String,
      (updateInsights eng
        [Signal.mk symbol type (fin (7 / 10)) reason strategy timestamp]).insights.strongSignals
        = 1) := by
  rw [updateInsights_insights]
  refine ⟨rfl, rfl, rfl, rfl, ?_⟩
  intro symbol type reason strategy timestamp
  rw [updateInsights_insights]
  simp [rollup]

theorem sentimentOf_bearish_iff (buy sell : Nat) :
    sentimentOf buy sell = "bearish" ↔ (sell : ℚ) > 15 / 10 * (buy : ℚ) := by
  unfold sentimentOf
  have hb : (0 : ℚ) ≤ buy := Nat.cast_nonneg buy
  have hs : (0 : ℚ) ≤ sell := Nat.cast_nonneg sell
  split_ifs with h1 h2
  · constructor
    · intro h; exact absurd h (by decide)
    · intro h; exfalso; linarith
  · simp [h2]
  · constructor
    · intro h; exact absurd h (by decide)
    · intro h; exact absurd h h2

/-- C14: after `updateInsights`, `marketSentiment` is `bullish` if and only if
`buySignals > 1.5 × sellSignals`, `bearish` if and only if `sellSignals > 1.5 × buySignals`,
and `neutral` if and only if neither holds; the inequalities are strict: 3 buys and 2 sells
give `neutral`, 4 buys and 2 sells give `bullish`. -/
theorem updateInsights_sentiment (eng : Engine) (signals : List Signal) :
    ((updateInsights eng signals).insights.marketSentiment = "bullish" ↔
      ((updateInsights eng signals).insights.buySignals : ℚ) >
        15 / 10 * ((updateInsights eng signals).insights.sellSignals : ℚ)) ∧
    ((updateInsights eng signals).insights.marketSentiment = "bearish" ↔
      ((updateInsights eng signals).insights.sellSignals : ℚ) >
        15 / 10 * ((updateInsights eng signals).insights.buySignals : ℚ)) ∧
    ((updateInsights eng signals).insights.marketSentiment = "neutral" ↔
      ¬ ((updateInsights eng signals).insights.buySignals : ℚ) >
          15 / 10 * ((updateInsights eng signals).insights.sellSignals : ℚ) ∧
        ¬ ((updateInsights eng signals).insights.sellSignals : ℚ) >
          15 / 10 * ((updateInsights eng signals).insights.buySignals : ℚ)) ∧
    ((updateInsights eng signals).insights.buySignals = 3 →
      (updateInsights eng signals).insights.sellSignals = 2 →
      (updateInsights eng signals).insights.marketSentiment = "neutral") ∧
    ((updateInsights eng signals).insights.buySignals = 4 →
      (updateInsights eng signals).insights.sellSignals = 2 →
      (updateInsights eng signals).insights.marketSentiment = "bullish") := by
  rw [updateInsights_insights]
  simp only [rollup]
  generalize signals.countP (fun s => decide (s.type = "BUY")) = buy
  generalize signals.countP (fun s => decide (s.type = "SELL")) = sell
  refine ⟨?_, sentimentOf_bearish_iff buy sell, ?_, ?_, ?_⟩
  · unfold sentimentOf
    split_ifs with h1 h2
    · simp [h1]
    · constructor
      · intro h; exact absurd h (by decide)
      · intro h; exact absurd h h1
    · constructor
      · intro h; exact absurd h (by decide)
      · intro h; exact absurd h h1
  · unfold sentimentOf
    split_ifs with h1 h2
    · constructor
      · intro h; exact absurd h (by decide)
      · intro h; exact absurd h1 h.1
    · constructor
      · intro h; exact absurd h (by decide)
      · intro h; exact absurd h2 h.2
    · simp [h1, h2]
  · intro hb hs
    subst hb hs
    norm_num [sentimentOf]
  · intro hb hs
    subst hb hs
    norm_num [sentimentOf]

/-- Witness for C14: a batch with 3 buys and 2 sells, and the same batch with a fourth buy. -/
theorem updateInsights_sentiment_witness :
    (updateInsights constructor
        [sampleSignal "A" "BUY" (7 / 10), sampleSignal "B" "BUY" (5 / 10),
          sampleSignal "C" "SELL" (7 / 10), sampleSignal "D" "BUY" (6 / 10),
          sampleSignal "E" "SELL" (6 / 10)]).insights.marketSentiment = "neutral" ∧
      (updateInsights constructor
        [sampleSignal "A" "BUY" (7 / 10), sampleSignal "B" "BUY" (5 / 10),
          sampleSignal "C" "SELL" (7 / 10), sampleSignal "D" "BUY" (6 / 10),
          sampleSignal "E" "SELL" (6 / 10),
          sampleSignal "F" "BUY" (4 / 10)]).insights.marketSentiment = "bullish" :=
  ⟨(updateInsights_sentiment constructor _).2.2.2.1
      (by rw [updateInsights_insights]; decide) (by rw [updateInsights_insights]; decide),
    (updateInsights_sentiment constructor _).2.2.2.2
      (by rw [updateInsights_insights]; decide) (by rw [updateInsights_insights]; decide)⟩

/-- C15: the insights are overwritten, never merged: the engine after `updateInsights` depends
only on the signal list, whatever the engine was before, and so two engines with different
histories that run `generateSignals` on the same batch (with the same ambient reads) return the
same signals and end in the same state. -/
theorem updateInsights_overwrites (eng1 eng2 : Engine) (signals : List Signal) :
    updateInsights eng1 signals = updateInsights eng2 signals ∧
    ∀ (ti : Indicators) (amb : String → Ambient) (marketData : List (String × InstrumentData)),
      generateSignals ti amb eng1 marketData = generateSignals ti amb eng2 marketData := by
  have h : ∀ sigs, updateInsights eng1 sigs = updateInsights eng2 sigs := by
    intro sigs
    have e1 := updateInsights_insights eng1 sigs
    have e2 := updateInsights_insights eng2 sigs
    cases h1 : updateInsights eng1 sigs
    cases h2 : updateInsights eng2 sigs
    rw [h1] at e1
    rw [h2] at e2
    simp only at e1 e2
    rw [e1, e2]
  refine ⟨h signals, fun ti amb marketData => ?_⟩
  unfold generateSignals
  simp only [h]

/-- C16: `getAIInsights` is read-only: it leaves the engine unchanged and returns the five
stored fields; a second call differs from the first in the timestamp only; on a freshly
constructed engine the five values are 0, 0, 0, 0 and `neutral`. -/
theorem getAIInsights_readOnly (now now2 : String) (eng : Engine) :
    (getAIInsights now eng).2 = eng ∧
    ((getAIInsights now eng).1.totalSignals = eng.insights.totalSignals ∧
      (getAIInsights now eng).1.buySignals = eng.insights.buySignals ∧
      (getAIInsights now eng).1.sellSignals = eng.insights.sellSignals ∧
      (getAIInsights now eng).1.strongSignals = eng.insights.strongSignals ∧
      (getAIInsights now eng).1.marketSentiment = eng.insights.marketSentiment) ∧
    (getAIInsights now2 (getAIInsights now eng).2).1 =
      { (getAIInsights now eng).1 with timestamp := now2 } ∧
    (getAIInsights now constructor).1 =
      { totalSignals := 0, buySignals := 0, sellSignals := 0, strongSignals := 0,
        marketSentiment := "neutral", timestamp := now } :=
  ⟨rfl, ⟨rfl, rfl, rfl, rfl, rfl⟩, rfl, rfl⟩

/-! ## Position sizing -/

@[simp] theorem JSNum.mul_fin (a b : ℚ) : mul (fin a) (fin b) = fin (a * b) := rfl

@[simp] theorem JSNum.floor_fin (a : ℚ) : floor (fin a) = fin (⌊a⌋ : ℤ) := rfl

theorem JSNum.min_fin (a b : ℚ) : JSNum.min (fin a) (fin b) = fin (Min.min a b) := by
  by_cases h : b < a
  · simp [JSNum.min, h, min_eq_right (le_of_lt h)]
  · simp [JSNum.min, h, min_eq_left (not_lt.mp h)]

theorem JSNum.max_fin (a b : ℚ) : JSNum.max (fin a) (fin b) = fin (Max.max a b) := by
  by_cases h : a < b
  · simp [JSNum.max, h, max_eq_right (le_of_lt h)]
  · simp [JSNum.max, h, max_eq_left (not_lt.mp h)]

theorem calculatePositionSize_fin (signal : Signal) (b : ℚ) (hb : b ≠ 0) :
    calculatePositionSize signal { balance := some (fin b) } = fin (positionSizeSpec b) := by
  have h100 : (100 : ℚ) ≠ 0 := by norm_num
  simp only [calculatePositionSize, orDefault, truthy, positionSizeSpec, JSNum.mul_fin,
    JSNum.div_fin, JSNum.floor_fin, JSNum.min_fin, JSNum.max_fin, if_neg h100, hb, ne_eq,
    not_false_eq_true, decide_True, if_true]
  push_cast
  rfl

theorem positionSizeSpec_default : positionSizeSpec 100000 = 20 := by
  norm_num [positionSizeSpec]

theorem calculatePositionSize_default (signal : Signal) (portfolio : Portfolio)
    (h : portfolio.balance = none ∨ portfolio.balance = some nan ∨
      portfolio.balance = some (fin 0)) :
    calculatePositionSize signal portfolio = fin 20 := by
  have e : orDefault portfolio.balance (fin 100000) = fin 100000 := by
    rcases h with h | h | h <;> simp [h, orDefault, truthy]
  have e2 : orDefault (some (fin 100000)) (fin 100000) = fin 100000 := by
    simp [orDefault, truthy]
  have h20 := calculatePositionSize_fin signal 100000 (by norm_num)
  rw [positionSizeSpec_default] at h20
  unfold calculatePositionSize at h20 ⊢
  dsimp only at h20 ⊢
  rw [e2] at h20
  rw [e]
  simpa using h20

theorem positionSizeSpec_range (b : ℚ) : 1 ≤ positionSizeSpec b ∧ positionSizeSpec b ≤ 100 := by
  unfold positionSizeSpec
  exact ⟨le_max_left _ _, max_le (by norm_num) (min_le_right _ _)⟩

/-- C17 (as stated, refuted): a portfolio whose balance is present and equal to 0 is sized 20,
the size of the default balance, where the stated formula gives
`max(1, min(floor(0 × 0.02 / 100), 100)) = 1`. -/
theorem calculatePositionSize_zero_balance :
    calculatePositionSize (sampleSignal "INFY" "BUY" (7 / 10)) { balance := some (fin 0) } =
      fin 20 ∧ positionSizeSpec 0 = 1 := by
  refine ⟨calculatePositionSize_default _ _ (Or.inr (Or.inr rfl)), ?_⟩
  norm_num [positionSizeSpec]

/-- C17 (amended): `calculatePositionSize` returns `max(1, min(floor(balance × 0.02 / 100),
100))`, where `balance` is `portfolio.balance` when that is a finite non-zero number, and
100000 when it is missing, `NaN` or 0; the result does not depend on the signal.  Balance
100000 gives 20, balance 1000000 gives 100, balance 1 gives 1. -/
theorem calculatePositionSize_formula (signal : Signal) (portfolio : Portfolio) :
    (∀ b : ℚ, portfolio.balance = some (fin b) → b ≠ 0 →
      calculatePositionSize signal portfolio = fin (positionSizeSpec b)) ∧
    (portfolio.balance = none ∨ portfolio.balance = some nan ∨
        portfolio.balance = some (fin 0) →
      calculatePositionSize signal portfolio = fin (positionSizeSpec 100000)) ∧
    (∀ signal2 : Signal,
      calculatePositionSize signal2 portfolio = calculatePositionSize signal portfolio) ∧
    positionSizeSpec 100000 = 20 ∧ positionSizeSpec 1000000 = 100 ∧ positionSizeSpec 1 = 1 := by
  refine ⟨?_, ?_, fun _ => rfl, positionSizeSpec_default, ?_, ?_⟩
  · intro b hb hne
    cases portfolio with
    | mk balance =>
      simp only at hb
      subst hb
      exact calculatePositionSize_fin signal b hne
  · intro h
    rw [positionSizeSpec_default]
    exact calculatePositionSize_default signal portfolio h
  · norm_num [positionSizeSpec]
  · norm_num [positionSizeSpec]

/-- Witness for C17: balance 1000000, and a portfolio without a balance. -/
theorem calculatePositionSize_formula_witness :
    calculatePositionSize (sampleSignal "INFY" "BUY" (7 / 10)) { balance := some (fin 1000000) } =
        fin (positionSizeSpec 1000000) ∧
      calculatePositionSize (sampleSignal "INFY" "BUY" (7 / 10)) { balance := none } =
        fin (positionSizeSpec 100000) :=
  ⟨(calculatePositionSize_formula (sampleSignal "INFY" "BUY" (7 / 10))
      { balance := some (fin 1000000) }).1 1000000 rfl (by norm_num),
    (calculatePositionSize_formula (sampleSignal "INFY" "BUY" (7 / 10))
      { balance := none }).2.1 (Or.inl rfl)⟩

/-- C18: for every portfolio, whatever its balance (missing, `NaN`, zero, negative, arbitrarily
large or infinite), `calculatePositionSize` returns an integer `q` with `1 ≤ q ≤ 100`. -/
theorem calculatePositionSize_range (signal : Signal) (portfolio : Portfolio) :
    ∃ n : ℤ, calculatePositionSize signal portfolio = fin n ∧ 1 ≤ n ∧ n ≤ 100 := by
  cases portfolio with
  | mk balance =>
    cases balance with
    | none => exact ⟨20, by simpa using calculatePositionSize_default signal _ (Or.inl rfl),
        by norm_num, by norm_num⟩
    | some v =>
      cases v with
      | nan => exact ⟨20,
          by simpa using calculatePositionSize_default signal _ (Or.inr (Or.inl rfl)),
          by norm_num, by norm_num⟩
      | ninf =>
        refine ⟨1, ?_, by norm_num, by norm_num⟩
        norm_num [calculatePositionSize, orDefault, truthy, mul, div, floor, JSNum.min,
          JSNum.max, lt]
      | pinf =>
        refine ⟨100, ?_, by norm_num, by norm_num⟩
        norm_num [calculatePositionSize, orDefault, truthy, mul, div, floor, JSNum.min,
          JSNum.max, lt]
      | fin b =>
        by_cases hb : b = 0
        · subst hb
          exact ⟨20,
            by simpa using calculatePositionSize_default signal _ (Or.inr (Or.inr rfl)),
            by norm_num, by norm_num⟩
        · exact ⟨positionSizeSpec b, calculatePositionSize_fin signal b hb,
            positionSizeSpec_range b⟩

/-! ## Trade execution -/

theorem executeLoop_signals {σ : Type} (p : σ → OrderParams → PlaceOutcome × σ)
    (now : Nat → String) (pf : Portfolio) (signals : List Signal) :
    ∀ (i : Nat) (st : σ) (acc : List ExecutedTrade),
      (executeLoop p now pf i signals st acc).1.map ExecutedTrade.signal =
        acc.map ExecutedTrade.signal ++
          ((placements p pf signals st).filter (fun x => x.2.succeeded)).map (fun x => x.1) := by
  induction signals with
  | nil => intro i st acc; simp [executeLoop, placements]
  | cons s rest ih =>
    intro i st acc
    by_cases hge : ge s.strength (fin (6 / 10)) = true
    · cases hp : p st (buildOrderParams s pf) with
      | mk o st1 =>
        cases o with
        | returned r =>
          cases hs : r.success
          · simp [executeLoop, placements, hge, hp, hs, ih, PlaceOutcome.succeeded]
          · simp [executeLoop, placements, hge, hp, hs, ih, PlaceOutcome.succeeded]
        | threw e =>
          simp [executeLoop, placements, hge, hp, ih, PlaceOutcome.succeeded]
    · simp [executeLoop, placements, hge, ih]

theorem placements_signals {σ : Type} (p : σ → OrderParams → PlaceOutcome × σ)
    (pf : Portfolio) (signals : List Signal) :
    ∀ st : σ, (placements p pf signals st).map (fun x => x.1) =
      signals.filter (fun s => ge s.strength (fin (6 / 10))) := by
  induction signals with
  | nil => intro st; rfl
  | cons s rest ih =>
    intro st
    by_cases hge : ge s.strength (fin (6 / 10)) = true
    · simp [placements, hge, ih]
    · simp [placements, hge, ih]

theorem executeLoop_recording {σ : Type} (p : σ → OrderParams → PlaceOutcome × σ)
    (now : Nat → String) (pf : Portfolio) (signals : List Signal) :
    ∀ (i : Nat) (st : σ) (log : List OrderParams) (acc : List ExecutedTrade),
      executeLoop (recording p) now pf i signals (st, log) acc =
        ((executeLoop p now pf i signals st acc).1,
          ((executeLoop p now pf i signals st acc).2,
            log ++ (signals.filter (fun s => ge s.strength (fin (6 / 10)))).map
              (fun s => buildOrderParams s pf))) := by
  induction signals with
  | nil => intro i st log acc; simp [executeLoop]
  | cons s rest ih =>
    intro i st log acc
    by_cases hge : ge s.strength (fin (6 / 10)) = true
    · cases hp : p st (buildOrderParams s pf) with
      | mk o st1 =>
        cases o with
        | returned r =>
          cases hs : r.success
          · simp [executeLoop, recording, hge, hp, hs, ih]
          · simp [executeLoop, recording, hge, hp, hs, ih]
        | threw e =>
          simp [executeLoop, recording, hge, hp, ih]
    · simp [executeLoop, hge, ih]

/-- C19: for every signal list and every order placer, the requests the placer receives
during `executeTrades` are, in signal order, one request for each signal with strength at least
`0.6` and none for the others (recording the requests does not change the returned trades);
each request carries the signal's symbol, side `BUY` when the signal's type is `BUY` and `SELL`
otherwise, and the quantity given by `calculatePositionSize`.  Strengths 0.5, 0.6, 0.9 produce
exactly 2 requests. -/
theorem executeTrades_calls {σ : Type} (placeOrder : σ → OrderParams → PlaceOutcome × σ)
    (now : Nat → String) (signals : List Signal) (portfolio : Portfolio) (st : σ) :
    (executeTrades (recording placeOrder) now signals portfolio (st, [])).2.2 =
        (signals.filter (fun s => ge s.strength (fin (6 / 10)))).map
          (fun s => buildOrderParams s portfolio) ∧
    (executeTrades (recording placeOrder) now signals portfolio (st, [])).1 =
        (executeTrades placeOrder now signals portfolio st).1 ∧
    (∀ s : Signal,
      (buildOrderParams s portfolio).tradingsymbol = s.symbol ∧
      (buildOrderParams s portfolio).transaction_type =
        (if s.type = "BUY" then "BUY" else "SELL") ∧
      (buildOrderParams s portfolio).quantity = calculatePositionSize s portfolio) ∧
    ((executeTrades (recording placeOrder) now
        [sampleSignal "A" "BUY" (5 / 10), sampleSignal "B" "SELL" (6 / 10),
          sampleSignal "C" "BUY" (9 / 10)] portfolio (st, [])).2.2).length = 2 := by
  refine ⟨?_, ?_, ?_, ?_⟩
  · simp [executeTrades, executeLoop_recording]
  · simp [executeTrades, executeLoop_recording]
  · intro s
    refine ⟨rfl, ?_, rfl⟩
    by_cases h : s.type = "BUY" <;> simp [buildOrderParams, h]
  · simp only [executeTrades, executeLoop_recording]
    norm_num [sampleSignal]

/-- C20: for every signal list and every order placer, whose call may succeed, return
`success = false` or throw, the signals of the returned trades are, in order, exactly the
signals with strength at least `0.6` whose placement succeeded, and every such signal gets its
placement whatever the earlier outcomes were.  With strengths 0.5, 0.6, 0.9 and a placer that
rejects, or throws on, the 0.6 signal, the 0.9 trade is still returned. -/
theorem executeTrades_isolates {σ : Type} (placeOrder : σ → OrderParams → PlaceOutcome × σ)
    (now : Nat → String) (signals : List Signal) (portfolio : Portfolio) (st : σ) :
    (executeTrades placeOrder now signals portfolio st).1.map ExecutedTrade.signal =
        ((placements placeOrder portfolio signals st).filter
          (fun x => x.2.succeeded)).map (fun x => x.1) ∧
    (placements placeOrder portfolio signals st).map (fun x => x.1) =
        signals.filter (fun s => ge s.strength (fin (6 / 10))) ∧
    (executeTrades (rejecting "B") now
        [sampleSignal "A" "BUY" (5 / 10), sampleSignal "B" "SELL" (6 / 10),
          sampleSignal "C" "BUY" (9 / 10)] portfolio ()).1.map ExecutedTrade.signal =
      [sampleSignal "C" "BUY" (9 / 10)] ∧
    (executeTrades (throwing "B") now
        [sampleSignal "A" "BUY" (5 / 10), sampleSignal "B" "SELL" (6 / 10),
          sampleSignal "C" "BUY" (9 / 10)] portfolio ()).1.map ExecutedTrade.signal =
      [sampleSignal "C" "BUY" (9 / 10)] := by
  refine ⟨?_, placements_signals placeOrder portfolio signals st, ?_, ?_⟩
  · simpa [executeTrades] using executeLoop_signals placeOrder now portfolio signals 0 st []
  · rw [executeTrades, executeLoop_signals]
    have hne : ("C" == "B") = false := by decide
    norm_num [placements, sampleSignal, rejecting, buildOrderParams, PlaceOutcome.succeeded,
      hne]
  · rw [executeTrades, executeLoop_signals]
    have hne : ¬ ("C" = "B") := by decide
    norm_num [placements, sampleSignal, throwing, buildOrderParams, PlaceOutcome.succeeded,
      hne]

/-! ## Breakout with ordered bands -/

/-- C21: for every Bollinger snapshot with `lower ≤ upper`, the two band conditions of
`breakoutStrategy` (`price > upper`, `price < lower`) never fire together, so its score, and
the strength of every signal it emits, is at most `0.7`. -/
theorem breakoutStrategy_bands_exclusive (now symbol : String) (currentPrice : JSNum)
    (b : BBOutput) (sma20 : JSNum) (h : le b.lower b.upper = true) :
    ¬ (gt currentPrice b.upper = true ∧ lt currentPrice b.lower = true) ∧
    breakoutScore currentPrice (some b) sma20 ≤ 7 / 10 ∧
    ∀ s, breakoutStrategy now symbol currentPrice (some b) sma20 = some s →
      le s.strength (fin (7 / 10)) = true := by
  have hsc : breakoutScore currentPrice (some b) sma20 ≤ 7 / 10 :=
    breakoutScore_le_of_ordered currentPrice (some b) sma20
      (fun b2 hb => by cases hb; exact h)
  refine ⟨fun hc => JSNum.not_between currentPrice b.upper b.lower h hc.1 hc.2, hsc, ?_⟩
  intro s hs
  have ht := type_of_verdict _ s _ _ _
    (breakoutStrategy_verdict now symbol currentPrice (some b) sma20) hs
  rw [ht.2.2]
  simpa using hsc

/-- Witness for C21: bands 2, 3, 4 with price 5 above SMA20 3; the signal has strength 0.7. -/
theorem breakoutStrategy_bands_exclusive_witness :
    le (fin (7 / 10)) (fin (7 / 10)) = true :=
  (breakoutStrategy_bands_exclusive "t" "INFY" (fin 5)
      { upper := fin 4, middle := fin 3, lower := fin 2 } (fin 3) (by norm_num)).2.2
    { symbol := "INFY", type := "BUY", strength := fin (7 / 10),
      reason := "Breakout above upper Bollinger Band, Price above SMA20",
      strategy := "Breakout", timestamp := "t" }
    (by norm_num [breakoutStrategy, andAlso]; decide)

theorem breakout_cases (c1 c2 c3 : Bool) (h12 : ¬ (c1 = true ∧ c2 = true))
    (h23 : ¬ (c2 = true ∧ c3 = true)) (t : String) (x : JSNum)
    (hv : some (t, x) =
      if (6 : ℚ) / 10 ≤ ((if c1 = true then 5 / 10 else 0) + if c2 = true then 5 / 10 else 0) +
          if c3 = true then 2 / 10 else 0 then
        some (if c1 = true then "BUY" else "SELL",
          fin (((if c1 = true then 5 / 10 else 0) + if c2 = true then 5 / 10 else 0) +
            if c3 = true then 2 / 10 else 0))
      else none) : t = "BUY" ∧ x = fin (7 / 10) := by
  cases c1 <;> cases c2 <;> cases c3 <;> simp at h12 h23 <;> norm_num at hv <;>
    first
      | exact ⟨hv.1, hv.2⟩
      | cases hv

theorem breakout_below_only (c1 c2 c3 : Bool) (h12 : ¬ (c1 = true ∧ c2 = true))
    (h23 : ¬ (c2 = true ∧ c3 = true)) (hc2 : c2 = true) :
    ((if c1 = true then (5 : ℚ) / 10 else 0) + (if c2 = true then 5 / 10 else 0)) +
        (if c3 = true then 2 / 10 else 0) = 5 / 10 := by
  subst hc2
  cases c1 <;> cases c3 <;> simp at h12 h23
  norm_num

/-- C24: for every input with Bollinger data satisfying `lower ≤ upper` and `lower ≤ SMA20`,
every signal `breakoutStrategy` emits is a `BUY` of strength exactly `0.7`; a break below the
lower band scores `0.5` alone and emits nothing, so the `SELL` branch is never taken. -/
theorem breakoutStrategy_only_buy (now symbol : String) (currentPrice : JSNum)
    (b : BBOutput) (sma20 : JSNum) (h : le b.lower b.upper = true)
    (hm : le b.lower sma20 = true) :
    (∀ s, breakoutStrategy now symbol currentPrice (some b) sma20 = some s →
      s.type = "BUY" ∧ s.strength = fin (7 / 10)) ∧
    (lt currentPrice b.lower = true →
      breakoutScore currentPrice (some b) sma20 = 5 / 10 ∧
        breakoutStrategy now symbol currentPrice (some b) sma20 = none) := by
  have hv := breakoutStrategy_verdict now symbol currentPrice (some b) sma20
  have h12 : ¬ (gt currentPrice b.upper = true ∧ lt currentPrice b.lower = true) :=
    fun hc => JSNum.not_between currentPrice b.upper b.lower h hc.1 hc.2
  have h23 : ¬ (lt currentPrice b.lower = true ∧ gt currentPrice sma20 = true) :=
    fun hc => JSNum.not_between currentPrice sma20 b.lower hm hc.2 hc.1
  constructor
  · intro s hs
    rw [verdict_some _ s hs] at hv
    simp only [breakoutScore, andAlso, weight] at hv
    exact breakout_cases _ _ _ h12 h23 _ _ hv
  · intro hc2
    have hsc : breakoutScore currentPrice (some b) sma20 = 5 / 10 := by
      simp only [breakoutScore, andAlso, weight]
      exact breakout_below_only _ _ _ h12 h23 hc2
    refine ⟨hsc, verdict_eq_none _ ?_⟩
    rw [hv, hsc]
    norm_num

/-- Witness for C24: bands 2, 3, 4, SMA20 3 and price 5. -/
theorem breakoutStrategy_only_buy_witness :
    ({ symbol := "INFY", type := "BUY", strength := fin (7 / 10),
        reason := "Breakout above upper Bollinger Band, Price above SMA20",
        strategy := "Breakout", timestamp := "t" } : Signal).type = "BUY" ∧
      fin (7 / 10) = fin (7 / 10) :=
  (breakoutStrategy_only_buy "t" "INFY" (fin 5)
      { upper := fin 4, middle := fin 3, lower := fin 2 } (fin 3) (by norm_num)
      (by norm_num)).1 _
    (by norm_num [breakoutStrategy, andAlso]; decide)

/-! ## Direction of the screen-time evaluator -/

theorem JSNum.le_of_ne_nan_of_not_gt (x : JSNum) (c : ℚ) (hx : x ≠ nan)
    (h : gt x (fin c) = false) : le x (fin c) = true := by
  cases x <;> simp [gt, lt, le, ge] at hx h ⊢
  exact h

theorem JSNum.gt_zero_of_gt_one (x : JSNum) (h : gt x (fin 1) = true) :
    gt x (fin 0) = true := by
  cases x <;> simp [gt, lt] at h ⊢
  linarith

theorem some_eq_ite {α : Type} {c : Prop} [Decidable c] {y z : α}
    (h : some y = if c then some z else none) : c ∧ y = z := by
  by_cases hc : c
  · rw [if_pos hc] at h
    exact ⟨hc, Option.some.inj h⟩
  · rw [if_neg hc] at h
    cases h

theorem screen_cases (a t c2 c3 d : Bool) (had : a = true → d = true) (tp : String)
    (x : JSNum)
    (hv : some (tp, x) =
      if (5 : ℚ) / 10 ≤ ((if (a && t) = true then 4 / 10 else 0) +
          if c2 = true then 3 / 10 else 0) + if c3 = true then 2 / 10 else 0 then
        some (if d = true then "BUY" else "SELL",
          fin (((if (a && t) = true then 4 / 10 else 0) + if c2 = true then 3 / 10 else 0) +
            if c3 = true then 2 / 10 else 0))
      else none) (hsell : tp = "SELL") :
    c3 = true ∧ x = fin (5 / 10) ∧ c2 = true ∧ (a && t) = false ∧ d = false := by
  obtain ⟨hc, hyz⟩ := some_eq_ite hv
  have htp : tp = if d = true then "BUY" else "SELL" := congrArg Prod.fst hyz
  have hx : x = fin (((if (a && t) = true then 4 / 10 else 0) +
      if c2 = true then 3 / 10 else 0) + if c3 = true then 2 / 10 else 0) :=
    congrArg Prod.snd hyz
  rw [hsell] at htp
  rw [hx]
  clear hv hyz hx hsell
  cases a <;> cases t <;> cases c2 <;> cases c3 <;> cases d <;> simp at had htp <;>
    norm_num at hc ⊢

/-- C25: with the volume flag (`Math.random() > 0.7`) as an input, `screenTimeStrategy` never
emits a `SELL` when the flag is false; every `SELL` it emits has the flag true and strength
exactly `0.5`: the `0.3` volatility-with-trend condition and the `0.2` volume condition fire,
the `0.4` condition does not, and `changePercent > 0` fails (for a number, `changePercent ≤
0`). -/
theorem screenTimeStrategy_sell (now : String) (random : ℚ) (symbol : String)
    (currentPrice change changePercent : JSNum) (prices : List JSNum) :
    (gt (fin random) (fin (7 / 10)) = false →
      ∀ s, screenTimeStrategy now random symbol currentPrice change changePercent prices
        = some s → s.type = "BUY") ∧
    (∀ s, screenTimeStrategy now random symbol currentPrice change changePercent prices
        = some s → s.type = "SELL" →
      gt (fin random) (fin (7 / 10)) = true ∧ s.strength = fin (5 / 10) ∧
      ((calculateVolatility (sliceLast 10 prices)).gt (2 / 100) &&
        gt (abs (calculateTrend (sliceLast 10 prices))) (fin (3 / 10))) = true ∧
      (gt changePercent (fin 1) &&
        gt (calculateTrend (sliceLast 10 prices)) (fin (5 / 10))) = false ∧
      gt changePercent (fin 0) = false ∧
      (changePercent ≠ nan → le changePercent (fin 0) = true)) := by
  have hv := screenTimeStrategy_verdict now random symbol currentPrice change changePercent
    prices
  have key : ∀ s, screenTimeStrategy now random symbol currentPrice change changePercent prices
        = some s → s.type = "SELL" →
      gt (fin random) (fin (7 / 10)) = true ∧ s.strength = fin (5 / 10) ∧
      ((calculateVolatility (sliceLast 10 prices)).gt (2 / 100) &&
        gt (abs (calculateTrend (sliceLast 10 prices))) (fin (3 / 10))) = true ∧
      (gt changePercent (fin 1) &&
        gt (calculateTrend (sliceLast 10 prices)) (fin (5 / 10))) = false ∧
      gt changePercent (fin 0) = false := by
    intro s hs hsell
    rw [verdict_some _ s hs] at hv
    simp only [shortHorizonScore, weight] at hv
    exact screen_cases _ _ _ _ _ (JSNum.gt_zero_of_gt_one changePercent) _ _ hv hsell
  constructor
  · intro hflag s hs
    have ht := (type_of_verdict _ s _ _ _ hv hs).2.1
    by_cases hd : gt changePercent (fin 0) = true
    · rw [ht, if_pos hd]
    · rw [if_neg hd] at ht
      have := (key s hs ht).1
      rw [hflag] at this
      cases this
  · intro s hs hsell
    obtain ⟨h1, h2, h3, h4, h5⟩ := key s hs hsell
    exact ⟨h1, h2, h3, h4, h5,
      fun hne => JSNum.le_of_ne_nan_of_not_gt changePercent 0 hne h5⟩

/-- Witness for C25: closes 2, 1, 1 (trend -0.5, volatility 0.25), a change of -2% and
`Math.random()` = 0.8 give a `SELL` of strength 0.5. -/
theorem screenTimeStrategy_sell_witness :
    gt (fin (8 / 10)) (fin (7 / 10)) = true ∧ fin (5 / 10) = fin (5 / 10) ∧
      ((calculateVolatility (sliceLast 10 [fin 2, fin 1, fin 1])).gt (2 / 100) &&
        gt (abs (calculateTrend (sliceLast 10 [fin 2, fin 1, fin 1]))) (fin (3 / 10))) = true ∧
      (gt (fin (-2)) (fin 1) &&
        gt (calculateTrend (sliceLast 10 [fin 2, fin 1, fin 1])) (fin (5 / 10))) = false ∧
      gt (fin (-2)) (fin 0) = false ∧
      (fin (-2) ≠ nan → le (fin (-2)) (fin 0) = true) :=
  (screenTimeStrategy_sell "t" (8 / 10) "INFY" (fin 1) (fin 0) (fin (-2))
      [fin 2, fin 1, fin 1]).2
    { symbol := "INFY", type := "SELL", strength := fin (5 / 10),
      reason := "High volatility with trend, High volume activity",
      strategy := "Screen Time", timestamp := "t" }
    (by
      norm_num [screenTimeStrategy, calculateVolatility, calculateTrend, simpleReturns,
        sliceLast, Root.gt, abs_div]
      decide)
    rfl

/-! ## Volatility and trend as statistics of the returns -/

theorem simpleReturns_map_fin (ps : List ℚ) (h : ∀ p ∈ ps, p ≠ 0) :
    simpleReturns (ps.map fin) = (returnsQ ps).map fin := by
  induction ps with
  | nil => rfl
  | cons p0 tl ih =>
    cases tl with
    | nil => rfl
    | cons p1 rest =>
      have h0 : p0 ≠ 0 := h p0 (by simp)
      have ih2 := ih (fun p hp => h p (List.mem_cons_of_mem _ hp))
      simp only [List.map_cons] at ih2 ⊢
      simp only [simpleReturns, returnsQ, List.map_cons, ih2, JSNum.sub_fin, JSNum.div_fin,
        if_neg h0]

theorem returnsQ_length (ps : List ℚ) : (returnsQ ps).length = ps.length - 1 := by
  induction ps with
  | nil => rfl
  | cons p0 tl ih =>
    cases tl with
    | nil => rfl
    | cons p1 rest =>
      simp only [returnsQ, List.length_cons] at ih ⊢
      omega

theorem foldl_add_fin (l : List ℚ) :
    ∀ x : ℚ, (l.map fin).foldl (fun a b => add a b) (fin x) = fin (x + l.sum) := by
  induction l with
  | nil => intro x; simp
  | cons r rs ih =>
    intro x
    simp only [List.map_cons, List.foldl_cons, JSNum.add_fin, ih, List.sum_cons, add_assoc]

theorem foldl_sq_fin (l : List ℚ) (m : ℚ) :
    ∀ x : ℚ, (l.map fin).foldl (fun a b => add a (sq (sub b (fin m)))) (fin x) =
      fin (x + (l.map (fun r => (r - m) ^ 2)).sum) := by
  induction l with
  | nil => intro x; simp
  | cons r rs ih =>
    intro x
    simp only [List.map_cons, List.foldl_cons, JSNum.add_fin, JSNum.sub_fin, JSNum.sq_fin, ih,
      List.sum_cons]
    congr 1
    ring

theorem calculateVolatility_fin (ps : List ℚ) (hlen : 2 ≤ ps.length)
    (h : ∀ p ∈ ps, p ≠ 0) :
    calculateVolatility (ps.map fin) = ⟨fin (popVariance (returnsQ ps))⟩ := by
  have hn : ((returnsQ ps).length : ℚ) ≠ 0 := by
    rw [returnsQ_length]
    have : 0 < ps.length - 1 := by omega
    exact_mod_cast this.ne'
  have hlt : ¬ ps.length < 2 := by omega
  simp only [calculateVolatility, if_neg hlt, simpleReturns_map_fin ps h, foldl_add_fin,
    foldl_sq_fin, List.length_map, JSNum.div_fin, if_neg hn, zero_add, popVariance, meanQ]

theorem sum_sq_nonneg (l : List ℚ) (m : ℚ) : 0 ≤ (l.map (fun r => (r - m) ^ 2)).sum := by
  induction l with
  | nil => simp
  | cons r rs ih =>
    simp only [List.map_cons, List.sum_cons]
    have := sq_nonneg (r - m)
    linarith

theorem sum_sq_eq_zero_iff (l : List ℚ) (m : ℚ) :
    (l.map (fun r => (r - m) ^ 2)).sum = 0 ↔ ∀ r ∈ l, r = m := by
  induction l with
  | nil => simp
  | cons r rs ih =>
    simp only [List.map_cons, List.sum_cons, List.mem_cons, forall_eq_or_imp]
    have h1 := sq_nonneg (r - m)
    have h2 := sum_sq_nonneg rs m
    constructor
    · intro h
      have hr : (r - m) ^ 2 = 0 := by linarith
      have hs : (rs.map (fun r => (r - m) ^ 2)).sum = 0 := by linarith
      exact ⟨by have := pow_eq_zero_iff (n := 2) (by norm_num) |>.mp hr; linarith, ih.mp hs⟩
    · rintro ⟨hr, hs⟩
      rw [ih.mpr hs, hr]
      simp

theorem popVariance_nonneg (l : List ℚ) : 0 ≤ popVariance l := by
  unfold popVariance
  exact div_nonneg (sum_sq_nonneg l _) (Nat.cast_nonneg _)

theorem popVariance_eq_zero_iff (l : List ℚ) (hl : l ≠ []) :
    popVariance l = 0 ↔ ∀ r ∈ l, r = meanQ l := by
  have hn : (l.length : ℚ) ≠ 0 := by
    have : 0 < l.length := List.length_pos.mpr hl
    exact_mod_cast this.ne'
  unfold popVariance
  rw [div_eq_zero_iff, sum_sq_eq_zero_iff]
  simp [hn]

theorem meanQ_of_all_eq (l : List ℚ) (c : ℚ) (hl : l ≠ []) (h : ∀ r ∈ l, r = c) :
    meanQ l = c := by
  have hn : (l.length : ℚ) ≠ 0 := by
    have : 0 < l.length := List.length_pos.mpr hl
    exact_mod_cast this.ne'
  have hs : l.sum = l.length * c := by
    clear hl hn
    induction l with
    | nil => simp
    | cons r rs ih =>
      have hr : r = c := h r (by simp)
      have := ih (fun x hx => h x (List.mem_cons_of_mem _ hx))
      simp only [List.sum_cons, List.length_cons, this, hr]
      push_cast
      ring
  unfold meanQ
  rw [hs]
  field_simp

theorem all_eq_mean_iff (l : List ℚ) (hl : l ≠ []) :
    (∀ r ∈ l, r = meanQ l) ↔ ∀ r ∈ l, ∀ r2 ∈ l, r = r2 := by
  constructor
  · intro h r hr r2 hr2
    rw [h r hr, h r2 hr2]
  · intro h r hr
    exact (meanQ_of_all_eq l r hl (fun x hx => h x hx r hr)).symm

theorem returnsQ_ne_nil (ps : List ℚ) (hlen : 2 ≤ ps.length) : returnsQ ps ≠ [] := by
  intro h
  have := returnsQ_length ps
  rw [h] at this
  simp at this
  omega

theorem calculateVolatility_isZero_iff (ps : List ℚ) (hlen : 2 ≤ ps.length)
    (h : ∀ p ∈ ps, p ≠ 0) :
    (calculateVolatility (ps.map fin)).isZero = true ↔
      ∀ r ∈ returnsQ ps, ∀ r2 ∈ returnsQ ps, r = r2 := by
  rw [calculateVolatility_fin ps hlen h, ← all_eq_mean_iff _ (returnsQ_ne_nil ps hlen),
    ← popVariance_eq_zero_iff _ (returnsQ_ne_nil ps hlen)]
  simp [Root.isZero]

theorem returnsQ_replicate (c : ℚ) (n : Nat) :
    ∀ r ∈ returnsQ (List.replicate n c), r = 0 := by
  induction n with
  | zero => simp [returnsQ]
  | succ k ih =>
    cases k with
    | zero => simp [returnsQ]
    | succ j =>
      intro r hr
      simp only [List.replicate_succ, returnsQ, List.mem_cons] at hr ih
      rcases hr with hr | hr
      · rw [hr]; simp
      · exact ih r hr

theorem geometric_length (a q : ℚ) (n : Nat) : (geometric a q n).length = n := by
  induction n generalizing a with
  | zero => rfl
  | succ k ih => simp [geometric, ih]

theorem geometric_ne_zero (a q : ℚ) (ha : a ≠ 0) (hq : q ≠ 0) (n : Nat) :
    ∀ p ∈ geometric a q n, p ≠ 0 := by
  induction n generalizing a with
  | zero => simp [geometric]
  | succ k ih =>
    intro p hp
    simp only [geometric, List.mem_cons] at hp
    rcases hp with hp | hp
    · rw [hp]; exact ha
    · exact ih (a * q) (mul_ne_zero ha hq) p hp

theorem returnsQ_geometric (a q : ℚ) (ha : a ≠ 0) (hq : q ≠ 0) (n : Nat) :
    ∀ r ∈ returnsQ (geometric a q n), r = q - 1 := by
  induction n generalizing a with
  | zero => simp [geometric, returnsQ]
  | succ k ih =>
    cases k with
    | zero => simp [geometric, returnsQ]
    | succ j =>
      intro r hr
      have ih2 := ih (a * q) (mul_ne_zero ha hq)
      simp only [geometric, returnsQ, List.mem_cons] at hr ih2
      rcases hr with hr | hr
      · rw [hr]; field_simp; ring
      · exact ih2 r (by simpa [geometric, returnsQ] using hr)


/-- C22: `calculateVolatility` returns 0 for every price list with fewer than 2 points; for a
list of at least 2 non-zero prices the returns it collects are the simple returns
`r_i = (p_i - p_(i-1)) / p_(i-1)`, the square of its result is their population variance
`(1/n)·Σ(r_i - mean(r))²`, and the result is non-negative. -/
theorem calculateVolatility_stddev :
    (∀ prices : List JSNum, prices.length < 2 →
      calculateVolatility prices = ⟨fin 0⟩ ∧ (calculateVolatility prices).isZero = true) ∧
    (∀ ps : List ℚ, 2 ≤ ps.length → (∀ p ∈ ps, p ≠ 0) →
      simpleReturns (ps.map fin) = (returnsQ ps).map fin ∧
      (calculateVolatility (ps.map fin)).square = fin (popVariance (returnsQ ps)) ∧
      (calculateVolatility (ps.map fin)).isNonneg = true) := by
  constructor
  · intro prices h
    have e : calculateVolatility prices = ⟨fin 0⟩ := by
      simp [calculateVolatility, h]
    rw [e]
    exact ⟨rfl, by simp [Root.isZero]⟩
  · intro ps hlen h
    have hv := popVariance_nonneg (returnsQ ps)
    rw [calculateVolatility_fin ps hlen h]
    exact ⟨simpleReturns_map_fin ps h, by simp [Root.square, hv], by simp [Root.isNonneg, hv]⟩

/-- Witness for C22: the closes 1, 2, 2. -/
theorem calculateVolatility_stddev_witness :
    simpleReturns ([1, 2, 2].map fin) = (returnsQ [1, 2, 2]).map fin ∧
      (calculateVolatility ([1, 2, 2].map fin)).square = fin (popVariance (returnsQ [1, 2, 2])) ∧
      (calculateVolatility ([1, 2, 2].map fin)).isNonneg = true :=
  calculateVolatility_stddev.2 [1, 2, 2] (by simp) (by simp)

/-- C23: `calculateTrend` returns 0 for every price list with fewer than 2 points; for a list
with at least 2 points it returns `(last - first) / first`, which for a non-zero first price
`a` and a last price `b` is the number `(b - a) / a`, and it depends only on the first and the
last element. -/
theorem calculateTrend_first_last :
    (∀ prices : List JSNum, prices.length < 2 → calculateTrend prices = fin 0) ∧
    (∀ (first last : JSNum) (mid : List JSNum),
      calculateTrend (first :: (mid ++ [last])) = div (sub last first) first) ∧
    (∀ (a b : ℚ) (mid : List JSNum), a ≠ 0 →
      calculateTrend (fin a :: (mid ++ [fin b])) = fin ((b - a) / a)) ∧
    (∀ (first last : JSNum) (mid mid2 : List JSNum),
      calculateTrend (first :: (mid ++ [last])) =
        calculateTrend (first :: (mid2 ++ [last]))) := by
  have key : ∀ (first last : JSNum) (mid : List JSNum),
      calculateTrend (first :: (mid ++ [last])) = div (sub last first) first := by
    intro first last mid
    have hlt : ¬ (first :: (mid ++ [last])).length < 2 := by
      simp
    simp only [calculateTrend, if_neg hlt]
    simp [List.getLast?_cons, List.getLast?_append]
  refine ⟨?_, key, ?_, ?_⟩
  · intro prices h
    simp [calculateTrend, h]
  · intro a b mid ha
    rw [key]
    simp [ha]
  · intro first last mid mid2
    rw [key, key]

/-- Witness for C23: the closes 4, 9, 7, 5, and the single close 4. -/
theorem calculateTrend_first_last_witness :
    calculateTrend (fin 4 :: ([fin 9, fin 7] ++ [fin 5])) = fin ((5 - 4) / 4) ∧
      calculateTrend [fin 4] = fin 0 :=
  ⟨calculateTrend_first_last.2.2.1 4 5 [fin 9, fin 7] (by norm_num),
    calculateTrend_first_last.1 [fin 4] (by simp)⟩

/-- In exact arithmetic the variance of the returns of at least 2 non-zero prices is zero if and
only if all returns are equal; so it is zero for 2 prices, for a constant list and for a
geometric progression.  The doubles of the code round, see `calculateVolatilityDouble`. -/
theorem calculateVolatility_exact_zero_iff :
    (∀ ps : List ℚ, 2 ≤ ps.length → (∀ p ∈ ps, p ≠ 0) →
      ((calculateVolatility (ps.map fin)).isZero = true ↔
        ∀ r ∈ returnsQ ps, ∀ r2 ∈ returnsQ ps, r = r2)) ∧
    (∀ a b : ℚ, a ≠ 0 → b ≠ 0 → (calculateVolatility [fin a, fin b]).isZero = true) ∧
    (∀ (c : ℚ) (n : Nat), c ≠ 0 → 2 ≤ n →
      (calculateVolatility ((List.replicate n c).map fin)).isZero = true) ∧
    (∀ (a q : ℚ) (n : Nat), a ≠ 0 → q ≠ 0 → 2 ≤ n →
      (calculateVolatility ((geometric a q n).map fin)).isZero = true) := by
  refine ⟨calculateVolatility_isZero_iff, ?_, ?_, ?_⟩
  · intro a b ha hb
    have h := calculateVolatility_isZero_iff [a, b] (by simp)
      (by intro p hp; simp at hp; rcases hp with hp | hp <;> rw [hp] <;> assumption)
    simp only [List.map_cons, List.map_nil] at h
    rw [h]
    intro r hr r2 hr2
    simp only [returnsQ, List.mem_singleton] at hr hr2
    rw [hr, hr2]
  · intro c n hc hn
    rw [calculateVolatility_isZero_iff _ (by simpa using hn)
      (by intro p hp; rw [List.eq_of_mem_replicate hp]; exact hc)]
    intro r hr r2 hr2
    rw [returnsQ_replicate c n r hr, returnsQ_replicate c n r2 hr2]
  · intro a q n ha hq hn
    rw [calculateVolatility_isZero_iff _ (by rw [geometric_length]; exact hn)
      (geometric_ne_zero a q ha hq n)]
    intro r hr r2 hr2
    rw [returnsQ_geometric a q ha hq n r hr, returnsQ_geometric a q ha hq n r2 hr2]

/-! ## Volatility in double arithmetic -/

theorem roundHalfEven_intCast (k : ℤ) : roundHalfEven (k : ℚ) = k := by
  simp [roundHalfEven]

theorem floor_le_roundHalfEven (x : ℚ) : ⌊x⌋ ≤ roundHalfEven x := by
  unfold roundHalfEven
  split_ifs <;> omega

theorem roundHalfEven_le_floor_add_one (x : ℚ) : roundHalfEven x ≤ ⌊x⌋ + 1 := by
  unfold roundHalfEven
  split_ifs <;> omega

theorem le_roundHalfEven (x : ℚ) (N : ℤ) (h : (N : ℚ) ≤ x) : N ≤ roundHalfEven x :=
  le_trans (Int.le_floor.mpr h) (floor_le_roundHalfEven x)

theorem roundHalfEven_le (x : ℚ) (N : ℤ) (h : x ≤ (N : ℚ)) : roundHalfEven x ≤ N := by
  rcases lt_or_eq_of_le h with h1 | h1
  · have : ⌊x⌋ < N := Int.floor_lt.mpr h1
    have := roundHalfEven_le_floor_add_one x
    omega
  · rw [h1, roundHalfEven_intCast]

theorem roundHalfEven_of_near (x : ℚ) (k : ℤ) (h : |x - k| < 1 / 2) : roundHalfEven x = k := by
  rw [abs_lt] at h
  obtain ⟨h1, h2⟩ := h
  have hf1 : (⌊x⌋ : ℚ) ≤ x := Int.floor_le x
  have hf2 : x < ⌊x⌋ + 1 := Int.lt_floor_add_one x
  unfold roundHalfEven
  split_ifs with c1 c2 c3
  · have a1 : ((⌊x⌋ : ℤ) : ℚ) < (k : ℚ) + 1 := by linarith
    have a2 : (k : ℚ) < (⌊x⌋ : ℚ) + 1 := by linarith
    have b1 : ⌊x⌋ < k + 1 := by exact_mod_cast a1
    have b2 : k < ⌊x⌋ + 1 := by exact_mod_cast a2
    omega
  · have a1 : ((⌊x⌋ : ℤ) : ℚ) < (k : ℚ) := by linarith
    have a2 : (k : ℚ) < (⌊x⌋ : ℚ) + 2 := by linarith
    have b1 : ⌊x⌋ < k := by exact_mod_cast a1
    have b2 : k < ⌊x⌋ + 2 := by exact_mod_cast a2
    omega
  · exfalso
    have e : x - ⌊x⌋ = 1 / 2 := le_antisymm (not_lt.mp c2) (not_lt.mp c1)
    have a1 : ((⌊x⌋ : ℤ) : ℚ) < (k : ℚ) := by linarith
    have a2 : (k : ℚ) < (⌊x⌋ : ℚ) + 1 := by linarith
    have b1 : ⌊x⌋ < k := by exact_mod_cast a1
    have b2 : k < ⌊x⌋ + 1 := by exact_mod_cast a2
    omega
  · exfalso
    have e : x - ⌊x⌋ = 1 / 2 := le_antisymm (not_lt.mp c2) (not_lt.mp c1)
    have a1 : ((⌊x⌋ : ℤ) : ℚ) < (k : ℚ) := by linarith
    have a2 : (k : ℚ) < (⌊x⌋ : ℚ) + 1 := by linarith
    have b1 : ⌊x⌋ < k := by exact_mod_cast a1
    have b2 : k < ⌊x⌋ + 1 := by exact_mod_cast a2
    omega

theorem log_two_eq (a : ℚ) (e : ℤ) (h1 : (2 : ℚ) ^ e ≤ a) (h2 : a < (2 : ℚ) ^ (e + 1)) :
    Int.log 2 a = e := by
  have ha : 0 < a := lt_of_lt_of_le (by positivity) h1
  have hb : 1 < 2 := by norm_num
  have l1 : e ≤ Int.log 2 a := (Int.zpow_le_iff_le_log hb ha).mp (by exact_mod_cast h1)
  have l2 : Int.log 2 a < e + 1 := (Int.lt_zpow_iff_log_lt hb ha).mp (by exact_mod_cast h2)
  omega

theorem ulp_pos (a : ℚ) : 0 < ulp a := by
  unfold ulp; positivity

theorem ulp_eq (a : ℚ) (e : ℤ) (h1 : (2 : ℚ) ^ e ≤ a) (h2 : a < (2 : ℚ) ^ (e + 1)) :
    ulp a = (2 : ℚ) ^ (e - 52) := by
  unfold ulp; rw [log_two_eq a e h1 h2]

theorem two_pow_le_div_ulp (a : ℚ) (ha : 0 < a) : (2 : ℚ) ^ (52 : ℤ) ≤ a / ulp a := by
  have h := Int.zpow_log_le_self (b := 2) (r := a) (by norm_num) ha
  rw [le_div_iff₀ (ulp_pos a)]
  unfold ulp
  rw [← zpow_add₀ (by norm_num : (2 : ℚ) ≠ 0)]
  have : (52 : ℤ) + (Int.log 2 a - 52) = Int.log 2 a := by ring
  rw [this]
  exact_mod_cast h

theorem div_ulp_lt_two_pow (a : ℚ) (ha : 0 < a) : a / ulp a < (2 : ℚ) ^ (53 : ℤ) := by
  have h := Int.lt_zpow_succ_log_self (b := 2) (by norm_num) a
  rw [div_lt_iff₀ (ulp_pos a)]
  unfold ulp
  rw [← zpow_add₀ (by norm_num : (2 : ℚ) ≠ 0)]
  have : (53 : ℤ) + (Int.log 2 a - 52) = Int.log 2 a + 1 := by ring
  rw [this]
  exact_mod_cast h

theorem roundDouble_zero : roundDouble 0 = 0 := by
  simp [roundDouble]

theorem roundDouble_neg (q : ℚ) : roundDouble (-q) = -roundDouble q := by
  unfold roundDouble
  rcases lt_trichotomy q 0 with h | h | h
  · have h1 : ¬ (0 : ℚ) < q := not_lt.mpr h.le
    have h2 : (0 : ℚ) < -q := by linarith
    simp [h.ne, h1, h2]
  · simp [h]
  · have h1 : ¬ (0 : ℚ) < -q := by linarith
    have h2 : q ≠ 0 := h.ne.symm
    simp [h2, h1, h]

theorem roundDouble_of_pos (a : ℚ) (ha : 0 < a) :
    roundDouble a = (roundHalfEven (a / ulp a) : ℚ) * ulp a := by
  unfold roundDouble
  rw [if_neg ha.ne.symm, if_pos ha]

theorem roundDouble_pos (a : ℚ) (ha : 0 < a) : 0 < roundDouble a := by
  rw [roundDouble_of_pos a ha]
  have h1 : (2 : ℤ) ^ 52 ≤ roundHalfEven (a / ulp a) :=
    le_roundHalfEven _ _ (by have := two_pow_le_div_ulp a ha; norm_num at this ⊢; exact this)
  have h2 : (0 : ℚ) < (roundHalfEven (a / ulp a) : ℚ) := by
    have : (0 : ℤ) < roundHalfEven (a / ulp a) := lt_of_lt_of_le (by norm_num) h1
    exact_mod_cast this
  exact mul_pos h2 (ulp_pos a)

theorem roundDouble_eq_zero_iff (q : ℚ) : roundDouble q = 0 ↔ q = 0 := by
  constructor
  · intro h
    rcases lt_trichotomy q 0 with hq | hq | hq
    · have := roundDouble_pos (-q) (by linarith)
      rw [roundDouble_neg] at this
      linarith
    · exact hq
    · have := roundDouble_pos q hq
      linarith
  · rintro rfl; exact roundDouble_zero

theorem roundDouble_nonneg (q : ℚ) (hq : 0 ≤ q) : 0 ≤ roundDouble q := by
  rcases eq_or_lt_of_le hq with h | h
  · rw [← h, roundDouble_zero]
  · exact (roundDouble_pos q h).le

/-- Evaluation of the rounding at a positive `q` whose binade and nearest multiple are known. -/
theorem roundDouble_of_near (q : ℚ) (e k : ℤ) (h1 : (2 : ℚ) ^ e ≤ q) (h2 : q < (2 : ℚ) ^ (e + 1))
    (h3 : |q / (2 : ℚ) ^ (e - 52) - k| < 1 / 2) : roundDouble q = (k : ℚ) * (2 : ℚ) ^ (e - 52) := by
  have hq : 0 < q := lt_of_lt_of_le (by positivity) h1
  rw [roundDouble_of_pos q hq, ulp_eq q e h1 h2, roundHalfEven_of_near _ k h3]

/-- A positive value with 53 significant bits is a double. -/
theorem roundDouble_of_mantissa (k e : ℤ) (h1 : (2 : ℤ) ^ 52 ≤ k) (h2 : k ≤ (2 : ℤ) ^ 53) :
    roundDouble ((k : ℚ) * (2 : ℚ) ^ e) = (k : ℚ) * (2 : ℚ) ^ e := by
  have hp : (0 : ℚ) < (2 : ℚ) ^ e := by positivity
  have k1 : ((2 : ℚ) ^ (52 : ℤ)) ≤ (k : ℚ) := by
    have : (((2 : ℤ) ^ 52 : ℤ) : ℚ) ≤ (k : ℚ) := by exact_mod_cast h1
    norm_num at this ⊢; exact this
  rcases lt_or_eq_of_le h2 with h | h
  · have k2 : (k : ℚ) < ((2 : ℚ) ^ (53 : ℤ)) := by
      have : (k : ℚ) < (((2 : ℤ) ^ 53 : ℤ) : ℚ) := by exact_mod_cast h
      norm_num at this ⊢; exact this
    have b1 : (2 : ℚ) ^ (e + 52) ≤ (k : ℚ) * (2 : ℚ) ^ e := by
      rw [zpow_add₀ (by norm_num : (2 : ℚ) ≠ 0), mul_comm ((2 : ℚ) ^ e)]
      exact mul_le_mul_of_nonneg_right k1 hp.le
    have b2 : (k : ℚ) * (2 : ℚ) ^ e < (2 : ℚ) ^ (e + 52 + 1) := by
      have : e + 52 + 1 = 53 + e := by ring
      rw [this, zpow_add₀ (by norm_num : (2 : ℚ) ≠ 0)]
      exact mul_lt_mul_of_pos_right k2 hp
    have := roundDouble_of_near ((k : ℚ) * (2 : ℚ) ^ e) (e + 52) k b1 b2
      (by
        have : e + 52 - 52 = e := by ring
        rw [this, mul_div_assoc, div_self hp.ne.symm]
        norm_num)
    rw [this]
    have : e + 52 - 52 = e := by ring
    rw [this]
  · have hk : (k : ℚ) = (2 : ℚ) ^ (53 : ℤ) := by
      have : (k : ℚ) = (((2 : ℤ) ^ 53 : ℤ) : ℚ) := by exact_mod_cast h
      norm_num at this ⊢; exact this
    have b1 : (2 : ℚ) ^ (e + 53) ≤ (k : ℚ) * (2 : ℚ) ^ e := by
      rw [hk, ← zpow_add₀ (by norm_num : (2 : ℚ) ≠ 0), add_comm]
    have b2 : (k : ℚ) * (2 : ℚ) ^ e < (2 : ℚ) ^ (e + 53 + 1) := by
      rw [hk, ← zpow_add₀ (by norm_num : (2 : ℚ) ≠ 0)]
      exact zpow_lt_zpow_right₀ (by norm_num) (by omega)
    have := roundDouble_of_near ((k : ℚ) * (2 : ℚ) ^ e) (e + 53) ((2 : ℤ) ^ 52) b1 b2
      (by
        have : e + 53 - 52 = e + 1 := by ring
        rw [this, hk, ← zpow_add₀ (by norm_num : (2 : ℚ) ≠ 0), ← zpow_sub₀ (by norm_num : (2 : ℚ) ≠ 0)]
        have : (53 : ℤ) + e - (e + 1) = 52 := by ring
        rw [this]
        norm_num)
    rw [this, hk]
    have : e + 53 - 52 = e + 1 := by ring
    rw [this, ← zpow_add₀ (by norm_num : (2 : ℚ) ≠ 0)]
    have h52 : (((2 : ℤ) ^ 52 : ℤ) : ℚ) = (2 : ℚ) ^ (52 : ℤ) := by norm_num
    rw [h52, ← zpow_add₀ (by norm_num : (2 : ℚ) ≠ 0)]
    congr 1
    ring

theorem roundDouble_idem (q : ℚ) : roundDouble (roundDouble q) = roundDouble q := by
  have pos : ∀ a : ℚ, 0 < a → roundDouble (roundDouble a) = roundDouble a := by
    intro a ha
    rw [roundDouble_of_pos a ha]
    unfold ulp
    apply roundDouble_of_mantissa
    · exact le_roundHalfEven _ _
        (by have := two_pow_le_div_ulp a ha; unfold ulp at this; norm_num at this ⊢; exact this)
    · exact roundHalfEven_le _ _
        (by have := (div_ulp_lt_two_pow a ha).le; unfold ulp at this; norm_num at this ⊢; exact this)
  rcases lt_trichotomy q 0 with hq | hq | hq
  · have h := pos (-q) (by linarith)
    rw [roundDouble_neg, roundDouble_neg] at h
    linarith
  · rw [hq, roundDouble_zero, roundDouble_zero]
  · exact pos q hq

theorem roundHalfEven_of_half (f : ℤ) :
    roundHalfEven ((f : ℚ) + 1 / 2) = if f % 2 = 0 then f else f + 1 := by
  have hf : ⌊(f : ℚ) + 1 / 2⌋ = f := by
    rw [Int.floor_eq_iff]
    constructor <;> norm_num
  unfold roundHalfEven
  rw [hf]
  norm_num

/-- Evaluation of the rounding at a positive `q` halfway between two doubles. -/
theorem roundDouble_of_half (q : ℚ) (e f : ℤ) (h1 : (2 : ℚ) ^ e ≤ q) (h2 : q < (2 : ℚ) ^ (e + 1))
    (h3 : q / (2 : ℚ) ^ (e - 52) = (f : ℚ) + 1 / 2) :
    roundDouble q = ((if f % 2 = 0 then f else f + 1 : ℤ) : ℚ) * (2 : ℚ) ^ (e - 52) := by
  have hq : 0 < q := lt_of_lt_of_le (by positivity) h1
  rw [roundDouble_of_pos q hq, ulp_eq q e h1 h2, h3, roundHalfEven_of_half]

theorem roundNum_fin (q : ℚ) : roundNum (fin q) = fin (roundDouble q) := rfl

theorem simpleReturnsDouble_map_fin (ps : List ℚ) (h : ∀ p ∈ ps, p ≠ 0) :
    simpleReturnsDouble (ps.map fin) = (returnsD ps).map fin := by
  induction ps with
  | nil => rfl
  | cons p0 tl ih =>
    cases tl with
    | nil => rfl
    | cons p1 rest =>
      have h0 : p0 ≠ 0 := h p0 (by simp)
      have ih2 := ih (fun p hp => h p (List.mem_cons_of_mem _ hp))
      simp only [List.map_cons] at ih2 ⊢
      simp only [simpleReturnsDouble, returnsD, List.map_cons, ih2, JSNum.sub_fin, JSNum.div_fin,
        if_neg h0, roundNum_fin]

theorem returnsD_length (ps : List ℚ) : (returnsD ps).length = ps.length - 1 := by
  induction ps with
  | nil => rfl
  | cons p0 tl ih =>
    cases tl with
    | nil => rfl
    | cons p1 rest =>
      simp only [returnsD, List.length_cons] at ih ⊢
      omega

theorem returnsD_ne_nil (ps : List ℚ) (hlen : 2 ≤ ps.length) : returnsD ps ≠ [] := by
  intro h
  have := returnsD_length ps
  rw [h] at this
  simp at this
  omega

theorem foldl_addD_fin (l : List ℚ) :
    ∀ x : ℚ, (l.map fin).foldl (fun a b => roundNum (add a b)) (fin x) =
      fin (l.foldl (fun a b => roundDouble (a + b)) x) := by
  induction l with
  | nil => intro x; simp
  | cons r rs ih =>
    intro x
    simp only [List.map_cons, List.foldl_cons, JSNum.add_fin, roundNum_fin, ih]

theorem foldl_sqD_fin (l : List ℚ) (m : ℚ) :
    ∀ x : ℚ,
      (l.map fin).foldl (fun a b => roundNum (add a (roundNum (sq (roundNum (sub b (fin m)))))))
          (fin x) =
        fin (l.foldl
          (fun a b => roundDouble (a + roundDouble (roundDouble (b - m) * roundDouble (b - m))))
          x) := by
  induction l with
  | nil => intro x; simp
  | cons r rs ih =>
    intro x
    simp only [List.map_cons, List.foldl_cons, JSNum.add_fin, JSNum.sub_fin, JSNum.sq_fin,
      roundNum_fin, ih]

theorem meanDouble_fin (l : List ℚ) (hl : l ≠ []) :
    meanDouble (l.map fin) = fin (meanD l) := by
  have hn : (l.length : ℚ) ≠ 0 := by
    have : 0 < l.length := List.length_pos.mpr hl
    exact_mod_cast this.ne'
  simp only [meanDouble, foldl_addD_fin, List.length_map, JSNum.div_fin, if_neg hn, roundNum_fin,
    meanD]

theorem calculateVolatilityDouble_fin (ps : List ℚ) (hlen : 2 ≤ ps.length)
    (h : ∀ p ∈ ps, p ≠ 0) :
    calculateVolatilityDouble (ps.map fin) = ⟨fin (varianceD (returnsD ps))⟩ := by
  have hn : ((returnsD ps).length : ℚ) ≠ 0 := by
    rw [returnsD_length]
    have : 0 < ps.length - 1 := by omega
    exact_mod_cast this.ne'
  have hlt : ¬ ps.length < 2 := by omega
  simp only [calculateVolatilityDouble, List.length_map, if_neg hlt,
    simpleReturnsDouble_map_fin ps h, foldl_addD_fin, foldl_sqD_fin, JSNum.div_fin, if_neg hn,
    roundNum_fin, varianceD, meanD]

theorem foldl_sqD_nonneg (m : ℚ) (l : List ℚ) :
    ∀ x : ℚ, 0 ≤ x →
      0 ≤ l.foldl
        (fun a b => roundDouble (a + roundDouble (roundDouble (b - m) * roundDouble (b - m)))) x := by
  induction l with
  | nil => intro x hx; simpa using hx
  | cons r rs ih =>
    intro x hx
    simp only [List.foldl_cons]
    apply ih
    exact roundDouble_nonneg _
      (add_nonneg hx (roundDouble_nonneg _ (mul_self_nonneg _)))

theorem foldl_sqD_eq_zero_iff (m : ℚ) (l : List ℚ) :
    ∀ x : ℚ, 0 ≤ x →
      (l.foldl
        (fun a b => roundDouble (a + roundDouble (roundDouble (b - m) * roundDouble (b - m)))) x
          = 0 ↔ x = 0 ∧ ∀ r ∈ l, r = m) := by
  induction l with
  | nil => intro x hx; simp
  | cons r rs ih =>
    intro x hx
    have hs : 0 ≤ roundDouble (roundDouble (r - m) * roundDouble (r - m)) :=
      roundDouble_nonneg _ (mul_self_nonneg _)
    have hstep : 0 ≤ roundDouble (x + roundDouble (roundDouble (r - m) * roundDouble (r - m))) :=
      roundDouble_nonneg _ (add_nonneg hx hs)
    simp only [List.foldl_cons, List.mem_cons, forall_eq_or_imp]
    rw [ih _ hstep, roundDouble_eq_zero_iff]
    constructor
    · rintro ⟨h0, hrest⟩
      have hx0 : x = 0 := by linarith
      have hs0 : roundDouble (roundDouble (r - m) * roundDouble (r - m)) = 0 := by linarith
      rw [roundDouble_eq_zero_iff, mul_self_eq_zero, roundDouble_eq_zero_iff] at hs0
      exact ⟨hx0, by linarith, hrest⟩
    · rintro ⟨hx0, hr, hrest⟩
      refine ⟨?_, hrest⟩
      rw [hx0, hr, sub_self, roundDouble_zero, mul_zero, roundDouble_zero, add_zero]

theorem varianceD_eq_zero_iff (l : List ℚ) (hl : l ≠ []) :
    varianceD l = 0 ↔ ∀ r ∈ l, r = meanD l := by
  have hn : (l.length : ℚ) ≠ 0 := by
    have : 0 < l.length := List.length_pos.mpr hl
    exact_mod_cast this.ne'
  unfold varianceD
  rw [roundDouble_eq_zero_iff, div_eq_zero_iff, foldl_sqD_eq_zero_iff _ _ 0 le_rfl]
  simp [hn]

theorem calculateVolatilityDouble_isZero_iff (ps : List ℚ) (hlen : 2 ≤ ps.length)
    (h : ∀ p ∈ ps, p ≠ 0) :
    (calculateVolatilityDouble (ps.map fin)).isZero = true ↔
      ∀ r ∈ returnsD ps, r = meanD (returnsD ps) := by
  rw [calculateVolatilityDouble_fin ps hlen h, ← varianceD_eq_zero_iff _ (returnsD_ne_nil ps hlen)]
  simp [Root.isZero]

theorem returnsD_replicate (c : ℚ) (hc : c ≠ 0) (n : Nat) :
    returnsD (List.replicate n c) = List.replicate (n - 1) 0 := by
  induction n with
  | zero => simp [returnsD]
  | succ k ih =>
    cases k with
    | zero => simp [returnsD]
    | succ j =>
      simp only [List.replicate_succ, returnsD] at ih ⊢
      simp only [sub_self, roundDouble_zero, zero_div, Nat.add_sub_cancel] at ih ⊢
      rw [ih, List.replicate_succ]

theorem foldl_addD_replicate_zero (n : Nat) :
    (List.replicate n (0 : ℚ)).foldl (fun a b => roundDouble (a + b)) 0 = 0 := by
  induction n with
  | zero => simp
  | succ k ih => simp [List.replicate_succ, roundDouble_zero, ih]

theorem meanD_replicate_zero (n : Nat) : meanD (List.replicate n 0) = 0 := by
  unfold meanD
  rw [foldl_addD_replicate_zero, zero_div, roundDouble_zero]

theorem meanD_singleton (x : ℚ) : meanD [roundDouble x] = roundDouble x := by
  simp [meanD, roundDouble_idem]

theorem roundDouble_25 : roundDouble 25 = 25 := by
  have h := roundDouble_of_near 25 4 7036874417766400 (by norm_num) (by norm_num)
    (by norm_num [abs_lt])
  rw [h]; norm_num

theorem roundDouble_30 : roundDouble 30 = 30 := by
  have h := roundDouble_of_near 30 4 8444249301319680 (by norm_num) (by norm_num)
    (by norm_num [abs_lt])
  rw [h]; norm_num

theorem roundDouble_36 : roundDouble 36 = 36 := by
  have h := roundDouble_of_near 36 5 5066549580791808 (by norm_num) (by norm_num)
    (by norm_num [abs_lt])
  rw [h]; norm_num

theorem roundDouble_fifth :
    roundDouble (1 / 5) = 3602879701896397 / 18014398509481984 := by
  have h := roundDouble_of_near (1 / 5) (-3) 7205759403792794 (by norm_num) (by norm_num)
    (by norm_num [abs_lt])
  rw [h]; norm_num

theorem roundDouble_fifth_fixed :
    roundDouble (3602879701896397 / 18014398509481984) = 3602879701896397 / 18014398509481984 := by
  rw [← roundDouble_fifth, roundDouble_idem]

theorem roundDouble_two_fifths :
    roundDouble (3602879701896397 / 18014398509481984 + 3602879701896397 / 18014398509481984) =
      3602879701896397 / 9007199254740992 := by
  have h := roundDouble_of_near
    (3602879701896397 / 18014398509481984 + 3602879701896397 / 18014398509481984) (-2)
    7205759403792794 (by norm_num) (by norm_num) (by norm_num [abs_lt])
  rw [h]; norm_num

theorem roundDouble_three_fifths :
    roundDouble (3602879701896397 / 9007199254740992 + 3602879701896397 / 18014398509481984) =
      1351079888211149 / 2251799813685248 := by
  have h := roundDouble_of_half
    (3602879701896397 / 9007199254740992 + 3602879701896397 / 18014398509481984) (-1)
    5404319552844595 (by norm_num) (by norm_num) (by norm_num)
  rw [h]; norm_num

theorem roundDouble_mean :
    roundDouble (1351079888211149 / 2251799813685248 / 3) =
      7205759403792795 / 36028797018963968 := by
  have h := roundDouble_of_near (1351079888211149 / 2251799813685248 / 3) (-3)
    7205759403792795 (by norm_num) (by norm_num) (by norm_num [abs_lt])
  rw [h]; norm_num

theorem returnsD_example :
    returnsD [125, 150, 180, 216] =
      [3602879701896397 / 18014398509481984, 3602879701896397 / 18014398509481984,
        3602879701896397 / 18014398509481984] := by
  have e1 : (150 : ℚ) - 125 = 25 := by norm_num
  have e2 : (180 : ℚ) - 150 = 30 := by norm_num
  have e3 : (216 : ℚ) - 180 = 36 := by norm_num
  have f1 : (25 : ℚ) / 125 = 1 / 5 := by norm_num
  have f2 : (30 : ℚ) / 150 = 1 / 5 := by norm_num
  have f3 : (36 : ℚ) / 180 = 1 / 5 := by norm_num
  simp only [returnsD, e1, e2, e3, roundDouble_25, roundDouble_30, roundDouble_36, f1, f2, f3,
    roundDouble_fifth]

theorem meanD_example :
    meanD [3602879701896397 / 18014398509481984, 3602879701896397 / 18014398509481984,
        3602879701896397 / 18014398509481984] = 7205759403792795 / 36028797018963968 := by
  have l : ((([3602879701896397 / 18014398509481984, 3602879701896397 / 18014398509481984,
        3602879701896397 / 18014398509481984] : List ℚ).length : ℕ) : ℚ) = 3 := by norm_num
  unfold meanD
  rw [l]
  simp only [List.foldl_cons, List.foldl_nil, zero_add, roundDouble_fifth_fixed,
    roundDouble_two_fifths, roundDouble_three_fifths, roundDouble_mean]

theorem all_eq_of_all_eq_meanD (l : List ℚ) (h : ∀ r ∈ l, r = meanD l) :
    ∀ r ∈ l, ∀ r2 ∈ l, r = r2 := by
  intro r hr r2 hr2
  rw [h r hr, h r2 hr2]

theorem mem_map_fin_iff (l : List ℚ) (x : JSNum) : x ∈ l.map fin ↔ ∃ q ∈ l, x = fin q := by
  simp only [List.mem_map]
  constructor
  · rintro ⟨q, hq, rfl⟩; exact ⟨q, hq, rfl⟩
  · rintro ⟨q, hq, rfl⟩; exact ⟨q, hq, rfl⟩

/-- C29 (as stated, refuted): the prices 125, 150, 180, 216 are a geometric progression of
non-zero prices with ratio 6/5.  In double arithmetic every computed return is the double
nearest to 0.2, `3602879701896397 / 2^54`; their rounded sum is `0.6000000000000001`, the
computed mean is the next double above the returns, `7205759403792795 / 2^55`, and the
variance is not zero (the code returns about `2.78e-17`). -/
theorem calculateVolatilityDouble_geometric_nonzero :
    [125, 150, 180, 216] = geometric 125 (6 / 5) 4 ∧
      simpleReturnsDouble [fin 125, fin 150, fin 180, fin 216] =
        [fin (3602879701896397 / 18014398509481984),
          fin (3602879701896397 / 18014398509481984),
          fin (3602879701896397 / 18014398509481984)] ∧
      meanDouble (simpleReturnsDouble [fin 125, fin 150, fin 180, fin 216]) =
        fin (7205759403792795 / 36028797018963968) ∧
      (calculateVolatilityDouble [fin 125, fin 150, fin 180, fin 216]).isZero = false := by
  have hne : ∀ p ∈ ([125, 150, 180, 216] : List ℚ), p ≠ 0 := by
    intro p hp
    simp only [List.mem_cons, List.mem_singleton, List.not_mem_nil, or_false] at hp
    rcases hp with rfl | rfl | rfl | rfl <;> norm_num
  have hr := simpleReturnsDouble_map_fin [125, 150, 180, 216] hne
  rw [returnsD_example] at hr
  simp only [List.map_cons, List.map_nil] at hr
  refine ⟨by norm_num [geometric], hr, ?_, ?_⟩
  · rw [hr]
    have := meanDouble_fin [3602879701896397 / 18014398509481984,
      3602879701896397 / 18014398509481984, 3602879701896397 / 18014398509481984] (by simp)
    simp only [List.map_cons, List.map_nil] at this
    rw [this, meanD_example]
  · have hz := calculateVolatilityDouble_isZero_iff [125, 150, 180, 216] (by simp) hne
    simp only [List.map_cons, List.map_nil] at hz
    rw [Bool.eq_false_iff]
    intro h
    have h2 := hz.mp h
    rw [returnsD_example, meanD_example] at h2
    have h3 := h2 (3602879701896397 / 18014398509481984) (by simp)
    norm_num at h3

/-- C29 (amended): for every list of at least 2 non-zero prices, `calculateVolatility` in double
arithmetic returns 0 only if all computed period-over-period returns are equal; it returns 0
for every list of exactly 2 prices and for every constant list; and when all computed returns
are equal to one value `r`, it returns 0 exactly when the computed mean of the returns is `r`
(which a geometric progression need not satisfy). -/
theorem calculateVolatilityDouble_zero :
    (∀ ps : List ℚ, 2 ≤ ps.length → (∀ p ∈ ps, p ≠ 0) →
      (calculateVolatilityDouble (ps.map fin)).isZero = true →
        ∀ r ∈ simpleReturnsDouble (ps.map fin), ∀ r2 ∈ simpleReturnsDouble (ps.map fin),
          r = r2) ∧
    (∀ a b : ℚ, a ≠ 0 → b ≠ 0 → (calculateVolatilityDouble [fin a, fin b]).isZero = true) ∧
    (∀ (c : ℚ) (n : Nat), c ≠ 0 → 2 ≤ n →
      (calculateVolatilityDouble ((List.replicate n c).map fin)).isZero = true) ∧
    (∀ (ps : List ℚ) (r : ℚ), 2 ≤ ps.length → (∀ p ∈ ps, p ≠ 0) →
      (∀ x ∈ simpleReturnsDouble (ps.map fin), x = fin r) →
        ((calculateVolatilityDouble (ps.map fin)).isZero = true ↔
          meanDouble (simpleReturnsDouble (ps.map fin)) = fin r)) := by
  refine ⟨?_, ?_, ?_, ?_⟩
  · intro ps hlen hne hz
    have h := (calculateVolatilityDouble_isZero_iff ps hlen hne).mp hz
    rw [simpleReturnsDouble_map_fin ps hne]
    intro r hr r2 hr2
    obtain ⟨q, hq, rfl⟩ := (mem_map_fin_iff _ _).mp hr
    obtain ⟨q2, hq2, rfl⟩ := (mem_map_fin_iff _ _).mp hr2
    rw [all_eq_of_all_eq_meanD _ h q hq q2 hq2]
  · intro a b ha hb
    have hne : ∀ p ∈ [a, b], p ≠ 0 := by
      intro p hp
      simp only [List.mem_cons, List.mem_singleton, List.not_mem_nil, or_false] at hp
      rcases hp with rfl | rfl <;> assumption
    have h := calculateVolatilityDouble_isZero_iff [a, b] (by simp) hne
    simp only [List.map_cons, List.map_nil] at h
    rw [h]
    intro r hr
    simp only [returnsD, List.mem_singleton] at hr ⊢
    rw [hr, meanD_singleton]
  · intro c n hc hn
    rw [calculateVolatilityDouble_isZero_iff _ (by simpa using hn)
      (fun p hp => by rw [List.eq_of_mem_replicate hp]; exact hc)]
    intro r hr
    rw [returnsD_replicate c hc n] at hr ⊢
    rw [meanD_replicate_zero, List.eq_of_mem_replicate hr]
  · intro ps r hlen hne hall
    have hnil := returnsD_ne_nil ps hlen
    rw [simpleReturnsDouble_map_fin ps hne] at hall ⊢
    rw [meanDouble_fin _ hnil, calculateVolatilityDouble_isZero_iff ps hlen hne]
    have hall2 : ∀ q ∈ returnsD ps, q = r := by
      intro q hq
      have := hall (fin q) ((mem_map_fin_iff _ _).mpr ⟨q, hq, rfl⟩)
      exact JSNum.fin.inj this
    obtain ⟨q0, hq0⟩ := List.exists_mem_of_ne_nil _ hnil
    constructor
    · intro h
      rw [← h q0 hq0, hall2 q0 hq0]
    · intro h q hq
      rw [hall2 q hq]
      exact (JSNum.fin.inj h).symm

/-- Witness for C29: the two closes 3, 7, and the constant list 5, 5, 5, 5. -/
theorem calculateVolatilityDouble_zero_witness :
    (calculateVolatilityDouble [fin 3, fin 7]).isZero = true ∧
      (calculateVolatilityDouble ((List.replicate 4 5).map fin)).isZero = true :=
  ⟨calculateVolatilityDouble_zero.2.1 3 7 (by norm_num) (by norm_num),
    calculateVolatilityDouble_zero.2.2.1 5 4 (by norm_num) (by norm_num)⟩

/-! ## Symmetry and totals of the insights -/

theorem sentiment_exclusive (buy sell : Nat) :
    ¬ ((buy : ℚ) > 15 / 10 * (sell : ℚ) ∧ (sell : ℚ) > 15 / 10 * (buy : ℚ)) := by
  have hb : (0 : ℚ) ≤ buy := Nat.cast_nonneg buy
  have hs : (0 : ℚ) ≤ sell := Nat.cast_nonneg sell
  rintro ⟨h1, h2⟩
  linarith

theorem sentimentOf_eq_bearishFirst (buy sell : Nat) :
    sentimentOf buy sell = sentimentBearishFirst buy sell := by
  have hx := sentiment_exclusive buy sell
  unfold sentimentOf sentimentBearishFirst
  split_ifs with h1 h2 <;> first | rfl | exact absurd ⟨h1, h2⟩ hx

theorem sentimentOf_swap (buy sell : Nat) :
    sentimentOf sell buy = swapSentiment (sentimentOf buy sell) := by
  have hx := sentiment_exclusive buy sell
  by_cases hA : (buy : ℚ) > 15 / 10 * (sell : ℚ)
  · by_cases hB : (sell : ℚ) > 15 / 10 * (buy : ℚ)
    · exact absurd ⟨hA, hB⟩ hx
    · simp [sentimentOf, swapSentiment, hA, hB]
  · by_cases hB : (sell : ℚ) > 15 / 10 * (buy : ℚ)
    · simp [sentimentOf, swapSentiment, hA, hB]
    · simp [sentimentOf, swapSentiment, hA, hB]

theorem swapType_buy (s : Signal) :
    decide ((swapType s).type = "BUY") = decide (s.type = "SELL") := by
  unfold swapType
  by_cases h1 : s.type = "BUY"
  · have h2 : s.type ≠ "SELL" := by rw [h1]; decide
    simp [h1]
  · by_cases h2 : s.type = "SELL"
    · simp [h2]
    · simp [h1, h2]

theorem swapType_sell (s : Signal) :
    decide ((swapType s).type = "SELL") = decide (s.type = "BUY") := by
  unfold swapType
  by_cases h1 : s.type = "BUY"
  · simp [h1]
  · by_cases h2 : s.type = "SELL"
    · simp [h2]
    · simp [h1, h2]

theorem countP_swapType (signals : List Signal) :
    (signals.map swapType).countP (fun s => decide (s.type = "BUY")) =
        signals.countP (fun s => decide (s.type = "SELL")) ∧
      (signals.map swapType).countP (fun s => decide (s.type = "SELL")) =
        signals.countP (fun s => decide (s.type = "BUY")) := by
  constructor
  · rw [List.countP_map]
    congr 1
    funext s
    exact swapType_buy s
  · rw [List.countP_map]
    congr 1
    funext s
    exact swapType_sell s

/-- C26: for all counts the bullish condition `buy > 1.5 × sell` and the bearish condition
`sell > 1.5 × buy` cannot hold together, so the sentiment `updateInsights` stores is the one
obtained with the two tests in the other order; exchanging `BUY` and `SELL` in a batch
exchanges the two counts, exchanges `bullish` with `bearish` and keeps `neutral`. -/
theorem updateInsights_sentiment_symmetric (eng : Engine) (signals : List Signal) :
    (∀ buy sell : Nat,
      ¬ ((buy : ℚ) > 15 / 10 * (sell : ℚ) ∧ (sell : ℚ) > 15 / 10 * (buy : ℚ))) ∧
    (updateInsights eng signals).insights.marketSentiment =
      sentimentBearishFirst (updateInsights eng signals).insights.buySignals
        (updateInsights eng signals).insights.sellSignals ∧
    (updateInsights eng (signals.map swapType)).insights.buySignals =
      (updateInsights eng signals).insights.sellSignals ∧
    (updateInsights eng (signals.map swapType)).insights.sellSignals =
      (updateInsights eng signals).insights.buySignals ∧
    (updateInsights eng (signals.map swapType)).insights.marketSentiment =
      swapSentiment (updateInsights eng signals).insights.marketSentiment := by
  rw [updateInsights_insights, updateInsights_insights]
  have hc := countP_swapType signals
  refine ⟨sentiment_exclusive, sentimentOf_eq_bearishFirst _ _, hc.1, hc.2, ?_⟩
  simp only [rollup, hc.1, hc.2]
  exact sentimentOf_swap _ _

theorem countP_buy_add_sell (signals : List Signal)
    (h : ∀ s ∈ signals, s.type = "BUY" ∨ s.type = "SELL") :
    signals.length = signals.countP (fun s => decide (s.type = "BUY")) +
      signals.countP (fun s => decide (s.type = "SELL")) := by
  induction signals with
  | nil => rfl
  | cons s rest ih =>
    have ih2 := ih (fun x hx => h x (List.mem_cons_of_mem _ hx))
    have hne : ¬ ("BUY" = "SELL") := by decide
    have hne2 : ¬ ("SELL" = "BUY") := by decide
    rcases h s (by simp) with hs | hs
    · simp [List.countP_cons, hs, hne]
      omega
    · simp [List.countP_cons, hs, hne2]
      omega

theorem evaluator_types (ti : Indicators) (amb : Ambient) (symbol : String)
    (data : InstrumentData) :
    ∀ s, some s ∈ evaluatorOutputs ti amb symbol data → s.type = "BUY" ∨ s.type = "SELL" := by
  intro s hs
  simp only [evaluatorOutputs, List.mem_cons, List.mem_singleton, List.not_mem_nil,
    or_false] at hs
  rcases hs with h | h | h | h | h
  · have := type_of_verdict _ s _ _ _ (momentumStrategy_verdict _ _ _ _ _ _ _) h.symm
    exact Or.inl this.2.1
  · have := type_of_verdict _ s _ _ _ (meanReversionStrategy_verdict _ _ _ _ _) h.symm
    rw [this.2.1]
    exact buy_or_sell _
  · have := type_of_verdict _ s _ _ _ (breakoutStrategy_verdict _ _ _ _ _) h.symm
    rw [this.2.1]
    exact buy_or_sell _
  · have := type_of_verdict _ s _ _ _ (screenTimeStrategy_verdict _ _ _ _ _ _ _) h.symm
    rw [this.2.1]
    exact buy_or_sell _
  · revert h
    generalize (snapshotOf ti (data.prices.map fun p => p.close)).bb = bb
    intro h
    cases bb with
    | none =>
      have := type_of_verdict _ s _ _ _ (volatilityStrategy_verdict_none _ _ _ _) h.symm
      exact Or.inr this.2.1
    | some b =>
      have := type_of_verdict _ s _ _ _ (volatilityStrategy_verdict _ _ _ _ _) h.symm
      rw [this.2.1]
      exact buy_or_sell _

theorem analyzeInstrument_types (ti : Indicators) (amb : Ambient) (symbol : String)
    (data : InstrumentData) :
    ∀ s ∈ analyzeInstrument ti amb symbol data, s.type = "BUY" ∨ s.type = "SELL" := by
  intro s hs
  by_cases h : 50 ≤ data.prices.length
  · rw [analyzeInstrument_eq_outputs ti amb symbol data h] at hs
    exact evaluator_types ti amb symbol data s (List.reduceOption_mem_iff.mp hs)
  · have hlt : data.prices.length < 50 := by omega
    simp [analyzeInstrument, hlt] at hs

/-- C27: for every signal list in which each type is `BUY` or `SELL`, the insights after
`updateInsights` satisfy `totalSignals = buySignals + sellSignals` and `strongSignals ≤
totalSignals`; every list `generateSignals` returns is such a list, so the insights it stores
satisfy both. -/
theorem updateInsights_totals (eng : Engine) :
    (∀ signals : List Signal, (∀ s ∈ signals, s.type = "BUY" ∨ s.type = "SELL") →
      (updateInsights eng signals).insights.totalSignals =
          (updateInsights eng signals).insights.buySignals +
            (updateInsights eng signals).insights.sellSignals ∧
        (updateInsights eng signals).insights.strongSignals ≤
          (updateInsights eng signals).insights.totalSignals) ∧
    (∀ (ti : Indicators) (amb : String → Ambient)
        (marketData : List (String × InstrumentData)),
      (∀ s ∈ (generateSignals ti amb eng marketData).1, s.type = "BUY" ∨ s.type = "SELL") ∧
      (generateSignals ti amb eng marketData).2.insights.totalSignals =
          (generateSignals ti amb eng marketData).2.insights.buySignals +
            (generateSignals ti amb eng marketData).2.insights.sellSignals ∧
        (generateSignals ti amb eng marketData).2.insights.strongSignals ≤
          (generateSignals ti amb eng marketData).2.insights.totalSignals) := by
  have key : ∀ signals : List Signal, (∀ s ∈ signals, s.type = "BUY" ∨ s.type = "SELL") →
      (updateInsights eng signals).insights.totalSignals =
          (updateInsights eng signals).insights.buySignals +
            (updateInsights eng signals).insights.sellSignals ∧
        (updateInsights eng signals).insights.strongSignals ≤
          (updateInsights eng signals).insights.totalSignals := by
    intro signals h
    rw [updateInsights_insights]
    exact ⟨countP_buy_add_sell signals h, List.countP_le_length _⟩
  refine ⟨key, fun ti amb marketData => ?_⟩
  have ht : ∀ s ∈ (generateSignals ti amb eng marketData).1,
      s.type = "BUY" ∨ s.type = "SELL" := by
    intro s hs
    rw [generateSignals_fst, List.mem_flatMap] at hs
    obtain ⟨e, _, he⟩ := hs
    exact analyzeInstrument_types ti (amb e.1) e.1 e.2 s he
  refine ⟨ht, ?_⟩
  rw [generateSignals_snd]
  exact key _ ht

/-- Witness for C27: a batch of one `BUY` and one `SELL`. -/
theorem updateInsights_totals_witness :
    (updateInsights constructor
        [sampleSignal "A" "BUY" (7 / 10), sampleSignal "B" "SELL" (5 / 10)]).insights.totalSignals =
      (updateInsights constructor
        [sampleSignal "A" "BUY" (7 / 10), sampleSignal "B" "SELL" (5 / 10)]).insights.buySignals +
      (updateInsights constructor
        [sampleSignal "A" "BUY" (7 / 10), sampleSignal "B" "SELL" (5 / 10)]).insights.sellSignals ∧
    (updateInsights constructor
        [sampleSignal "A" "BUY" (7 / 10), sampleSignal "B" "SELL" (5 / 10)]).insights.strongSignals ≤
      (updateInsights constructor
        [sampleSignal "A" "BUY" (7 / 10), sampleSignal "B" "SELL" (5 / 10)]).insights.totalSignals :=
  (updateInsights_totals constructor).1
    [sampleSignal "A" "BUY" (7 / 10), sampleSignal "B" "SELL" (5 / 10)]
    (by
      intro s hs
      simp only [List.mem_cons, List.mem_singleton, List.not_mem_nil, or_false] at hs
      rcases hs with hs | hs
      · exact Or.inl (by rw [hs]; rfl)
      · exact Or.inr (by rw [hs]; rfl))

/-! ## Position size at small and zero balances -/

theorem positionSizeSpec_small (b : ℚ) (h1 : b < 10000) :
    positionSizeSpec b = 1 := by
  unfold positionSizeSpec
  have hf : ⌊b * (2 / 100) / 100⌋ < 2 := by
    rw [Int.floor_lt]
    push_cast
    linarith
  have : Min.min ⌊b * (2 / 100) / 100⌋ 100 ≤ 1 := by
    have := min_le_left ⌊b * (2 / 100) / 100⌋ (100 : ℤ)
    omega
  exact max_eq_left this

theorem positionSizeSpec_mono (b1 b2 : ℚ) (h : b1 ≤ b2) :
    positionSizeSpec b1 ≤ positionSizeSpec b2 := by
  unfold positionSizeSpec
  have hf : ⌊b1 * (2 / 100) / 100⌋ ≤ ⌊b2 * (2 / 100) / 100⌋ :=
    Int.floor_mono (by linarith)
  exact max_le_max (le_refl _) (min_le_min hf (le_refl _))

/-- C28: `calculatePositionSize` gives a balance of 0 the size 20 of a missing balance (and of
the default balance 100000), whereas every balance `b` with `0 < b < 10000` gives 1: the size at
balance 1 is below the size at balance 0, so the quantity is not monotone in the balance; on
strictly positive balances it is monotone. -/
theorem calculatePositionSize_zero_as_missing (signal : Signal) :
    calculatePositionSize signal { balance := some (fin 0) } = fin 20 ∧
    calculatePositionSize signal { balance := none } = fin 20 ∧
    calculatePositionSize signal { balance := some (fin 100000) } = fin 20 ∧
    (∀ b : ℚ, 0 < b → b < 10000 →
      calculatePositionSize signal { balance := some (fin b) } = fin 1) ∧
    lt (calculatePositionSize signal { balance := some (fin 1) })
      (calculatePositionSize signal { balance := some (fin 0) }) = true ∧
    (∀ b1 b2 : ℚ, 0 < b1 → b1 ≤ b2 →
      le (calculatePositionSize signal { balance := some (fin b1) })
        (calculatePositionSize signal { balance := some (fin b2) }) = true) := by
  have h0 := calculatePositionSize_default signal { balance := some (fin 0) }
    (Or.inr (Or.inr rfl))
  have hsmall : ∀ b : ℚ, 0 < b → b < 10000 →
      calculatePositionSize signal { balance := some (fin b) } = fin 1 := by
    intro b hb hlt
    rw [calculatePositionSize_fin signal b hb.ne', positionSizeSpec_small b hlt]
    simp
  refine ⟨h0, calculatePositionSize_default signal _ (Or.inl rfl), ?_, hsmall, ?_, ?_⟩
  · rw [calculatePositionSize_fin signal 100000 (by norm_num), positionSizeSpec_default]
    simp
  · rw [h0, hsmall 1 (by norm_num) (by norm_num)]
    norm_num
  · intro b1 b2 hb1 hle
    have hb2 : 0 < b2 := lt_of_lt_of_le hb1 hle
    rw [calculatePositionSize_fin signal b1 hb1.ne',
      calculatePositionSize_fin signal b2 hb2.ne']
    simpa using positionSizeSpec_mono b1 b2 hle

/-- Witness for C28: balance 9999 gives 1, which is at most the size at balance 250000. -/
theorem calculatePositionSize_zero_as_missing_witness :
    calculatePositionSize (sampleSignal "INFY" "BUY" (7 / 10)) { balance := some (fin 9999) } =
        fin 1 ∧
      le (calculatePositionSize (sampleSignal "INFY" "BUY" (7 / 10))
          { balance := some (fin 9999) })
        (calculatePositionSize (sampleSignal "INFY" "BUY" (7 / 10))
          { balance := some (fin 250000) }) = true :=
  ⟨(calculatePositionSize_zero_as_missing (sampleSignal "INFY" "BUY" (7 / 10))).2.2.2.1 9999
      (by norm_num) (by norm_num),
    (calculatePositionSize_zero_as_missing (sampleSignal "INFY" "BUY" (7 / 10))).2.2.2.2.2
      9999 250000 (by norm_num) (by norm_num)⟩

/-! ## Contradicting evaluators -/

theorem sliceLast_20_fallingSeries : sliceLast 20 (fallingSeries.map fin) =
    [fin 617, fin 580, fin 597, fin 561, fin 578, fin 543, fin 559, fin 525, fin 541, fin 509,
      fin 524, fin 493, fin 508, fin 478, fin 492, fin 462, fin 476, fin 447, fin 460,
      fin 410] := by
  simp [sliceLast, fallingSeries]

theorem volatility_20_fallingSeries :
    (calculateVolatility (sliceLast 20 (fallingSeries.map fin))).gt (3 / 100) = true := by
  rw [sliceLast_20_fallingSeries]
  norm_num [calculateVolatility, simpleReturns, Root.gt]

/-- C30: on one snapshot (price 410, RSI 28.93, bands 411.88, 518, 624.12, the closes
`fallingSeries` with trailing-20 volatility above 0.03) `meanReversionStrategy` emits a `BUY`
and `volatilityStrategy` emits a `SELL`, and `analyzeInstrument` returns both for the one
instrument. -/
theorem evaluators_contradict :
    meanReversionStrategy "t" "NIFTY" (fin 410) (fin (2893 / 100))
        (some { upper := fin (62412 / 100), middle := fin 518, lower := fin (41188 / 100) }) =
      some
        { symbol := "NIFTY"
          type := "BUY"
          strength := fin (7 / 10)
          reason := "RSI oversold, Price below lower Bollinger Band"
          strategy := "Mean Reversion"
          timestamp := "t" } ∧
    volatilityStrategy "t" "NIFTY" (fin 410)
        (some { upper := fin (62412 / 100), middle := fin 518, lower := fin (41188 / 100) })
        (fallingSeries.map fin) =
      some
        { symbol := "NIFTY"
          type := "SELL"
          strength := fin (6 / 10)
          reason := "High volatility detected, Price near support/resistance"
          strategy := "Volatility"
          timestamp := "t" } ∧
    ({ symbol := "NIFTY"
       type := "BUY"
       strength := fin (7 / 10)
       reason := "RSI oversold, Price below lower Bollinger Band"
       strategy := "Mean Reversion"
       timestamp := "t" } : Signal) ∈
      analyzeInstrument reportedIndicators (fixedAmbient 0 "t") "NIFTY" fallingInstrument ∧
    ({ symbol := "NIFTY"
       type := "SELL"
       strength := fin (6 / 10)
       reason := "High volatility detected, Price near support/resistance"
       strategy := "Volatility"
       timestamp := "t" } : Signal) ∈
      analyzeInstrument reportedIndicators (fixedAmbient 0 "t") "NIFTY" fallingInstrument := by
  have hmr : meanReversionStrategy "t" "NIFTY" (fin 410) (fin (2893 / 100))
        (some { upper := fin (62412 / 100), middle := fin 518, lower := fin (41188 / 100) }) =
      some
        { symbol := "NIFTY"
          type := "BUY"
          strength := fin (7 / 10)
          reason := "RSI oversold, Price below lower Bollinger Band"
          strategy := "Mean Reversion"
          timestamp := "t" } := by
    norm_num [meanReversionStrategy, andAlso]
    decide
  have hvol : volatilityStrategy "t" "NIFTY" (fin 410)
        (some { upper := fin (62412 / 100), middle := fin 518, lower := fin (41188 / 100) })
        (fallingSeries.map fin) =
      some
        { symbol := "NIFTY"
          type := "SELL"
          strength := fin (6 / 10)
          reason := "High volatility detected, Price near support/resistance"
          strategy := "Volatility"
          timestamp := "t" } := by
    have hv := volatility_20_fallingSeries
    simp only [volatilityStrategy, hv]
    norm_num [andAlso, abs_div]
    decide
  have hlen : 50 ≤ fallingInstrument.prices.length := by
    simp [fallingInstrument, fallingSeries]
  have hprices : fallingInstrument.prices.map (fun p => p.close) = fallingSeries.map fin := by
    simp [fallingInstrument]
  refine ⟨hmr, hvol, ?_, ?_⟩
  · rw [analyzeInstrument_eq_outputs _ _ _ _ hlen, List.reduceOption_mem_iff]
    simp only [evaluatorOutputs, snapshotOf, hprices]
    have : meanReversionStrategy ((fixedAmbient 0 "t").now 1) "NIFTY"
        fallingInstrument.currentPrice
        ((reportedIndicators.RSI 14 (fallingSeries.map fin)).getLast?.getD nan)
        (reportedIndicators.BollingerBands 20 2 (fallingSeries.map fin)).getLast? = _ := hmr
    rw [this]
    simp
  · rw [analyzeInstrument_eq_outputs _ _ _ _ hlen, List.reduceOption_mem_iff]
    simp only [evaluatorOutputs, snapshotOf, hprices]
    have : volatilityStrategy ((fixedAmbient 0 "t").now 4) "NIFTY"
        fallingInstrument.currentPrice
        (reportedIndicators.BollingerBands 20 2 (fallingSeries.map fin)).getLast?
        (fallingSeries.map fin) = _ := hvol
    rw [this]
    simp

end AITradingEngine
